import Mathlib

/-! # go-echo-starter: token service and authentication flow

A shallow embedding of `pkg/jwt/jwt.go`, `internal/config/config.go`,
`internal/service/auth_service.go`, `internal/service/user_service.go`,
`internal/domain/user.go`, `internal/repository/user_repository.go`,
`internal/middleware/auth.go`, `pkg/response/response.go` and the handlers `Register`,
`Login` and `GetMe` of `internal/handler/auth_handler.go`, together with a model of the
parts of the Go standard library, of `github.com/golang-jwt/jwt/v5` and of
`github.com/labstack/echo/v4` that this code calls.

Conventions
* a Go `string` / `[]byte` is a list of bytes (`GoString`);
* `time.Time` is an integer number of nanoseconds since the Unix epoch,
  `time.Duration` an integer number of nanoseconds (an `int64`);
* `time.Now()` is an explicit argument;
* a service method returns an `Outcome`: its result, the calls it made on its collaborators
  and the state of the store; a run of the gate returns a `GateRun`;
* the JSON encoder/decoder and the hash functions of the standard library are
  fields of `Lib`; base64url, HMAC key handling, token segmentation, the
  signing-method registry and claim validation are modelled concretely.
-/

namespace GoEchoStarter

/-! ## Bytes and strings -/

abbrev Byte := Fin 256
abbrev GoString := List Byte

/-- Byte with value `n % 256`. -/
def byte (n : Nat) : Byte := ⟨n % 256, Nat.mod_lt _ (by decide)⟩

/-- Go string literal made of ASCII characters. -/
def ascii (s : String) : GoString := s.toList.map (fun c => byte c.toNat)

/-! ## encoding/base64, `RawURLEncoding` (non-strict, as used by `jwt.Parser.DecodeSegment`) -/

/-- Character of the URL alphabet `A-Z a-z 0-9 - _` for a 6-bit value. -/
def b64Char (v : Nat) : Byte :=
  if v < 26 then byte (65 + v)
  else if v < 52 then byte (97 + (v - 26))
  else if v < 62 then byte (48 + (v - 52))
  else if v = 62 then byte 45
  else byte 95

/-- Six-bit value of an alphabet character, `none` for any other byte. -/
def b64Val (c : Byte) : Option Nat :=
  if 65 ≤ c.val ∧ c.val ≤ 90 then some (c.val - 65)
  else if 97 ≤ c.val ∧ c.val ≤ 122 then some (c.val - 71)
  else if 48 ≤ c.val ∧ c.val ≤ 57 then some (c.val + 4)
  else if c.val = 45 then some 62
  else if c.val = 95 then some 63
  else none

/-- Go `base64.RawURLEncoding.EncodeToString`: three bytes become four characters, a final
group of one or two bytes becomes two or three characters, no padding. -/
def b64Encode : List Byte → GoString
  | [] => []
  | [a] => [b64Char (a.val / 4), b64Char (a.val % 4 * 16)]
  | [a, b] =>
    [b64Char (a.val / 4), b64Char (a.val % 4 * 16 + b.val / 16), b64Char (b.val % 16 * 4)]
  | a :: b :: c :: rest =>
    b64Char (a.val / 4) :: b64Char (a.val % 4 * 16 + b.val / 16) ::
      b64Char (b.val % 16 * 4 + c.val / 64) :: b64Char (c.val % 64) :: b64Encode rest

/-- The six-bit values that `b64Encode` turns into characters. -/
def b64EncodeVals : List Byte → List Nat
  | [] => []
  | [a] => [a.val / 4, a.val % 4 * 16]
  | [a, b] => [a.val / 4, a.val % 4 * 16 + b.val / 16, b.val % 16 * 4]
  | a :: b :: c :: rest =>
    a.val / 4 :: (a.val % 4 * 16 + b.val / 16) :: (b.val % 16 * 4 + c.val / 64) ::
      c.val % 64 :: b64EncodeVals rest

/-- Six-bit values of a whole segment; fails on the first byte outside the alphabet. -/
def b64Vals : GoString → Option (List Nat)
  | [] => some []
  | c :: cs =>
    match b64Val c with
    | none => none
    | some v =>
      match b64Vals cs with
      | none => none
      | some vs => some (v :: vs)

/-- Groups of four values become three bytes; a final group of two or three values becomes
one or two bytes, its unused low bits being ignored (the decoder is not `Strict`); a final
group of a single value is corrupt input. -/
def b64DecodeVals : List Nat → Option (List Byte)
  | [] => some []
  | [_] => none
  | [v0, v1] => some [byte (v0 * 4 + v1 / 16)]
  | [v0, v1, v2] => some [byte (v0 * 4 + v1 / 16), byte (v1 % 16 * 16 + v2 / 4)]
  | v0 :: v1 :: v2 :: v3 :: rest =>
    match b64DecodeVals rest with
    | none => none
    | some bs =>
      some (byte (v0 * 4 + v1 / 16) :: byte (v1 % 16 * 16 + v2 / 4) ::
        byte (v2 % 4 * 64 + v3) :: bs)

/-- Go `base64.RawURLEncoding.DecodeString`: carriage returns and line feeds are skipped, every
other byte must belong to the alphabet. -/
def b64Decode (s : GoString) : Option (List Byte) :=
  match b64Vals (s.filter (fun c => c.val ≠ 10 ∧ c.val ≠ 13)) with
  | none => none
  | some vs => b64DecodeVals vs

/-! ## Go values shared by the packages -/

/-- A `time.Time`, in nanoseconds since the Unix epoch. -/
abbrev Time := Int

/-- A `time.Duration`, in nanoseconds. -/
abbrev Duration := Int

/-- The constant `time.Second`. -/
def Second : Duration := 1000000000

/-- The constant `time.Hour`. -/
def Hour : Duration := 3600 * Second

/-- Two's-complement wrap-around of `int64` arithmetic. -/
def wrap64 (x : Int) : Int := (x + 2 ^ 63) % 2 ^ 64 - 2 ^ 63

/-- A `uuid.UUID` (sixteen bytes). -/
abbrev UUID := Fin (2 ^ 128)

/-- Go `error` values: the sentinels declared by the packages of the repository, errors
created by foreign code (database driver, bcrypt, ...) and errors wrapping another one. -/
inductive Error where
  | ErrInvalidToken
  | ErrExpiredToken
  | ErrNotFound
  | ErrDuplicateEmail
  | ErrInvalidCredentials
  | ErrEmailAlreadyExists
  | ErrUserNotFound
  | ErrEmailExists
  | ErrInvalidInput
  | foreign (msg : GoString)
  | wrap (msg : GoString) (inner : Error)
  deriving DecidableEq, Repr

deriving instance DecidableEq for Except

/-- The function `errors.Is`: the error, or an error in its chain of wrapped errors, is the
target. -/
def errorsIs : Error → Error → Bool
  | .wrap msg inner, target => decide (Error.wrap msg inner = target) || errorsIs inner target
  | e, target => decide (e = target)

/-- The struct `domain.User`. -/
structure User where
  ID : UUID
  Name : GoString
  Email : GoString
  Password : GoString
  CreatedAt : Time
  UpdatedAt : Time
  deriving DecidableEq, Repr

/-- The struct `domain.RegisterRequest`. -/
structure RegisterRequest where
  Name : GoString
  Email : GoString
  Password : GoString
  deriving DecidableEq, Repr

/-- The struct `domain.TokenResponse`. -/
structure TokenResponse where
  AccessToken : GoString
  TokenType : GoString
  ExpiresIn : Int
  deriving DecidableEq, Repr

/-! ## github.com/golang-jwt/jwt/v5 -/

/-- The struct `jwt.RegisteredClaims`. A `*NumericDate` is `none` when nil and otherwise a time
truncated to `jwt.TimePrecision` (one second), held as the number of seconds since the epoch. -/
structure RegisteredClaims where
  Issuer : GoString
  Subject : GoString
  Audience : List GoString
  ExpiresAt : Option Int
  NotBefore : Option Int
  IssuedAt : Option Int
  ID : GoString
  deriving DecidableEq, Repr

/-- The struct `jwt.Claims` of `pkg/jwt`. -/
structure Claims where
  UserID : UUID
  Name : GoString
  Email : GoString
  Registered : RegisteredClaims
  deriving DecidableEq, Repr

/-- Go `jwt.NewNumericDate`: the time truncated (rounded down) to `jwt.TimePrecision`. -/
def NewNumericDate (t : Time) : Option Int := some (t / Second)

/-- The instant denoted by a `NumericDate`. -/
def NumericDate.Time (secs : Int) : Time := secs * Second

/-- Hash functions behind the HMAC signing methods. -/
inductive HashAlg where
  | SHA256
  | SHA384
  | SHA512
  deriving DecidableEq, Repr

/-- Block size of the hash, `hash.Hash.BlockSize`. -/
def HashAlg.BlockSize : HashAlg → Nat
  | .SHA256 => 64
  | .SHA384 => 128
  | .SHA512 => 128

/-- The signing methods registered by the package. -/
inductive SigningMethod where
  | HMAC (h : HashAlg)
  | RSA (h : HashAlg)
  | RSAPSS (h : HashAlg)
  | ECDSA (h : HashAlg)
  | Ed25519
  | None
  deriving DecidableEq, Repr

/-- The method `Alg` of a signing method. -/
def SigningMethod.Alg : SigningMethod → GoString
  | .HMAC .SHA256 => ascii "HS256"
  | .HMAC .SHA384 => ascii "HS384"
  | .HMAC .SHA512 => ascii "HS512"
  | .RSA .SHA256 => ascii "RS256"
  | .RSA .SHA384 => ascii "RS384"
  | .RSA .SHA512 => ascii "RS512"
  | .RSAPSS .SHA256 => ascii "PS256"
  | .RSAPSS .SHA384 => ascii "PS384"
  | .RSAPSS .SHA512 => ascii "PS512"
  | .ECDSA .SHA256 => ascii "ES256"
  | .ECDSA .SHA384 => ascii "ES384"
  | .ECDSA .SHA512 => ascii "ES512"
  | .Ed25519 => ascii "EdDSA"
  | .None => ascii "none"

/-- All registered signing methods. -/
def signingMethods : List SigningMethod :=
  [.HMAC .SHA256, .HMAC .SHA384, .HMAC .SHA512, .RSA .SHA256, .RSA .SHA384, .RSA .SHA512,
   .RSAPSS .SHA256, .RSAPSS .SHA384, .RSAPSS .SHA512, .ECDSA .SHA256, .ECDSA .SHA384,
   .ECDSA .SHA512, .Ed25519, .None]

/-- Go `jwt.GetSigningMethod`: registry lookup by the value of the `alg` header. -/
def GetSigningMethod (alg : GoString) : Option SigningMethod :=
  signingMethods.find? (fun m => decide (m.Alg = alg))

/-- Primitives of the Go standard library that are not modelled further. -/
structure Lib where
  /-- The digest of a message: `sha256.Sum256`, `sha512.Sum384`, `sha512.Sum512`. -/
  hashSum : HashAlg → List Byte → List Byte
  /-- Go `json.Marshal` of the header map `{"alg": alg, "typ": "JWT"}`. -/
  marshalHeader : GoString → GoString
  /-- Go `json.Unmarshal` of a header segment followed by the lookup of a string under `"alg"`:
  `none` when the bytes are not a JSON object, `some none` when there is no string `alg`. -/
  unmarshalHeader : List Byte → Option (Option GoString)
  /-- Go `json.Marshal` of a `Claims` value. -/
  marshalClaims : Claims → GoString
  /-- Go `json.Unmarshal` of a payload segment into a `Claims` value. -/
  unmarshalClaims : List Byte → Option Claims

/-- Key block of `hmac.New`: a key longer than the block size is replaced by its digest, and
the key is copied into a zeroed block. -/
def hmacKeyBlock (L : Lib) (h : HashAlg) (key : List Byte) : List Byte :=
  let k := if key.length > h.BlockSize then L.hashSum h key else key
  (k ++ List.replicate (h.BlockSize - k.length) (byte 0)).take h.BlockSize

/-- The MAC computed by `hmac.New(h, key)`, `Write(msg)`, `Sum(nil)`. -/
def hmacSum (L : Lib) (h : HashAlg) (key msg : List Byte) : List Byte :=
  let block := hmacKeyBlock L h key
  let ipad := block.map (fun b => byte (b.val ^^^ 0x36))
  let opad := block.map (fun b => byte (b.val ^^^ 0x5c))
  L.hashSum h (opad ++ L.hashSum h (ipad ++ msg))

/-- The method `Sign` of a signing method, called with a key of type `[]byte`: only the HMAC
methods accept such a key. The hash functions are linked into the program. -/
def SigningMethod.Sign (L : Lib) (m : SigningMethod) (signingString : GoString)
    (key : List Byte) : Except Error (List Byte) :=
  match m with
  | .HMAC h => .ok (hmacSum L h key signingString)
  | _ => .error (.foreign (ascii "key is of invalid type"))

/-- The method `Verify` of a signing method, called with a key of type `[]byte`;
`hmac.Equal` holds exactly when the two byte strings are equal. -/
def SigningMethod.Verify (L : Lib) (m : SigningMethod) (signingString : GoString)
    (sig key : List Byte) : Bool :=
  match m with
  | .HMAC h => decide (sig = hmacSum L h key signingString)
  | _ => false

/-- Errors returned by `Parser.ParseWithClaims`, up to what `errors.Is` can tell apart. -/
inductive ParseError where
  /-- The sentinel `ErrTokenMalformed`. -/
  | malformed
  /-- The sentinel `ErrTokenUnverifiable`: no usable `alg` header. -/
  | unverifiable
  /-- The sentinel `ErrTokenUnverifiable` joined with the error of the key function. -/
  | keyfunc (e : Error)
  /-- The sentinel `ErrTokenSignatureInvalid`. -/
  | signatureInvalid
  /-- The sentinel `ErrTokenInvalidClaims` joined with `ErrTokenExpired` and/or
  `ErrTokenNotValidYet`. -/
  | invalidClaims (expired notValidYet : Bool)
  deriving DecidableEq, Repr

/-- Whether `errors.Is(err, jwt.ErrTokenExpired)` holds. -/
def ParseError.isTokenExpired : ParseError → Bool
  | .invalidClaims true _ => true
  | _ => false

/-- The struct `jwt.Token` after parsing. -/
structure Token where
  Method : SigningMethod
  Claims : Claims
  Signature : List Byte
  Valid : Bool
  deriving DecidableEq, Repr

/-- The byte `.` separating the segments of a token. -/
def dot : Byte := byte 46

/-- Go `strings.Split` with a one-byte separator. -/
def splitOn (sep : Byte) : GoString → List GoString
  | [] => [[]]
  | c :: cs =>
    if c = sep then [] :: splitOn sep cs
    else
      match splitOn sep cs with
      | [] => [[c]]
      | p :: ps => (c :: p) :: ps

/-- Go `Validator.Validate` with the default options (no leeway, `exp` not required, `iat` not
verified, no expected audience, issuer or subject): the pair (expired, not valid yet). -/
def validateClaims (c : Claims) (now : Time) : Bool × Bool :=
  (match c.Registered.ExpiresAt with
   | some exp => !decide (now < NumericDate.Time exp)
   | none => false,
   match c.Registered.NotBefore with
   | some nbf => decide (now < NumericDate.Time nbf)
   | none => false)

/-- Go `Token.SignedString` for a token made by `jwt.NewWithClaims(method, claims)`. -/
def SignedString (L : Lib) (method : SigningMethod) (claims : Claims) (key : List Byte) :
    Except Error GoString :=
  let sstr := b64Encode (L.marshalHeader method.Alg) ++ dot :: b64Encode (L.marshalClaims claims)
  match method.Sign L sstr key with
  | .error e => .error e
  | .ok sig => .ok (sstr ++ dot :: b64Encode sig)

/-- Go `jwt.ParseWithClaims(tokenString, &Claims{}, keyFunc)` with the default parser options;
`now` is the value of `time.Now()` read by the validator. The steps are those of the parser:
three segments, header, payload, lookup of the method named by `alg`, signature segment,
key function, signature check, claim validation. -/
def ParseWithClaims (L : Lib) (now : Time) (tokenString : GoString)
    (keyFunc : SigningMethod → Except Error (List Byte)) : Except ParseError Token :=
  match splitOn dot tokenString with
  | [seg0, seg1, seg2] =>
    match b64Decode seg0 with
    | none => .error .malformed
    | some headerBytes =>
    match L.unmarshalHeader headerBytes with
    | none => .error .malformed
    | some algField =>
    match b64Decode seg1 with
    | none => .error .malformed
    | some claimBytes =>
    match L.unmarshalClaims claimBytes with
    | none => .error .malformed
    | some claims =>
    match algField with
    | none => .error .unverifiable
    | some alg =>
    match GetSigningMethod alg with
    | none => .error .unverifiable
    | some method =>
    match b64Decode seg2 with
    | none => .error .malformed
    | some sig =>
    match keyFunc method with
    | .error e => .error (.keyfunc e)
    | .ok key =>
    if !method.Verify L (seg0 ++ dot :: seg1) sig key then .error .signatureInvalid
    else
      match validateClaims claims now with
      | (false, false) => .ok { Method := method, Claims := claims, Signature := sig, Valid := true }
      | (expired, notValidYet) => .error (.invalidClaims expired notValidYet)
  | _ => .error .malformed

/-! ## float64 arithmetic, `time.Duration.Seconds` -/

/-- Rounding of a rational to the nearest integer, ties to even. -/
def roundHalfEven (x : ℚ) : ℤ :=
  let f := ⌊x⌋
  if x - f < 1 / 2 then f
  else if 1 / 2 < x - f then f + 1
  else if f % 2 = 0 then f
  else f + 1

/-- Rounding of a rational to the nearest `float64` (53-bit significand, ties to even), for
magnitudes in the normal range; every value that arises below is zero or lies between
`1e-9` and `1e10` in magnitude. -/
def float64 (q : ℚ) : ℚ :=
  if q = 0 then 0
  else
    let ulp : ℚ := 2 ^ (Int.log 2 |q| - 52)
    roundHalfEven (q / ulp) * ulp

/-- The method `Duration.Seconds`: `float64(d / Second) + float64(d % Second) / 1e9`, the
integer division and remainder truncating toward zero. -/
def Duration.Seconds (d : Duration) : ℚ :=
  float64 (float64 (Int.tdiv d Second) + float64 (float64 (Int.tmod d Second) / float64 1000000000))

/-- The conversion `int64(x)` of a `float64` within the range of `int64`: the fraction is
discarded. -/
def toInt64 (x : ℚ) : Int := Int.tdiv x.num x.den

/-! ## internal/config -/

/-- The struct `config.AppConfig`. -/
structure AppConfig where
  Port : GoString
  Env : GoString
  deriving DecidableEq, Repr

/-- The struct `config.DatabaseConfig`. -/
structure DatabaseConfig where
  Host : GoString
  Port : Int
  User : GoString
  Password : GoString
  DBName : GoString
  SSLMode : GoString
  deriving DecidableEq, Repr

/-- The struct `config.LogConfig`. -/
structure LogConfig where
  Level : GoString
  deriving DecidableEq, Repr

/-- The struct `config.JWTConfig`. -/
structure JWTConfig where
  Secret : GoString
  ExpireTime : Duration
  deriving DecidableEq, Repr

/-- The struct `config.Config`. -/
structure Config where
  App : AppConfig
  Database : DatabaseConfig
  Log : LogConfig
  JWT : JWTConfig
  deriving DecidableEq, Repr

/-- The process environment: `os.LookupEnv` as a function of the variable name. -/
abbrev Environ := GoString → Option GoString

/-- Value of a run of decimal digits, `none` if one of the bytes is not a digit. -/
def digitsValue : GoString → Nat → Option Nat
  | [], acc => some acc
  | c :: cs, acc =>
    if 48 ≤ c.val ∧ c.val ≤ 57 then digitsValue cs (acc * 10 + (c.val - 48))
    else none

/-- Go `strconv.Atoi` on a 64-bit platform: an optional sign followed by at least one decimal
digit, the value lying in the range of `int64`. -/
def Atoi (s : GoString) : Option Int :=
  match s with
  | [] => none
  | c :: rest =>
    let neg := decide (c.val = 45)
    let digits := if c.val = 45 ∨ c.val = 43 then rest else s
    match digits with
    | [] => none
    | _ =>
      match digitsValue digits 0 with
      | none => none
      | some n =>
        let v : Int := if neg then -(n : Int) else (n : Int)
        if -(2 : Int) ^ 63 ≤ v ∧ v < (2 : Int) ^ 63 then some v else none

/-- The function `getEnv`. -/
def getEnv (env : Environ) (key defaultValue : GoString) : GoString :=
  match env key with
  | some value => value
  | none => defaultValue

/-- The function `getEnvAsInt`. -/
def getEnvAsInt (env : Environ) (key : GoString) (defaultValue : Int) : Int :=
  match env key with
  | some value =>
    match Atoi value with
    | some intValue => intValue
    | none => defaultValue
  | none => defaultValue

/-- The function `config.Load`; the product of the two durations is an `int64` product. -/
def Load (env : Environ) : Config :=
  { App :=
      { Port := getEnv env (ascii "APP_PORT") (ascii "8080")
        Env := getEnv env (ascii "APP_ENV") (ascii "development") }
    Database :=
      { Host := getEnv env (ascii "DB_HOST") (ascii "localhost")
        Port := getEnvAsInt env (ascii "DB_PORT") 5432
        User := getEnv env (ascii "DB_USER") (ascii "postgres")
        Password := getEnv env (ascii "DB_PASSWORD") (ascii "postgres")
        DBName := getEnv env (ascii "DB_NAME") (ascii "go_echo_db")
        SSLMode := getEnv env (ascii "DB_SSL_MODE") (ascii "disable") }
    Log := { Level := getEnv env (ascii "LOG_LEVEL") (ascii "debug") }
    JWT :=
      { Secret := getEnv env (ascii "JWT_SECRET")
          (ascii "your-super-secret-key-change-in-production")
        ExpireTime := wrap64 (getEnvAsInt env (ascii "JWT_EXPIRE_HOURS") 24 * Hour) } }

/-! ## pkg/jwt -/

/-- The struct `jwt.JWT`. -/
structure JWT where
  secretKey : List Byte
  expireTime : Duration
  deriving DecidableEq, Repr

/-- The constructor `jwt.New`. -/
def New (cfg : JWTConfig) : JWT :=
  { secretKey := cfg.Secret, expireTime := cfg.ExpireTime }

/-- The claims that `Generate` builds for `user` at the instant `now`. -/
def JWT.claimsFor (j : JWT) (now : Time) (user : User) : Claims :=
  { UserID := user.ID
    Name := user.Name
    Email := user.Email
    Registered :=
      { Issuer := [], Subject := [], Audience := [], ID := []
        ExpiresAt := NewNumericDate (now + j.expireTime)
        IssuedAt := NewNumericDate now
        NotBefore := NewNumericDate now } }

/-- The method `JWT.Generate`; `now` is the value of `time.Now()`. -/
def JWT.Generate (L : Lib) (j : JWT) (now : Time) (user : User) : Except Error GoString :=
  SignedString L (.HMAC .SHA256) (j.claimsFor now user) j.secretKey

/-- The key function that `Validate` hands to the parser. -/
def JWT.keyFunc (j : JWT) (method : SigningMethod) : Except Error (List Byte) :=
  match method with
  | .HMAC _ => .ok j.secretKey
  | _ => .error .ErrInvalidToken

/-- The method `JWT.Validate`; `now` is the value of `time.Now()` during parsing. -/
def JWT.Validate (L : Lib) (j : JWT) (now : Time) (tokenString : GoString) :
    Except Error Claims :=
  match ParseWithClaims L now tokenString j.keyFunc with
  | .error err =>
    if err.isTokenExpired then .error .ErrExpiredToken
    else .error .ErrInvalidToken
  | .ok token =>
    if !token.Valid then .error .ErrInvalidToken
    else .ok token.Claims

/-- The signing input of the token that `Generate` issues for the claims `c`: the encoded
header of an HS256 token, a dot, and the encoded claims. -/
def signingInput (L : Lib) (c : Claims) : GoString :=
  b64Encode (L.marshalHeader (ascii "HS256")) ++ dot :: b64Encode (L.marshalClaims c)

/-- The value of the `alg` header that the parser reads from a token string, if the string
has three segments of which the first decodes to a header with a string `alg`. -/
def declaredAlg (L : Lib) (tokenString : GoString) : Option GoString :=
  match splitOn dot tokenString with
  | [seg0, _, _] =>
    match b64Decode seg0 with
    | none => none
    | some headerBytes =>
      match L.unmarshalHeader headerBytes with
      | some (some alg) => some alg
      | _ => none
  | _ => none

/-- The method `JWT.GetExpireTime`. -/
def JWT.GetExpireTime (j : JWT) : Int := toInt64 (Duration.Seconds j.expireTime)

/-! ## internal/repository, internal/service (authentication flow) -/

/-- The zero value of `time.Time` (January 1 of year 1, UTC). -/
def zeroTime : Time := -62135596800 * Second

/-- The interface `repository.UserRepository`, over the states `σ` of the store behind it.
`Create` and `Update` receive a pointer to the user and may write into it: they return the
error (`none` for nil) together with the user as they leave it. -/
structure UserRepository (σ : Type) where
  Create : User → σ → (Option Error × User) × σ
  GetByID : UUID → σ → Except Error User × σ
  GetByEmail : GoString → σ → Except Error User × σ
  GetAll : σ → Except Error (List User) × σ
  Update : User → σ → (Option Error × User) × σ
  Delete : UUID → σ → Option Error × σ

/-- The package `golang.org/x/crypto/bcrypt`: `GenerateFromPassword` at `bcrypt.DefaultCost`
draws its salt from the state, `CompareHashAndPassword` takes the hash and the password and
returns nil (`none`) on a match. -/
structure Bcrypt (σ : Type) where
  GenerateFromPassword : GoString → σ → Except Error GoString × σ
  CompareHashAndPassword : GoString → GoString → Option Error

/-- The struct `authService`; the logger does not influence control flow and is left out. -/
structure authService (σ : Type) where
  userRepo : UserRepository σ
  jwt : JWT

/-- Calls that a service makes on its collaborators, in the order they are made. -/
inductive Call where
  | Create (user : User)
  | GetByID (id : UUID)
  | GetByEmail (email : GoString)
  | GetAll
  | Update (user : User)
  | Delete (id : UUID)
  | GenerateFromPassword (password : GoString)
  | CompareHashAndPassword (hash password : GoString)
  | Generate (user : User)
  deriving DecidableEq, Repr

/-- What a run of a service method leaves behind: the returned pair (response, error), the
calls made and the state of the store. -/
structure Outcome (σ : Type) where
  result : Except Error TokenResponse
  calls : List Call
  state : σ

/-- The method `authService.Register`; `now` is the value of `time.Now()` read by
`Generate`. -/
def authService.Register {σ : Type} (L : Lib) (bc : Bcrypt σ) (s : authService σ) (now : Time)
    (req : RegisterRequest) (st : σ) : Outcome σ :=
  match s.userRepo.GetByEmail req.Email st with
  | (.ok _, st1) =>
    { result := .error .ErrEmailAlreadyExists, calls := [.GetByEmail req.Email], state := st1 }
  | (.error err, st1) =>
    if !errorsIs err .ErrNotFound then
      { result := .error err, calls := [.GetByEmail req.Email], state := st1 }
    else
      match bc.GenerateFromPassword req.Password st1 with
      | (.error err, st2) =>
        { result := .error err
          calls := [.GetByEmail req.Email, .GenerateFromPassword req.Password]
          state := st2 }
      | (.ok hashedPassword, st2) =>
        let user : User :=
          { ID := 0, Name := req.Name, Email := req.Email, Password := hashedPassword
            CreatedAt := zeroTime, UpdatedAt := zeroTime }
        match s.userRepo.Create user st2 with
        | ((some err, _), st3) =>
          { result := .error err
            calls := [.GetByEmail req.Email, .GenerateFromPassword req.Password, .Create user]
            state := st3 }
        | ((none, created), st3) =>
          match s.jwt.Generate L now created with
          | .error err =>
            { result := .error err
              calls := [.GetByEmail req.Email, .GenerateFromPassword req.Password,
                .Create user, .Generate created]
              state := st3 }
          | .ok token =>
            { result := .ok
                { AccessToken := token
                  TokenType := ascii "Bearer"
                  ExpiresIn := s.jwt.GetExpireTime }
              calls := [.GetByEmail req.Email, .GenerateFromPassword req.Password,
                .Create user, .Generate created]
              state := st3 }

/-- The slice expression `s[i:j]` of a string; `none` is the run-time panic for bounds that
are out of range. -/
def slice (s : GoString) (i j : Nat) : Option GoString :=
  if i ≤ j ∧ j ≤ s.length then some ((s.drop i).take (j - i)) else none

/-- The loop of `containsSubstring` from index `i` on, with `n` iterations left; `none` is a
panic of the slice expression. -/
def containsSubstringLoop (s substr : GoString) : Nat → Nat → Option Bool
  | 0, _ => some false
  | n + 1, i =>
    match slice s i (i + substr.length) with
    | none => none
    | some w => if w = substr then some true else containsSubstringLoop s substr n (i + 1)

/-- The function `containsSubstring`: `i` runs from 0 while `i <= len(s)-len(substr)`, a
difference of (signed) `int` values. -/
def containsSubstring (s substr : GoString) : Option Bool :=
  containsSubstringLoop s substr (Int.toNat ((s.length : Int) - (substr.length : Int) + 1)) 0

/-- The function `contains`; the conjunction is short-circuit. -/
def contains (s substr : GoString) : Option Bool :=
  if s.length ≥ substr.length then containsSubstring s substr else some false

/-- The function `isDuplicateKeyError`, applied to an error given by its text (`none` for a
nil error); the disjunction is short-circuit. -/
def isDuplicateKeyError (errText : Option GoString) : Option Bool :=
  match errText with
  | none => some false
  | some errStr =>
    match contains errStr (ascii "duplicate key") with
    | none => none
    | some true => some true
    | some false => contains errStr (ascii "23505")

/-- Errors returned by `database/sql` and the driver: the sentinel `sql.ErrNoRows` or any
other error, given by its text. -/
inductive DriverError where
  | ErrNoRows
  | other (text : GoString)
  deriving DecidableEq, Repr

/-- The method `Error` of a driver error. -/
def DriverError.Error : DriverError → GoString
  | .ErrNoRows => ascii "sql: no rows in result set"
  | .other text => text

/-- The method `userRepository.Create`, given what the `INSERT ... RETURNING id, created_at,
updated_at` statement yields for the user: the error (`none` for nil) and the user as the
call leaves it. The outer `none` is a panic. -/
def userRepository.Create (queryRow : User → Except DriverError (UUID × Time × Time))
    (user : User) : Option (Option Error × User) :=
  match queryRow user with
  | .error err =>
    match isDuplicateKeyError (some err.Error) with
    | none => none
    | some true => some (some .ErrDuplicateEmail, user)
    | some false => some (some (.foreign err.Error), user)
  | .ok (id, createdAt, updatedAt) =>
    some (none, { user with ID := id, CreatedAt := createdAt, UpdatedAt := updatedAt })

/-- The method `userRepository.GetByEmail`, given what the `SELECT ... WHERE email = $1`
statement yields. -/
def userRepository.GetByEmail (get : GoString → Except DriverError User) (email : GoString) :
    Except Error User :=
  match get email with
  | .error err =>
    if err = .ErrNoRows then .error .ErrNotFound
    else .error (.foreign err.Error)
  | .ok user => .ok user

/-! ## A concrete instance of the library primitives

The instance below is a small self-contained stand-in for `encoding/json` and the SHA-2
functions: fixed-width little-endian fields and a positional checksum. It is used to evaluate
the model on concrete inputs; the general theorems hold for every `Lib`. -/

/-- Little-endian bytes of `n`, `w` of them. -/
def leBytes : Nat → Nat → List Byte
  | 0, _ => []
  | w + 1, n => byte n :: leBytes w (n / 256)

/-- Value of a little-endian byte string. -/
def leNat : List Byte → Nat
  | [] => 0
  | b :: bs => b.val + 256 * leNat bs

/-- Field holding a natural number below `2 ^ 128`. -/
def putNat (n : Nat) : List Byte := leBytes 16 n

/-- Field holding a byte string: its length, then its bytes. -/
def putString (s : GoString) : List Byte := putNat s.length ++ s

/-- Field holding an optional integer: a tag (0 nil, 1 non-negative, 2 negative) and the
magnitude. -/
def putOptInt : Option Int → List Byte
  | none => [byte 0]
  | some (Int.ofNat n) => byte 1 :: putNat n
  | some (Int.negSucc n) => byte 2 :: putNat n

/-- Field holding a list of byte strings: their number, then each of them. -/
def putStrings (l : List GoString) : List Byte :=
  putNat l.length ++ (l.map putString).flatten

/-- Reader of a natural-number field: the value and the remaining input. -/
def getNat (bs : List Byte) : Option (Nat × List Byte) :=
  if 16 ≤ bs.length then some (leNat (bs.take 16), bs.drop 16) else none

/-- Reader of a byte-string field. -/
def getString (bs : List Byte) : Option (GoString × List Byte) :=
  match getNat bs with
  | none => none
  | some (n, r) => if n ≤ r.length then some (r.take n, r.drop n) else none

/-- Reader of an optional-integer field. -/
def getOptInt (bs : List Byte) : Option (Option Int × List Byte) :=
  match bs with
  | [] => none
  | t :: r =>
    if t.val = 0 then some (none, r)
    else
      match getNat r with
      | none => none
      | some (n, r1) =>
        if t.val = 1 then some (some (Int.ofNat n), r1)
        else if t.val = 2 then some (some (Int.negSucc n), r1)
        else none

/-- Reader of `n` byte-string fields. -/
def getStringsN : Nat → List Byte → Option (List GoString × List Byte)
  | 0, bs => some ([], bs)
  | n + 1, bs =>
    match getString bs with
    | none => none
    | some (x, r) =>
      match getStringsN n r with
      | none => none
      | some (xs, r1) => some (x :: xs, r1)

/-- Reader of a list-of-byte-strings field. -/
def getStrings (bs : List Byte) : Option (List GoString × List Byte) :=
  match getNat bs with
  | none => none
  | some (n, r) => if n ≤ r.length then getStringsN n r else none

/-- Encoder of the sample instance for `Claims`. -/
def sampleMarshalClaims (c : Claims) : GoString :=
  putNat c.UserID.val ++ putString c.Name ++ putString c.Email ++
    putString c.Registered.Issuer ++ putString c.Registered.Subject ++
    putStrings c.Registered.Audience ++ putOptInt c.Registered.ExpiresAt ++
    putOptInt c.Registered.NotBefore ++ putOptInt c.Registered.IssuedAt ++
    putString c.Registered.ID

/-- Decoder of the sample instance for `Claims`; input left over is an error. -/
def sampleUnmarshalClaims (bs : List Byte) : Option Claims :=
  match getNat bs with
  | none => none
  | some (uid, r0) =>
  match getString r0 with
  | none => none
  | some (name, r1) =>
  match getString r1 with
  | none => none
  | some (email, r2) =>
  match getString r2 with
  | none => none
  | some (iss, r3) =>
  match getString r3 with
  | none => none
  | some (sub, r4) =>
  match getStrings r4 with
  | none => none
  | some (aud, r5) =>
  match getOptInt r5 with
  | none => none
  | some (exp, r6) =>
  match getOptInt r6 with
  | none => none
  | some (nbf, r7) =>
  match getOptInt r7 with
  | none => none
  | some (iat, r8) =>
  match getString r8 with
  | none => none
  | some (jti, r9) =>
    if r9 = [] then
      some
        { UserID := Fin.ofNat uid, Name := name, Email := email
          Registered :=
            { Issuer := iss, Subject := sub, Audience := aud, ExpiresAt := exp
              NotBefore := nbf, IssuedAt := iat, ID := jti } }
    else none

/-- Decoder of the sample instance for the header: a tag byte (1 when an `alg` string is
present) and the string. -/
def sampleUnmarshalHeader (bs : List Byte) : Option (Option GoString) :=
  match bs with
  | [] => none
  | t :: r =>
    if t.val = 0 then (if r = [] then some none else none)
    else if t.val = 1 then some (some r)
    else none

/-- Checksum of the sample instance standing in for the SHA-2 digests: 32, 48 or 64 bytes. -/
def sampleHashSum (h : HashAlg) (msg : List Byte) : List Byte :=
  let width := match h with
    | .SHA256 => 32
    | .SHA384 => 48
    | .SHA512 => 64
  leBytes width
    (msg.foldl (fun acc b => (acc * 1000003 + b.val + 1) % 2 ^ (8 * width)) (2 ^ (8 * width) / 7))

/-- The sample instance of the library primitives. -/
def sampleLib : Lib :=
  { hashSum := sampleHashSum
    marshalHeader := fun alg => byte 1 :: alg
    unmarshalHeader := sampleUnmarshalHeader
    marshalClaims := sampleMarshalClaims
    unmarshalClaims := sampleUnmarshalClaims }

/-- A user of the examples. -/
def ada : User :=
  { ID := 7, Name := ascii "Ada", Email := ascii "ada@example.com", Password := ascii "$2a$10$h"
    CreatedAt := 1700000000 * Second, UpdatedAt := 1700000000 * Second }

/-! ## A concrete store and password hasher

An in-memory table with a unique index on the email column stands for the database, and a
checksum for bcrypt; they are used to evaluate the services on concrete inputs. -/

/-- The `INSERT` statement on the in-memory table: the unique index on `email` answers a
second row with the same email by the error that the PostgreSQL driver reports. -/
def memInsert (table : List User) (user : User) : Except DriverError (UUID × Time × Time) :=
  if table.any (fun u => decide (u.Email = user.Email)) then
    .error (.other (ascii
      "pq: duplicate key value violates unique constraint \"users_email_key\" (23505)"))
  else .ok (Fin.ofNat (table.length + 1), 1700000000 * Second, 1700000000 * Second)

/-- The `SELECT ... WHERE email = $1` statement on the in-memory table. -/
def memSelectByEmail (table : List User) (email : GoString) : Except DriverError User :=
  match table.find? (fun u => decide (u.Email = email)) with
  | some u => .ok u
  | none => .error .ErrNoRows

/-- The repository over the in-memory table. -/
def memRepo : UserRepository (List User) :=
  { Create := fun user table =>
      match userRepository.Create (memInsert table) user with
      | some (none, created) => ((none, created), table ++ [created])
      | some (some err, left) => ((some err, left), table)
      | none => ((some (.foreign (ascii "panic")), user), table)
    GetByID := fun id table =>
      match table.find? (fun u => decide (u.ID = id)) with
      | some u => (.ok u, table)
      | none => (.error .ErrNotFound, table)
    GetByEmail := fun email table =>
      (userRepository.GetByEmail (memSelectByEmail table) email, table)
    GetAll := fun table => (.ok table.reverse, table)
    Update := fun user table =>
      if table.any (fun u => decide (u.ID = user.ID)) then
        ((none, user), table.map (fun u => if u.ID = user.ID then user else u))
      else ((some .ErrNotFound, user), table)
    Delete := fun id table =>
      if table.any (fun u => decide (u.ID = id)) then
        (none, table.filter (fun u => !decide (u.ID = id)))
      else (some .ErrNotFound, table) }

/-- The in-memory repository seen by a request that races with another registration: the
row `rival` of the other request is committed right after this request has looked the
email up. -/
def raceRepo (rival : User) : UserRepository (List User) :=
  { memRepo with
    GetByEmail := fun email table => ((memRepo.GetByEmail email table).1, table ++ [rival]) }

/-- A stand-in for bcrypt: the hash is a version tag followed by an encoded checksum, and
passwords longer than 72 bytes are refused. -/
def sampleBcrypt (σ : Type) : Bcrypt σ :=
  { GenerateFromPassword := fun password st =>
      if password.length > 72 then
        (.error (.foreign (ascii "bcrypt: password length exceeds 72 bytes")), st)
      else (.ok (ascii "$2a$10$" ++ b64Encode (sampleHashSum .SHA256 password)), st)
    CompareHashAndPassword := fun hash password =>
      if hash = ascii "$2a$10$" ++ b64Encode (sampleHashSum .SHA256 password) then none
      else some (.foreign
        (ascii "crypto/bcrypt: hashedPassword is not the hash of the given password")) }

/-- The authentication service over the in-memory repository. -/
def sampleAuth : authService (List User) :=
  { userRepo := memRepo, jwt := ⟨ascii "test-secret", 24 * Hour⟩ }

/-- A registration request of the examples. -/
def adaRequest : RegisterRequest :=
  { Name := ascii "Ada", Email := ascii "ada@example.com", Password := ascii "s3cret!" }

/-- The repository when the database cannot be reached: every lookup by email fails with
the error of the driver. -/
def downRepo : UserRepository (List User) :=
  { memRepo with
    GetByEmail := fun email table =>
      (userRepository.GetByEmail (fun _ => .error (.other (ascii "driver: bad connection")))
        email, table) }

/-- The instant of the examples. -/
def sampleNow : Time := 1700000000000000005

/-- The claims issued for Ada by the sample service at the sample instant. -/
def sampleClaims : Claims := sampleAuth.jwt.claimsFor sampleNow ada

/-- The token issued for Ada by the sample service at the sample instant. -/
def sampleToken : GoString :=
  signingInput sampleLib sampleClaims ++
    dot :: b64Encode (hmacSum sampleLib .SHA256 sampleAuth.jwt.secretKey
      (signingInput sampleLib sampleClaims))

/-! ## internal/service: the token service as a collaborator, `Login` -/

/-- The two methods of `*jwt.JWT` that the authentication service calls, as values: what
`Generate` returns for a user and what `GetExpireTime` returns. -/
structure TokenIssuer where
  Generate : User → Except Error GoString
  GetExpireTime : Int

/-- The token service `j` as it behaves at the instant `now`. -/
def JWT.issuer (L : Lib) (j : JWT) (now : Time) : TokenIssuer :=
  { Generate := j.Generate L now, GetExpireTime := j.GetExpireTime }

/-- The body of `authService.Register` with the calls `s.jwt.Generate(user)` and
`s.jwt.GetExpireTime()` made on an arbitrary token service: the same statements in the same
order. -/
def authService.RegisterVia {σ : Type} (ts : TokenIssuer) (bc : Bcrypt σ)
    (userRepo : UserRepository σ) (req : RegisterRequest) (st : σ) : Outcome σ :=
  match userRepo.GetByEmail req.Email st with
  | (.ok _, st1) =>
    { result := .error .ErrEmailAlreadyExists, calls := [.GetByEmail req.Email], state := st1 }
  | (.error err, st1) =>
    if !errorsIs err .ErrNotFound then
      { result := .error err, calls := [.GetByEmail req.Email], state := st1 }
    else
      match bc.GenerateFromPassword req.Password st1 with
      | (.error err, st2) =>
        { result := .error err
          calls := [.GetByEmail req.Email, .GenerateFromPassword req.Password]
          state := st2 }
      | (.ok hashedPassword, st2) =>
        let user : User :=
          { ID := 0, Name := req.Name, Email := req.Email, Password := hashedPassword
            CreatedAt := zeroTime, UpdatedAt := zeroTime }
        match userRepo.Create user st2 with
        | ((some err, _), st3) =>
          { result := .error err
            calls := [.GetByEmail req.Email, .GenerateFromPassword req.Password, .Create user]
            state := st3 }
        | ((none, created), st3) =>
          match ts.Generate created with
          | .error err =>
            { result := .error err
              calls := [.GetByEmail req.Email, .GenerateFromPassword req.Password,
                .Create user, .Generate created]
              state := st3 }
          | .ok token =>
            { result := .ok
                { AccessToken := token
                  TokenType := ascii "Bearer"
                  ExpiresIn := ts.GetExpireTime }
              calls := [.GetByEmail req.Email, .GenerateFromPassword req.Password,
                .Create user, .Generate created]
              state := st3 }

/-- The struct `domain.LoginRequest`. -/
structure LoginRequest where
  Email : GoString
  Password : GoString
  deriving DecidableEq, Repr

/-- The method `authService.Login`; `now` is the value of `time.Now()` read by `Generate`. -/
def authService.Login {σ : Type} (L : Lib) (bc : Bcrypt σ) (s : authService σ) (now : Time)
    (req : LoginRequest) (st : σ) : Outcome σ :=
  match s.userRepo.GetByEmail req.Email st with
  | (.error err, st1) =>
    if errorsIs err .ErrNotFound then
      { result := .error .ErrInvalidCredentials, calls := [.GetByEmail req.Email], state := st1 }
    else
      { result := .error err, calls := [.GetByEmail req.Email], state := st1 }
  | (.ok user, st1) =>
    match bc.CompareHashAndPassword user.Password req.Password with
    | some _ =>
      { result := .error .ErrInvalidCredentials
        calls := [.GetByEmail req.Email, .CompareHashAndPassword user.Password req.Password]
        state := st1 }
    | none =>
      match s.jwt.Generate L now user with
      | .error err =>
        { result := .error err
          calls := [.GetByEmail req.Email, .CompareHashAndPassword user.Password req.Password,
            .Generate user]
          state := st1 }
      | .ok token =>
        { result := .ok
            { AccessToken := token
              TokenType := ascii "Bearer"
              ExpiresIn := s.jwt.GetExpireTime }
          calls := [.GetByEmail req.Email, .CompareHashAndPassword user.Password req.Password,
            .Generate user]
          state := st1 }

/-! ## pkg/response, the request context of echo -/

/-- The struct `domain.AuthUser`. -/
structure AuthUser where
  ID : UUID
  Name : GoString
  Email : GoString
  deriving DecidableEq, Repr

/-- The struct `domain.UserResponse`. -/
structure UserResponse where
  ID : UUID
  Name : GoString
  Email : GoString
  CreatedAt : Time
  UpdatedAt : Time
  deriving DecidableEq, Repr

/-- The values that the handlers pass as `data interface{}`. -/
inductive Payload where
  | token (t : TokenResponse)
  | authUser (u : AuthUser)
  | user (u : UserResponse)
  | users (l : List UserResponse)
  deriving DecidableEq, Repr

/-- The struct `response.Response`; a nil interface is `none`. -/
structure Response where
  Success : Bool
  Message : GoString
  Data : Option Payload
  Errors : Option GoString
  deriving DecidableEq, Repr

/-- A non-nil value held by the store of a request context: a `*domain.AuthUser` or a value
of some other dynamic type. -/
inductive ContextValue where
  | authUser (u : AuthUser)
  | other (v : GoString)
  deriving DecidableEq, Repr

/-- The parts of an `echo.Context` that the gate and the handlers use: the request headers
(canonical key and first value), the store behind `Set` and `Get`, and the responses
written with `c.JSON` (status code and body), in order. -/
structure Context where
  header : List (GoString × GoString)
  store : List (GoString × ContextValue)
  responses : List (Nat × Response)
  deriving DecidableEq, Repr

/-- The call `c.Request().Header.Get(key)`: the empty string when the header is absent. -/
def Context.HeaderGet (c : Context) (key : GoString) : GoString :=
  match c.header.lookup key with
  | some v => v
  | none => []

/-- The method `Get` of the context: `none` is nil. -/
def Context.Get (c : Context) (key : GoString) : Option ContextValue :=
  c.store.lookup key

/-- The method `Set` of the context. -/
def Context.Set (c : Context) (key : GoString) (val : ContextValue) : Context :=
  { c with store := (key, val) :: c.store.filter (fun p => !decide (p.1 = key)) }

/-- The method `JSON` of the context: the body is written with the status code; encoding
these structs does not fail, so the error returned is nil. -/
def Context.JSON (c : Context) (code : Nat) (body : Response) : Option Error × Context :=
  (none, { c with responses := c.responses ++ [(code, body)] })

/-- A handler, `echo.HandlerFunc`: the error it returns and the context as it leaves it. -/
abbrev HandlerFunc := Context → Option Error × Context

/-- The function `response.Success`. -/
def response.Success (c : Context) (statusCode : Nat) (message : GoString)
    (data : Option Payload) : Option Error × Context :=
  c.JSON statusCode { Success := true, Message := message, Data := data, Errors := none }

/-- The function `response.Error`. -/
def response.Error (c : Context) (statusCode : Nat) (message : GoString) :
    Option Error × Context :=
  c.JSON statusCode { Success := false, Message := message, Data := none, Errors := none }

/-! ## internal/middleware: the authorization gate -/

/-- The space character. -/
def space : Byte := byte 32

/-- Go `strings.SplitN(s, sep, 2)` for a one-byte separator: the string itself when it does
not contain the separator, otherwise the text before the first separator and the text after
it. -/
def SplitN2 (sep : Byte) (s : GoString) : List GoString :=
  match s.span (fun b => !decide (b = sep)) with
  | (a, []) => [a]
  | (a, _ :: b) => [a, b]

/-- What a run of the gate leaves behind: the error it returns, the context, the arguments
of its calls to `Validate` and the contexts with which it invoked the next handler. -/
structure GateRun where
  result : Option Error
  ctx : Context
  validated : List GoString
  nextCalls : List Context
  deriving DecidableEq, Repr

/-- The handler returned by `JWTAuth(jwtService)(next)`, applied to a context; `now` is the
value of `time.Now()` read by `Validate`. -/
def JWTAuth (L : Lib) (jwtService : JWT) (now : Time) (next : HandlerFunc) (c : Context) :
    GateRun :=
  let authHeader := c.HeaderGet (ascii "Authorization")
  if authHeader = [] then
    let r := response.Error c 401 (ascii "Missing authorization header")
    { result := r.1, ctx := r.2, validated := [], nextCalls := [] }
  else
    match SplitN2 space authHeader with
    | [scheme, token] =>
      if scheme ≠ ascii "Bearer" then
        let r := response.Error c 401 (ascii "Invalid authorization header format")
        { result := r.1, ctx := r.2, validated := [], nextCalls := [] }
      else
        match jwtService.Validate L now token with
        | .error _ =>
          let r := response.Error c 401 (ascii "Invalid or expired token")
          { result := r.1, ctx := r.2, validated := [token], nextCalls := [] }
        | .ok claims =>
          let user : AuthUser :=
            { ID := claims.UserID, Name := claims.Name, Email := claims.Email }
          let c1 := c.Set (ascii "user") (.authUser user)
          let r := next c1
          { result := r.1, ctx := r.2, validated := [token], nextCalls := [c1] }
    | _ =>
      let r := response.Error c 401 (ascii "Invalid authorization header format")
      { result := r.1, ctx := r.2, validated := [], nextCalls := [] }

/-! ## internal/handler: the identity-lookup handler -/

/-- The method `AuthHandler.GetMe`. -/
def AuthHandler.GetMe (c : Context) : Option Error × Context :=
  match c.Get (ascii "user") with
  | none => response.Error c 401 (ascii "User context not found")
  | some (.authUser user) =>
    response.Success c 200 (ascii "User retrieved successfully") (some (.authUser user))
  | some _ => response.Error c 500 (ascii "Invalid user context")

/-! ## Concrete collaborators and requests of the examples -/

/-- The row that a registration of Ada leaves in the in-memory table. -/
def adaRow : User :=
  { ID := 1, Name := ascii "Ada", Email := ascii "ada@example.com"
    Password := ascii "$2a$10$" ++ b64Encode (sampleHashSum .SHA256 (ascii "s3cret!"))
    CreatedAt := 1700000000 * Second, UpdatedAt := 1700000000 * Second }

/-- A login request with the password of Ada. -/
def adaLogin : LoginRequest :=
  { Email := ascii "ada@example.com", Password := ascii "s3cret!" }

/-- A login request with another password. -/
def wrongLogin : LoginRequest :=
  { Email := ascii "ada@example.com", Password := ascii "guess!" }

/-- A request context whose `Authorization` header is the given string. -/
def contextWith (authorization : GoString) : Context :=
  { header := [(ascii "Authorization", authorization)], store := [], responses := [] }

/-- A request context without an `Authorization` header. -/
def bareContext : Context := { header := [], store := [], responses := [] }

/-- The user that `Register` hands to `Create`: the fields of the request, the hashed
password, and zero values elsewhere. -/
def userOf (req : RegisterRequest) (hashedPassword : GoString) : User :=
  { ID := 0, Name := req.Name, Email := req.Email, Password := hashedPassword
    CreatedAt := zeroTime, UpdatedAt := zeroTime }

/-- The token that the words of the specification extract from an `Authorization` header:
the header is non-empty, contains a space, and the text before its first space is exactly
`Bearer`; the token is the text after the first space. -/
def bearerToken (authHeader : GoString) : Option GoString :=
  if authHeader ≠ [] ∧ space ∈ authHeader ∧
      authHeader.takeWhile (fun b => !decide (b = space)) = ascii "Bearer" then
    some (authHeader.dropWhile (fun b => !decide (b = space))).tail
  else none

/-- The body of the 401 responses of the gate. -/
def unauthorized (message : GoString) : Nat × Response :=
  (401, { Success := false, Message := message, Data := none, Errors := none })

/-- The error of the stand-in hasher for a password that does not match the hash. -/
def mismatchError : Error :=
  .foreign (ascii "crypto/bcrypt: hashedPassword is not the hash of the given password")

/-- The row of Ada with an empty password field. -/
def emptyHashRow : User := { adaRow with Password := [] }

/-! ## internal/domain: `User.ToResponse`; internal/service: the user service -/

/-- The method `User.ToResponse`. -/
def User.ToResponse (u : User) : UserResponse :=
  { ID := u.ID, Name := u.Name, Email := u.Email, CreatedAt := u.CreatedAt
    UpdatedAt := u.UpdatedAt }

/-- The struct `domain.CreateUserRequest`. -/
structure CreateUserRequest where
  Name : GoString
  Email : GoString
  deriving DecidableEq, Repr

/-- The struct `userService`; the logger does not influence control flow and is left out. -/
structure userService (σ : Type) where
  userRepo : UserRepository σ

/-- What a run of a method of the user service leaves behind: the returned pair (response,
error), the calls made and the state of the store. -/
structure UserOutcome (σ : Type) (α : Type) where
  result : Except Error α
  calls : List Call
  state : σ

/-- The user that `userService.Create` hands to the repository: the fields of the request
and zero values elsewhere. -/
def CreateUserRequest.toUser (req : CreateUserRequest) : User :=
  { ID := 0, Name := req.Name, Email := req.Email, Password := []
    CreatedAt := zeroTime, UpdatedAt := zeroTime }

/-- The method `userService.Create`. -/
def userService.Create {σ : Type} (s : userService σ) (req : CreateUserRequest) (st : σ) :
    UserOutcome σ UserResponse :=
  let user : User :=
    { ID := 0, Name := req.Name, Email := req.Email, Password := []
      CreatedAt := zeroTime, UpdatedAt := zeroTime }
  match s.userRepo.Create user st with
  | ((some err, _), st1) =>
    if errorsIs err .ErrDuplicateEmail then
      { result := .error .ErrEmailExists, calls := [.Create user], state := st1 }
    else
      { result := .error err, calls := [.Create user], state := st1 }
  | ((none, created), st1) =>
    { result := .ok created.ToResponse, calls := [.Create user], state := st1 }

/-- The method `userService.GetByID`. -/
def userService.GetByID {σ : Type} (s : userService σ) (id : UUID) (st : σ) :
    UserOutcome σ UserResponse :=
  match s.userRepo.GetByID id st with
  | (.error err, st1) =>
    if errorsIs err .ErrNotFound then
      { result := .error .ErrUserNotFound, calls := [.GetByID id], state := st1 }
    else
      { result := .error err, calls := [.GetByID id], state := st1 }
  | (.ok user, st1) =>
    { result := .ok user.ToResponse, calls := [.GetByID id], state := st1 }

/-- The method `userService.GetAll`. -/
def userService.GetAll {σ : Type} (s : userService σ) (st : σ) :
    UserOutcome σ (List UserResponse) :=
  match s.userRepo.GetAll st with
  | (.error err, st1) => { result := .error err, calls := [.GetAll], state := st1 }
  | (.ok users, st1) =>
    { result := .ok (users.map User.ToResponse), calls := [.GetAll], state := st1 }

/-! ## internal/handler: the handlers `Register` and `Login` -/

/-- The interface `service.AuthService`, over the states `σ` of what lies behind it. -/
structure AuthService (σ : Type) where
  Register : RegisterRequest → σ → Except Error TokenResponse × σ
  Login : LoginRequest → σ → Except Error TokenResponse × σ

/-- The service `authService` as a value of the interface, at the instant `now`. -/
def authService.toInterface {σ : Type} (L : Lib) (bc : Bcrypt σ) (s : authService σ)
    (now : Time) : AuthService σ :=
  { Register := fun req st =>
      ((s.Register L bc now req st).result, (s.Register L bc now req st).state)
    Login := fun req st =>
      ((s.Login L bc now req st).result, (s.Login L bc now req st).state) }

/-- The function `response.ValidationError`, applied to the text of the error. -/
def response.ValidationError (c : Context) (errText : GoString) :
    Option GoEchoStarter.Error × Context :=
  c.JSON 400
    { Success := false, Message := ascii "Validation failed", Data := none
      Errors := some errText }

/-- The method `AuthHandler.Register`. The argument `bound` is what `c.Bind(&req)` yields for
the body of the request, an error or the request struct; `validate` is the method
`Validate` of the validator, returning the text of its error (`none` for nil). -/
def AuthHandler.Register {σ : Type} (authService : AuthService σ)
    (validate : RegisterRequest → Option GoString) (bound : Except Error RegisterRequest)
    (c : Context) (st : σ) : (Option Error × Context) × σ :=
  match bound with
  | .error _ => (response.Error c 400 (ascii "Invalid request body"), st)
  | .ok req =>
    match validate req with
    | some errText => (response.ValidationError c errText, st)
    | none =>
      match authService.Register req st with
      | (.error err, st1) =>
        if errorsIs err .ErrEmailAlreadyExists then
          (response.Error c 409 (ascii "Email already exists"), st1)
        else (response.Error c 500 (ascii "Failed to register user"), st1)
      | (.ok token, st1) =>
        (response.Success c 201 (ascii "User registered successfully") (some (.token token)),
          st1)

/-- The method `AuthHandler.Login`, with `bound` and `validate` as for `Register`. -/
def AuthHandler.Login {σ : Type} (authService : AuthService σ)
    (validate : LoginRequest → Option GoString) (bound : Except Error LoginRequest)
    (c : Context) (st : σ) : (Option Error × Context) × σ :=
  match bound with
  | .error _ => (response.Error c 400 (ascii "Invalid request body"), st)
  | .ok req =>
    match validate req with
    | some errText => (response.ValidationError c errText, st)
    | none =>
      match authService.Login req st with
      | (.error err, st1) =>
        if errorsIs err .ErrInvalidCredentials then
          (response.Error c 401 (ascii "Invalid email or password"), st1)
        else (response.Error c 500 (ascii "Failed to login"), st1)
      | (.ok token, st1) =>
        (response.Success c 200 (ascii "Login successful") (some (.token token)), st1)

/-! ## Words of the specification on substrings -/

/-- The string `sub` occurs in `s` as a contiguous substring. -/
def occursIn (sub s : GoString) : Prop := ∃ a b, s = a ++ sub ++ b

/-! ## Further collaborators and requests of the examples -/

/-- The user service over the in-memory repository. -/
def sampleUsers : userService (List User) := { userRepo := memRepo }

/-- A create-user request of the examples. -/
def adaCreate : CreateUserRequest := { Name := ascii "Ada", Email := ascii "ada@example.com" }

/-- The environment in which `JWT_EXPIRE_HOURS` has the given value and nothing else is
set. -/
def expireHoursEnv (value : String) : Environ :=
  fun k => if k = ascii "JWT_EXPIRE_HOURS" then some (ascii value) else none

/-- The authentication service over the repository that cannot reach its database. -/
def downAuth : authService (List User) := { sampleAuth with userRepo := downRepo }

/-- The authentication service of a request that loses the race against the registration
of the row `ada`. -/
def raceAuth : authService (List User) := { sampleAuth with userRepo := raceRepo ada }

/-- The error of the driver in the examples. -/
def connectionError : Error := .foreign (ascii "driver: bad connection")

/-- A validator that accepts every request. -/
def acceptAll {α : Type} : α → Option GoString := fun _ => none

/-- The authentication service over the in-memory repository whose token service is built,
as in `main`, from the configuration loaded when `JWT_EXPIRE_HOURS` has the given value. -/
def loadedAuth (value : String) : authService (List User) :=
  { userRepo := memRepo, jwt := New (Load (expireHoursEnv value)).JWT }

/-! ## Lemmas on base64url -/

theorem byte_val (n : Nat) : (byte n).val = n % 256 := rfl

theorem byte_of_val (b : Byte) : byte b.val = b := by
  apply Fin.ext
  simp [byte_val, Nat.mod_eq_of_lt b.isLt]

theorem b64Val_b64Char (v : Nat) (h : v < 64) : b64Val (b64Char v) = some v := by
  have key : ∀ w : Fin 64, b64Val (b64Char w.val) = some w.val := by decide
  exact key ⟨v, h⟩

theorem b64Char_keep (v : Nat) (h : v < 64) :
    (b64Char v).val ≠ 10 ∧ (b64Char v).val ≠ 13 ∧ b64Char v ≠ dot := by
  have key : ∀ w : Fin 64,
      (b64Char w.val).val ≠ 10 ∧ (b64Char w.val).val ≠ 13 ∧ b64Char w.val ≠ dot := by decide
  exact key ⟨v, h⟩

theorem b64Encode_eq_map (bs : List Byte) : b64Encode bs = (b64EncodeVals bs).map b64Char := by
  induction bs using b64EncodeVals.induct with
  | case1 => rfl
  | case2 a => rfl
  | case3 a b => rfl
  | case4 a b c rest ih => simp [b64Encode, b64EncodeVals, ih]

theorem b64EncodeVals_lt (bs : List Byte) : ∀ v ∈ b64EncodeVals bs, v < 64 := by
  induction bs using b64EncodeVals.induct with
  | case1 => simp [b64EncodeVals]
  | case2 a =>
    have := a.isLt
    simp only [b64EncodeVals, List.mem_cons, List.mem_singleton, List.not_mem_nil, or_false]
    rintro v (h | h) <;> omega
  | case3 a b =>
    have := a.isLt
    have := b.isLt
    simp only [b64EncodeVals, List.mem_cons, List.mem_singleton, List.not_mem_nil, or_false]
    rintro v (h | h | h) <;> omega
  | case4 a b c rest ih =>
    have := a.isLt
    have := b.isLt
    have := c.isLt
    simp only [b64EncodeVals, List.mem_cons]
    rintro v (h | h | h | h | h)
    · omega
    · omega
    · omega
    · omega
    · exact ih v h

theorem b64DecodeVals_encodeVals (bs : List Byte) :
    b64DecodeVals (b64EncodeVals bs) = some bs := by
  induction bs using b64EncodeVals.induct with
  | case1 => rfl
  | case2 a =>
    have := a.isLt
    simp only [b64EncodeVals, b64DecodeVals, Option.some.injEq, List.cons.injEq, and_true]
    apply Fin.ext
    rw [byte_val]
    omega
  | case3 a b =>
    have := a.isLt
    have := b.isLt
    simp only [b64EncodeVals, b64DecodeVals, Option.some.injEq, List.cons.injEq, and_true]
    constructor <;> (apply Fin.ext; rw [byte_val]; omega)
  | case4 a b c rest ih =>
    have := a.isLt
    have := b.isLt
    have := c.isLt
    simp only [b64EncodeVals, b64DecodeVals, ih, Option.some.injEq, List.cons.injEq, and_true]
    refine ⟨?_, ?_, ?_⟩ <;> (apply Fin.ext; rw [byte_val]; omega)

theorem b64Vals_map (vs : List Nat) (h : ∀ v ∈ vs, v < 64) :
    b64Vals (vs.map b64Char) = some vs := by
  induction vs with
  | nil => rfl
  | cons v vs ih =>
    have hv : v < 64 := h v (List.mem_cons_self _ _)
    have hvs : ∀ w ∈ vs, w < 64 := fun w hw => h w (List.mem_cons_of_mem _ hw)
    simp [b64Vals, b64Val_b64Char v hv, ih hvs]

theorem b64_filter_map (vs : List Nat) (h : ∀ v ∈ vs, v < 64) :
    (vs.map b64Char).filter (fun c => c.val ≠ 10 ∧ c.val ≠ 13) = vs.map b64Char := by
  rw [List.filter_eq_self]
  intro c hc
  obtain ⟨v, hv, rfl⟩ := List.mem_map.mp hc
  have := b64Char_keep v (h v hv)
  simp [this.1, this.2.1]

/-- Decoding an encoded segment gives the bytes back. -/
theorem b64Decode_b64Encode (bs : List Byte) : b64Decode (b64Encode bs) = some bs := by
  unfold b64Decode
  rw [b64Encode_eq_map, b64_filter_map _ (b64EncodeVals_lt bs),
    b64Vals_map _ (b64EncodeVals_lt bs)]
  exact b64DecodeVals_encodeVals bs

/-- An encoded segment contains no dot. -/
theorem dot_not_mem_b64Encode (bs : List Byte) : dot ∉ b64Encode bs := by
  rw [b64Encode_eq_map]
  intro hmem
  obtain ⟨v, hv, hd⟩ := List.mem_map.mp hmem
  exact (b64Char_keep v (b64EncodeVals_lt bs v hv)).2.2 hd

/-! ## Lemmas on token segmentation -/

theorem splitOn_ne_nil (sep : Byte) (l : GoString) : splitOn sep l ≠ [] := by
  cases l with
  | nil => simp [splitOn]
  | cons c cs =>
    simp only [splitOn]
    split
    · simp
    · split <;> simp

theorem splitOn_of_not_mem (sep : Byte) (l : GoString) (h : sep ∉ l) : splitOn sep l = [l] := by
  induction l with
  | nil => rfl
  | cons c cs ih =>
    have hc : c ≠ sep := fun e => h (e ▸ List.mem_cons_self _ _)
    have hcs : sep ∉ cs := fun m => h (List.mem_cons_of_mem _ m)
    simp [splitOn, hc, ih hcs]

theorem splitOn_append (sep : Byte) (l r : GoString) (h : sep ∉ l) :
    splitOn sep (l ++ sep :: r) = l :: splitOn sep r := by
  induction l with
  | nil => simp [splitOn]
  | cons c cs ih =>
    have hc : c ≠ sep := fun e => h (e ▸ List.mem_cons_self _ _)
    have hcs : sep ∉ cs := fun m => h (List.mem_cons_of_mem _ m)
    simp [splitOn, hc, ih hcs]

/-- A string made of three dot-free segments joined by dots splits into these segments. -/
theorem splitOn_three (a b c : GoString) (ha : dot ∉ a) (hb : dot ∉ b) (hc : dot ∉ c) :
    splitOn dot ((a ++ dot :: b) ++ dot :: c) = [a, b, c] := by
  rw [List.append_assoc, List.cons_append, splitOn_append dot a _ ha,
    splitOn_append dot b _ hb, splitOn_of_not_mem dot c hc]

/-! ## Lemmas on parsing and validation -/

theorem GetSigningMethod_HS256 : GetSigningMethod (ascii "HS256") = some (.HMAC .SHA256) := by
  decide

/-- Parsing a token assembled from a header, a payload and a signature whose header names the
method `m`, for which the key function yields `key`. -/
theorem ParseWithClaims_assembled (L : Lib) (now : Time) (hb cb sig : List Byte)
    (alg : GoString) (c : Claims) (m : SigningMethod) (key : List Byte)
    (keyFunc : SigningMethod → Except Error (List Byte))
    (hH : L.unmarshalHeader hb = some (some alg)) (hC : L.unmarshalClaims cb = some c)
    (hM : GetSigningMethod alg = some m) (hK : keyFunc m = .ok key) :
    ParseWithClaims L now ((b64Encode hb ++ dot :: b64Encode cb) ++ dot :: b64Encode sig)
        keyFunc =
      if !m.Verify L (b64Encode hb ++ dot :: b64Encode cb) sig key then
        .error .signatureInvalid
      else
        match validateClaims c now with
        | (false, false) => .ok { Method := m, Claims := c, Signature := sig, Valid := true }
        | (expired, notValidYet) => .error (.invalidClaims expired notValidYet) := by
  unfold ParseWithClaims
  rw [splitOn_three _ _ _ (dot_not_mem_b64Encode hb) (dot_not_mem_b64Encode cb)
    (dot_not_mem_b64Encode sig)]
  simp only [b64Decode_b64Encode, hH, hC, hM, hK]

theorem Generate_eq (L : Lib) (j : JWT) (now : Time) (user : User) :
    j.Generate L now user =
      .ok (signingInput L (j.claimsFor now user) ++
        dot :: b64Encode (hmacSum L .SHA256 j.secretKey (signingInput L (j.claimsFor now user)))) :=
  rfl

/-- Validation, by a service with key `key2`, of the token signed with `key1` for the claims
`c`, when the codec reads the header back and reads the payload as `c2`. -/
theorem Validate_signed (L : Lib) (j2 : JWT) (key1 : List Byte) (now : Time) (c c2 : Claims)
    (hH : L.unmarshalHeader (L.marshalHeader (ascii "HS256")) = some (some (ascii "HS256")))
    (hC : L.unmarshalClaims (L.marshalClaims c) = some c2) :
    j2.Validate L now
        (signingInput L c ++ dot :: b64Encode (hmacSum L .SHA256 key1 (signingInput L c))) =
      if hmacSum L .SHA256 key1 (signingInput L c) = hmacSum L .SHA256 j2.secretKey (signingInput L c)
      then
        match validateClaims c2 now with
        | (false, false) => .ok c2
        | (true, _) => .error .ErrExpiredToken
        | (false, true) => .error .ErrInvalidToken
      else .error .ErrInvalidToken := by
  unfold JWT.Validate signingInput
  rw [ParseWithClaims_assembled L now _ _ _ _ c2 (.HMAC .SHA256) j2.secretKey j2.keyFunc hH hC
    GetSigningMethod_HS256 rfl]
  simp only [SigningMethod.Verify]
  by_cases hs : hmacSum L .SHA256 key1
      (b64Encode (L.marshalHeader (ascii "HS256")) ++ dot :: b64Encode (L.marshalClaims c)) =
      hmacSum L .SHA256 j2.secretKey
      (b64Encode (L.marshalHeader (ascii "HS256")) ++ dot :: b64Encode (L.marshalClaims c))
  · simp only [hs, decide_True, Bool.not_true, Bool.false_eq_true, if_false, if_true]
    rcases hv : validateClaims c2 now with ⟨e, n⟩
    cases e <;> cases n <;> simp [ParseError.isTokenExpired]
  · simp [hs, ParseError.isTokenExpired]

/-- What a successful parse says about the token string. -/
theorem ParseWithClaims_ok_inv (L : Lib) (now : Time) (tok : GoString)
    (kf : SigningMethod → Except Error (List Byte)) (token : Token)
    (h : ParseWithClaims L now tok kf = .ok token) :
    ∃ s0 s1 s2 hb alg cb key, splitOn dot tok = [s0, s1, s2] ∧ b64Decode s0 = some hb ∧
      L.unmarshalHeader hb = some (some alg) ∧ b64Decode s1 = some cb ∧
      L.unmarshalClaims cb = some token.Claims ∧ GetSigningMethod alg = some token.Method ∧
      b64Decode s2 = some token.Signature ∧ kf token.Method = .ok key ∧
      token.Method.Verify L (s0 ++ dot :: s1) token.Signature key = true ∧
      validateClaims token.Claims now = (false, false) ∧ token.Valid = true := by
  unfold ParseWithClaims at h
  split at h
  next s0 s1 s2 hs =>
    split at h
    · cases h
    next hb hhb =>
    split at h
    · cases h
    next algField hH =>
    split at h
    · cases h
    next cb hcb =>
    split at h
    · cases h
    next claims hC =>
    split at h
    · cases h
    next alg =>
    split at h
    · cases h
    next method hM =>
    split at h
    · cases h
    next sig hsig =>
    split at h
    · cases h
    next key hK =>
    split at h
    · cases h
    next hV =>
    split at h
    next hvc =>
      cases h
      refine ⟨s0, s1, s2, hb, alg, cb, key, hs, hhb, hH, hcb, hC, hM, hsig, hK, ?_, hvc, rfl⟩
      simpa using hV
    next => cases h
  next => cases h

/-- Appending a zero byte to a key shorter than the hash block leaves the key block of HMAC
unchanged. -/
theorem hmacKeyBlock_append_zero (L : Lib) (h : HashAlg) (key : List Byte)
    (hlen : key.length < h.BlockSize) :
    hmacKeyBlock L h (key ++ [byte 0]) = hmacKeyBlock L h key := by
  unfold hmacKeyBlock
  have h1 : ¬ (key ++ [byte 0]).length > h.BlockSize := by
    simp only [List.length_append, List.length_singleton]
    omega
  have h2 : ¬ key.length > h.BlockSize := by omega
  simp only [h1, h2, if_false]
  have h3 : h.BlockSize - key.length = (h.BlockSize - (key ++ [byte 0]).length) + 1 := by
    simp only [List.length_append, List.length_singleton]
    omega
  rw [h3, List.replicate_succ, List.append_assoc, List.singleton_append]

theorem hmacSum_append_zero (L : Lib) (h : HashAlg) (key msg : List Byte)
    (hlen : key.length < h.BlockSize) :
    hmacSum L h (key ++ [byte 0]) msg = hmacSum L h key msg := by
  unfold hmacSum
  rw [hmacKeyBlock_append_zero L h key hlen]

theorem floor_second_gt (a b d : Int) (h1 : b ≤ a + d - 1000000000) :
    b < (a + d) / 1000000000 * 1000000000 := by
  omega

theorem floor_second_le (a b : Int) (h0 : a ≤ b) : ¬ b < a / 1000000000 * 1000000000 := by
  omega

/-- The time checks pass from the instant of issuance until one second before the lifetime has
elapsed. -/
theorem validateClaims_claimsFor_fresh (j : JWT) (user : User) (t0 t1 : Time)
    (h0 : t0 ≤ t1) (h1 : t1 ≤ t0 + j.expireTime - Second) :
    validateClaims (j.claimsFor t0 user) t1 = (false, false) := by
  simp only [validateClaims, JWT.claimsFor, NewNumericDate, NumericDate.Time, Second] at *
  have e1 : decide (t1 < (t0 + j.expireTime) / 1000000000 * 1000000000) = true :=
    decide_eq_true (floor_second_gt t0 t1 j.expireTime h1)
  have e2 : decide (t1 < t0 / 1000000000 * 1000000000) = false :=
    decide_eq_false (floor_second_le t0 t1 h0)
  simp [e1, e2]

/-- At or after the `exp` instant the expiry check fails. -/
theorem validateClaims_expired (c : Claims) (exp : Int) (t1 : Time)
    (he : c.Registered.ExpiresAt = some exp) (h1 : NumericDate.Time exp ≤ t1) :
    (validateClaims c t1).1 = true := by
  simp only [validateClaims, he]
  simp only [Bool.not_eq_true', decide_eq_false_iff_not, not_lt]
  exact h1

/-- A token whose payload is read back with the expiry of the signed claims is reported as
expired by the issuing service at or after that expiry. -/
theorem Validate_signed_expired (L : Lib) (j : JWT) (now : Time) (c c2 : Claims) (exp : Int)
    (hH : L.unmarshalHeader (L.marshalHeader (ascii "HS256")) = some (some (ascii "HS256")))
    (hC : L.unmarshalClaims (L.marshalClaims c) = some c2)
    (he : c2.Registered.ExpiresAt = some exp) (h1 : NumericDate.Time exp ≤ now) :
    j.Validate L now
        (signingInput L c ++ dot :: b64Encode (hmacSum L .SHA256 j.secretKey (signingInput L c))) =
      .error .ErrExpiredToken := by
  rw [Validate_signed L j j.secretKey now c c2 hH hC]
  have hx := validateClaims_expired c2 exp now he h1
  rcases hv : validateClaims c2 now with ⟨e, n⟩
  rw [hv] at hx
  simp only at hx
  subst hx
  simp

/-! ## Claims on the token service -/

/-- C1 (as amended). For every identity and every token service, a token issued at `t0` and
validated by the same service at any instant `t1` from `t0` up to the configured lifetime
minus one second later (so also at `t0` itself once the lifetime is at least one second)
is accepted, and the claims returned carry the id, name and email of the identity; the JSON
codec is assumed to read the issued header and claims back. -/
theorem C1_validate_generate (L : Lib) (j : JWT) (user : User) (t0 t1 : Time)
    (hH : L.unmarshalHeader (L.marshalHeader (ascii "HS256")) = some (some (ascii "HS256")))
    (hC : L.unmarshalClaims (L.marshalClaims (j.claimsFor t0 user)) = some (j.claimsFor t0 user))
    (h0 : t0 ≤ t1) (h1 : t1 ≤ t0 + j.expireTime - Second) :
    ∃ tok claims, j.Generate L t0 user = .ok tok ∧ j.Validate L t1 tok = .ok claims ∧
      claims.UserID = user.ID ∧ claims.Name = user.Name ∧ claims.Email = user.Email := by
  refine ⟨_, j.claimsFor t0 user, Generate_eq L j t0 user, ?_, rfl, rfl, rfl⟩
  rw [Validate_signed L j j.secretKey t1 _ _ hH hC,
    validateClaims_claimsFor_fresh j user t0 t1 h0 h1]
  simp

set_option maxRecDepth 1000000 in
/-- Witness of C1: the sample service with a lifetime of 24 hours, validating at the instant
of issuance. -/
theorem C1_validate_generate_witness :
    (sampleLib.unmarshalHeader (sampleLib.marshalHeader (ascii "HS256")) =
        some (some (ascii "HS256")) ∧
      sampleLib.unmarshalClaims (sampleLib.marshalClaims
          (JWT.claimsFor ⟨ascii "test-secret", 24 * Hour⟩ 1700000000000000005 ada)) =
        some (JWT.claimsFor ⟨ascii "test-secret", 24 * Hour⟩ 1700000000000000005 ada) ∧
      (1700000000000000005 : Time) ≤ 1700000000000000005 ∧
      (1700000000000000005 : Time) ≤ 1700000000000000005 + 24 * Hour - Second) ∧
    ∃ tok claims,
      JWT.Generate sampleLib ⟨ascii "test-secret", 24 * Hour⟩ 1700000000000000005 ada = .ok tok ∧
      JWT.Validate sampleLib ⟨ascii "test-secret", 24 * Hour⟩ 1700000000000000005 tok =
        .ok claims ∧
      claims.UserID = ada.ID ∧ claims.Name = ada.Name ∧ claims.Email = ada.Email :=
  ⟨⟨by decide, by decide, by decide, by decide⟩,
    C1_validate_generate sampleLib ⟨ascii "test-secret", 24 * Hour⟩ ada 1700000000000000005
      1700000000000000005 (by decide) (by decide) (by decide) (by decide)⟩

set_option maxRecDepth 1000000 in
/-- Counterexample to C1 as stated: a token service whose lifetime is zero issues a token
that the same service rejects as expired at the very instant of issuance. -/
theorem C1_counterexample :
    ∃ tok, JWT.Generate sampleLib ⟨ascii "test-secret", 0⟩ 1700000000000000005 ada = .ok tok ∧
      JWT.Validate sampleLib ⟨ascii "test-secret", 0⟩ 1700000000000000005 tok =
        .error .ErrExpiredToken :=
  ⟨_, rfl, by decide⟩

/-- C2. A token issued by `Generate` under the secret of the service and validated by that
service at an instant at or after its `exp` (so at every later instant) is rejected with
`ErrExpiredToken`, not with `ErrInvalidToken`; the JSON codec is assumed to read the issued
header back and to read the issued payload as claims with the same `exp`. -/
theorem C2_expired_token (L : Lib) (j : JWT) (user : User) (t0 t1 : Time) (c2 : Claims)
    (hH : L.unmarshalHeader (L.marshalHeader (ascii "HS256")) = some (some (ascii "HS256")))
    (hC : L.unmarshalClaims (L.marshalClaims (j.claimsFor t0 user)) = some c2)
    (he : c2.Registered.ExpiresAt = (j.claimsFor t0 user).Registered.ExpiresAt)
    (h1 : NumericDate.Time ((t0 + j.expireTime) / Second) ≤ t1) :
    ∃ tok, j.Generate L t0 user = .ok tok ∧
      j.Validate L t1 tok = .error .ErrExpiredToken ∧
      j.Validate L t1 tok ≠ .error .ErrInvalidToken := by
  have hv := Validate_signed_expired L j t1 (j.claimsFor t0 user) c2
    ((t0 + j.expireTime) / Second) hH hC he h1
  refine ⟨_, Generate_eq L j t0 user, hv, ?_⟩
  rw [hv]
  decide

set_option maxRecDepth 1000000 in
/-- Witness of C2: a token with a lifetime of 24 hours validated 24 hours and one second
after issuance. -/
theorem C2_expired_token_witness :
    (sampleLib.unmarshalHeader (sampleLib.marshalHeader (ascii "HS256")) =
        some (some (ascii "HS256")) ∧
      sampleLib.unmarshalClaims (sampleLib.marshalClaims
          (JWT.claimsFor ⟨ascii "test-secret", 24 * Hour⟩ 1700000000000000005 ada)) =
        some (JWT.claimsFor ⟨ascii "test-secret", 24 * Hour⟩ 1700000000000000005 ada) ∧
      NumericDate.Time ((1700000000000000005 + 24 * Hour) / Second) ≤
        1700000000000000005 + 24 * Hour + Second) ∧
    ∃ tok,
      JWT.Generate sampleLib ⟨ascii "test-secret", 24 * Hour⟩ 1700000000000000005 ada = .ok tok ∧
      JWT.Validate sampleLib ⟨ascii "test-secret", 24 * Hour⟩
          (1700000000000000005 + 24 * Hour + Second) tok = .error .ErrExpiredToken ∧
      JWT.Validate sampleLib ⟨ascii "test-secret", 24 * Hour⟩
          (1700000000000000005 + 24 * Hour + Second) tok ≠ .error .ErrInvalidToken :=
  ⟨⟨by decide, by decide, by decide⟩,
    C2_expired_token sampleLib ⟨ascii "test-secret", 24 * Hour⟩ ada 1700000000000000005
      (1700000000000000005 + 24 * Hour + Second)
      (JWT.claimsFor ⟨ascii "test-secret", 24 * Hour⟩ 1700000000000000005 ada)
      (by decide) (by decide) rfl (by decide)⟩

/-- C3 (as amended). For every input string, `Validate` returns claims, or `ErrExpiredToken`,
or `ErrInvalidToken`, and nothing else. A parse failure that is malformed input, an unusable
`alg`, a rejection by the key function, a bad signature, or a token that is not yet valid and
not expired is reported as `ErrInvalidToken`; a parse failure that carries the expiry error,
alone or joined with the not-yet-valid error, is reported as `ErrExpiredToken`. -/
theorem C3_two_failure_kinds (L : Lib) (j : JWT) (now : Time) (s : GoString) :
    ((∃ c, j.Validate L now s = .ok c) ∨ j.Validate L now s = .error .ErrExpiredToken ∨
        j.Validate L now s = .error .ErrInvalidToken) ∧
      (∀ e, ParseWithClaims L now s j.keyFunc = .error e →
        (e = .malformed ∨ e = .unverifiable ∨ (∃ x, e = .keyfunc x) ∨ e = .signatureInvalid ∨
          e = .invalidClaims false true) →
        j.Validate L now s = .error .ErrInvalidToken) ∧
      (∀ n, ParseWithClaims L now s j.keyFunc = .error (.invalidClaims true n) →
        j.Validate L now s = .error .ErrExpiredToken) := by
  refine ⟨?_, ?_, ?_⟩
  · unfold JWT.Validate
    cases hp : ParseWithClaims L now s j.keyFunc with
    | error e =>
      by_cases hx : e.isTokenExpired = true
      · simp [hx]
      · simp [hx]
    | ok token =>
      cases hval : token.Valid
      · simp [hval]
      · simp [hval]
  · intro e hp he
    unfold JWT.Validate
    rw [hp]
    rcases he with rfl | rfl | ⟨x, rfl⟩ | rfl | rfl <;> simp [ParseError.isTokenExpired]
  · intro n hp
    unfold JWT.Validate
    rw [hp]
    simp [ParseError.isTokenExpired]

set_option maxRecDepth 1000000 in
/-- Counterexample to C3 as stated: a correctly signed token whose `nbf` (100 s) lies after
its `exp` (90 s), validated at 95 s (by a host whose clock is five seconds behind the
issuing one), is not yet valid (and expired); the parser reports both errors and `Validate`
answers `ErrExpiredToken`, not `ErrInvalidToken`. -/
theorem C3_counterexample :
    ∃ tok, JWT.Generate sampleLib ⟨ascii "test-secret", -10 * Second⟩ (100 * Second) ada =
        .ok tok ∧
      ParseWithClaims sampleLib (95 * Second) tok
          (JWT.keyFunc ⟨ascii "test-secret", -10 * Second⟩) =
        .error (.invalidClaims true true) ∧
      JWT.Validate sampleLib ⟨ascii "test-secret", -10 * Second⟩ (95 * Second) tok =
        .error .ErrExpiredToken :=
  ⟨_, rfl, by decide, by decide⟩

/-- The key function of the service accepts exactly the HMAC methods and then yields the
secret of the service. -/
theorem keyFunc_ok_inv (j : JWT) (m : SigningMethod) (key : List Byte)
    (h : j.keyFunc m = .ok key) : ∃ hash, m = .HMAC hash ∧ key = j.secretKey := by
  cases m <;> simp [JWT.keyFunc] at h
  case HMAC hash => exact ⟨hash, rfl, h.symm⟩

/-- A successful validation comes from a successful parse and returns its claims. -/
theorem Validate_ok_inv (L : Lib) (j : JWT) (now : Time) (tok : GoString) (c : Claims)
    (h : j.Validate L now tok = .ok c) :
    ∃ token, ParseWithClaims L now tok j.keyFunc = .ok token ∧ token.Claims = c := by
  unfold JWT.Validate at h
  split at h
  · split at h <;> cases h
  next token hp =>
    split at h
    · cases h
    · cases h
      exact ⟨token, hp, rfl⟩

/-- C4 (as amended). (1) `Validate` accepts a token only if it has three segments of which
the third decodes to the HMAC, under the secret of the validating service and the hash named
by the header, of the first two segments joined by a dot. (2) A token generated under a
secret `k1` is rejected with `ErrInvalidToken` by a service with secret `k2` whenever the
HMAC-SHA256 tags of its signing input under `k1` and `k2` differ (the header being read
back by the codec). (3) A token obtained from an accepted token by replacing the signature
segment with one that decodes differently (or does not decode) is rejected with
`ErrInvalidToken`. -/
theorem C4_signature_binding (L : Lib) (j : JWT) (now : Time) :
    (∀ tok c, j.Validate L now tok = .ok c →
      ∃ s0 s1 s2 hash, splitOn dot tok = [s0, s1, s2] ∧
        b64Decode s2 = some (hmacSum L hash j.secretKey (s0 ++ dot :: s1))) ∧
    (∀ (key1 : List Byte) (c : Claims),
      L.unmarshalHeader (L.marshalHeader (ascii "HS256")) = some (some (ascii "HS256")) →
      hmacSum L .SHA256 key1 (signingInput L c) ≠
        hmacSum L .SHA256 j.secretKey (signingInput L c) →
      SignedString L (.HMAC .SHA256) c key1 =
          .ok (signingInput L c ++
            dot :: b64Encode (hmacSum L .SHA256 key1 (signingInput L c))) ∧
        j.Validate L now (signingInput L c ++
            dot :: b64Encode (hmacSum L .SHA256 key1 (signingInput L c))) =
          .error .ErrInvalidToken) ∧
    (∀ tok tok2 s0 s1 s2 s2b c, j.Validate L now tok = .ok c →
      splitOn dot tok = [s0, s1, s2] → splitOn dot tok2 = [s0, s1, s2b] →
      b64Decode s2b ≠ b64Decode s2 → j.Validate L now tok2 = .error .ErrInvalidToken) := by
  refine ⟨?_, ?_, ?_⟩
  · intro tok c h
    obtain ⟨token, hp, _⟩ := Validate_ok_inv L j now tok c h
    obtain ⟨s0, s1, s2, hb, alg, cb, key, hs, _, _, _, _, _, hsig, hK, hV, _, _⟩ :=
      ParseWithClaims_ok_inv L now tok j.keyFunc token hp
    obtain ⟨hash, hm, hkey⟩ := keyFunc_ok_inv j token.Method key hK
    rw [hm] at hV
    simp only [SigningMethod.Verify, decide_eq_true_eq] at hV
    exact ⟨s0, s1, s2, hash, hs, by rw [hsig, hV, hkey]⟩
  · intro key1 c hH hne
    refine ⟨rfl, ?_⟩
    unfold JWT.Validate ParseWithClaims signingInput
    rw [splitOn_three _ _ _ (dot_not_mem_b64Encode _) (dot_not_mem_b64Encode _)
      (dot_not_mem_b64Encode _)]
    simp only [b64Decode_b64Encode, hH, GetSigningMethod_HS256]
    cases hC : L.unmarshalClaims (L.marshalClaims c) with
    | none => simp [ParseError.isTokenExpired]
    | some c2 =>
      have hne2 : ¬ hmacSum L .SHA256 key1
          (b64Encode (L.marshalHeader (ascii "HS256")) ++ dot :: b64Encode (L.marshalClaims c)) =
          hmacSum L .SHA256 j.secretKey
          (b64Encode (L.marshalHeader (ascii "HS256")) ++ dot :: b64Encode (L.marshalClaims c)) :=
        hne
      simp [JWT.keyFunc, SigningMethod.Verify, hne2, ParseError.isTokenExpired]
  · intro tok tok2 s0 s1 s2 s2b c h hs hs2 hne
    obtain ⟨token, hp, _⟩ := Validate_ok_inv L j now tok c h
    obtain ⟨t0, t1, t2, hb, alg, cb, key, hst, hhb, hH, hcb, hC, hM, hsig, hK, hV, _, _⟩ :=
      ParseWithClaims_ok_inv L now tok j.keyFunc token hp
    rw [hs] at hst
    simp only [List.cons.injEq, and_true] at hst
    obtain ⟨rfl, rfl, rfl⟩ := hst
    obtain ⟨hash, hm, hkey⟩ := keyFunc_ok_inv j token.Method key hK
    rw [hm] at hV hM hK
    simp only [SigningMethod.Verify, decide_eq_true_eq] at hV
    unfold JWT.Validate ParseWithClaims
    simp only [hs2, hhb, hH, hcb, hC, hM]
    cases hd : b64Decode s2b with
    | none => simp [ParseError.isTokenExpired]
    | some sig2 =>
      have hx : sig2 ≠ hmacSum L hash key (s0 ++ dot :: s1) := by
        intro e
        apply hne
        rw [hd, hsig, e, hV]
      simp [hK, SigningMethod.Verify, hx, ParseError.isTokenExpired]

set_option maxRecDepth 1000000 in
/-- Counterexample to C4 as stated. The secrets `a` and `a` followed by a zero byte differ,
yet a token generated under the first is accepted by a service holding the second (HMAC
pads a short key with zero bytes); and replacing the last character `w` of the signature
segment of the sample token by `x` gives a different token string that is still accepted
(the low bits of the last character are not part of the signature). -/
theorem C4_counterexample :
    (ascii "a" ≠ ascii "a" ++ [byte 0] ∧
      ∃ tok, JWT.Generate sampleLib ⟨ascii "a", 24 * Hour⟩ sampleNow ada = .ok tok ∧
        JWT.Validate sampleLib ⟨ascii "a" ++ [byte 0], 24 * Hour⟩ sampleNow tok =
          .ok (JWT.claimsFor ⟨ascii "a", 24 * Hour⟩ sampleNow ada)) ∧
    (sampleAuth.jwt.Generate sampleLib sampleNow ada = .ok sampleToken ∧
      sampleToken.getLast? = some (byte 119) ∧
      sampleAuth.jwt.Validate sampleLib sampleNow (sampleToken.dropLast ++ [byte 120]) =
        .ok sampleClaims) :=
  ⟨⟨by decide, _, rfl, by decide⟩, ⟨rfl, by decide, by decide⟩⟩

set_option maxRecDepth 1000000 in
/-- Witness of C4: the sample token is accepted, and so its signature segment decodes to the
HMAC of its first two segments; the token signed for the same claims under another secret
is rejected; and the sample token with an empty signature segment is rejected. -/
theorem C4_signature_binding_witness :
    (sampleAuth.jwt.Validate sampleLib sampleNow sampleToken = .ok sampleClaims ∧
      ∃ s0 s1 s2 hash, splitOn dot sampleToken = [s0, s1, s2] ∧
        b64Decode s2 = some (hmacSum sampleLib hash sampleAuth.jwt.secretKey (s0 ++ dot :: s1))) ∧
    ((sampleLib.unmarshalHeader (sampleLib.marshalHeader (ascii "HS256")) =
          some (some (ascii "HS256")) ∧
        hmacSum sampleLib .SHA256 (ascii "other-secret") (signingInput sampleLib sampleClaims) ≠
          hmacSum sampleLib .SHA256 sampleAuth.jwt.secretKey
            (signingInput sampleLib sampleClaims)) ∧
      SignedString sampleLib (.HMAC .SHA256) sampleClaims (ascii "other-secret") =
          .ok (signingInput sampleLib sampleClaims ++
            dot :: b64Encode (hmacSum sampleLib .SHA256 (ascii "other-secret")
              (signingInput sampleLib sampleClaims))) ∧
        sampleAuth.jwt.Validate sampleLib sampleNow (signingInput sampleLib sampleClaims ++
            dot :: b64Encode (hmacSum sampleLib .SHA256 (ascii "other-secret")
              (signingInput sampleLib sampleClaims))) = .error .ErrInvalidToken) ∧
    ((splitOn dot sampleToken =
          [b64Encode (sampleLib.marshalHeader (ascii "HS256")),
            b64Encode (sampleLib.marshalClaims sampleClaims),
            b64Encode (hmacSum sampleLib .SHA256 sampleAuth.jwt.secretKey
              (signingInput sampleLib sampleClaims))] ∧
        splitOn dot (signingInput sampleLib sampleClaims ++ [dot]) =
          [b64Encode (sampleLib.marshalHeader (ascii "HS256")),
            b64Encode (sampleLib.marshalClaims sampleClaims), []] ∧
        b64Decode [] ≠ b64Decode (b64Encode (hmacSum sampleLib .SHA256 sampleAuth.jwt.secretKey
              (signingInput sampleLib sampleClaims)))) ∧
      sampleAuth.jwt.Validate sampleLib sampleNow (signingInput sampleLib sampleClaims ++ [dot]) =
        .error .ErrInvalidToken) :=
  ⟨⟨by decide,
      (C4_signature_binding sampleLib sampleAuth.jwt sampleNow).1 sampleToken sampleClaims
        (by decide)⟩,
    ⟨⟨by decide, by decide⟩,
      (C4_signature_binding sampleLib sampleAuth.jwt sampleNow).2.1 (ascii "other-secret")
        sampleClaims (by decide) (by decide)⟩,
    ⟨⟨by decide, by decide, by decide⟩,
      (C4_signature_binding sampleLib sampleAuth.jwt sampleNow).2.2 sampleToken
        (signingInput sampleLib sampleClaims ++ [dot])
        (b64Encode (sampleLib.marshalHeader (ascii "HS256")))
        (b64Encode (sampleLib.marshalClaims sampleClaims))
        (b64Encode (hmacSum sampleLib .SHA256 sampleAuth.jwt.secretKey
          (signingInput sampleLib sampleClaims))) [] sampleClaims
        (by decide) (by decide) (by decide) (by decide)⟩⟩

/-- The registry returns a method under its own name. -/
theorem GetSigningMethod_alg (alg : GoString) (m : SigningMethod)
    (h : GetSigningMethod alg = some m) : m.Alg = alg := by
  unfold GetSigningMethod at h
  have := List.find?_some h
  simpa using this

/-- C5. A token whose header declares an `alg` other than the names of the HMAC methods
(`HS256`, `HS384`, `HS512`), be it the name of another registered method, `none`, or an
unknown name, is rejected with `ErrInvalidToken`, whatever its payload and signature
segments are. -/
theorem C5_non_hmac_rejected (L : Lib) (j : JWT) (now : Time) (tok alg : GoString)
    (hA : declaredAlg L tok = some alg)
    (hN : alg ∉ [ascii "HS256", ascii "HS384", ascii "HS512"]) :
    j.Validate L now tok = .error .ErrInvalidToken ∧ ∀ c, j.Validate L now tok ≠ .ok c := by
  have key : j.Validate L now tok = .error .ErrInvalidToken := by
    unfold declaredAlg at hA
    split at hA
    next s0 s1 s2 hs =>
      split at hA
      · cases hA
      next hb hhb =>
        split at hA
        next alg2 hH =>
          cases hA
          unfold JWT.Validate ParseWithClaims
          simp only [hs, hhb, hH]
          cases h1 : b64Decode s1 with
          | none => simp [ParseError.isTokenExpired]
          | some cb =>
            cases hC : L.unmarshalClaims cb with
            | none => simp [hC, ParseError.isTokenExpired]
            | some c =>
              cases hM : GetSigningMethod alg with
              | none => simp [hC, hM, ParseError.isTokenExpired]
              | some m =>
                cases h2 : b64Decode s2 with
                | none => simp [hC, hM, h2, ParseError.isTokenExpired]
                | some sig =>
                  have hm := GetSigningMethod_alg alg m hM
                  cases m with
                  | HMAC hash =>
                    exfalso
                    apply hN
                    rw [← hm]
                    cases hash <;> simp [SigningMethod.Alg]
                  | _ => simp [hC, hM, h2, JWT.keyFunc, ParseError.isTokenExpired]
        next => cases hA
    next => cases hA
  refine ⟨key, ?_⟩
  intro c hc
  rw [key] at hc
  cases hc

set_option maxRecDepth 1000000 in
/-- Witness of C5: a token whose header declares the method `none`, with arbitrary payload
and signature segments. -/
theorem C5_non_hmac_rejected_witness :
    (declaredAlg sampleLib
          (b64Encode (sampleLib.marshalHeader (ascii "none")) ++ dot :: ascii "e30" ++
            dot :: ascii "c2ln") = some (ascii "none") ∧
      ascii "none" ∉ [ascii "HS256", ascii "HS384", ascii "HS512"]) ∧
    (JWT.Validate sampleLib ⟨ascii "test-secret", 24 * Hour⟩ 1700000000000000005
          (b64Encode (sampleLib.marshalHeader (ascii "none")) ++ dot :: ascii "e30" ++
            dot :: ascii "c2ln") = .error .ErrInvalidToken ∧
      ∀ c, JWT.Validate sampleLib ⟨ascii "test-secret", 24 * Hour⟩ 1700000000000000005
          (b64Encode (sampleLib.marshalHeader (ascii "none")) ++ dot :: ascii "e30" ++
            dot :: ascii "c2ln") ≠ .ok c) :=
  ⟨⟨by decide, by decide⟩,
    C5_non_hmac_rejected sampleLib ⟨ascii "test-secret", 24 * Hour⟩ 1700000000000000005 _
      (ascii "none") (by decide) (by decide)⟩

/-! ## Lemmas on float64 and `Duration.Seconds` -/

theorem roundHalfEven_intCast (z : ℤ) : roundHalfEven (z : ℚ) = z := by
  unfold roundHalfEven
  simp

/-- Integers below `2 ^ 53` in magnitude are `float64` values. -/
theorem float64_intCast (z : ℤ) (h : |z| < 2 ^ 53) : float64 (z : ℚ) = z := by
  unfold float64
  by_cases hz : (z : ℚ) = 0
  · simp [hz]
  · rw [if_neg hz]
    have hpos : (0 : ℚ) < |(z : ℚ)| := abs_pos.mpr hz
    have hlt : |(z : ℚ)| < ((2 : ℕ) : ℚ) ^ (53 : ℤ) := by
      have : ((|z| : ℤ) : ℚ) < ((2 ^ 53 : ℤ) : ℚ) := by exact_mod_cast h
      rw [Int.cast_abs] at this
      norm_num at this ⊢
      exact this
    have hlog : Int.log 2 |(z : ℚ)| < 53 := (Int.lt_zpow_iff_log_lt (by norm_num) hpos).mp hlt
    obtain ⟨k, hk⟩ : ∃ k : ℕ, (52 : ℤ) - Int.log 2 |(z : ℚ)| = k :=
      ⟨(52 - Int.log 2 |(z : ℚ)|).toNat, (Int.toNat_of_nonneg (by omega)).symm⟩
    have he : Int.log 2 |(z : ℚ)| - 52 = -(k : ℤ) := by omega
    simp only [he, zpow_neg, zpow_natCast]
    have hdiv : (z : ℚ) / ((2 : ℚ) ^ k)⁻¹ = ((z * 2 ^ k : ℤ) : ℚ) := by
      push_cast
      field_simp
    rw [hdiv, roundHalfEven_intCast]
    push_cast
    field_simp

/-- A duration of a whole number of seconds has that number as its `Seconds`. -/
theorem Seconds_whole (k : Int) (h : |k| < 2 ^ 53) : Duration.Seconds (k * Second) = k := by
  unfold Duration.Seconds
  have h1 : Int.tdiv (k * Second) Second = k := by
    simp [Second, Int.mul_tdiv_cancel]
  have h2 : Int.tmod (k * Second) Second = 0 := by
    simp [Second, Int.mul_tmod_left]
  rw [h1, h2]
  have e0 : float64 ((0 : ℤ) : ℚ) = 0 := by simp [float64]
  rw [e0, float64_intCast k h]
  simp only [zero_div]
  have e00 : float64 (0 : ℚ) = 0 := by simp [float64]
  rw [e00, add_zero]
  exact float64_intCast k h

theorem toInt64_intCast (k : Int) : toInt64 (k : ℚ) = k := by
  simp [toInt64]

/-- A service whose lifetime is a whole number `k` of seconds reports `k`. -/
theorem GetExpireTime_whole (key : List Byte) (k : Int) (h : |k| < 2 ^ 53) :
    JWT.GetExpireTime ⟨key, k * Second⟩ = k := by
  unfold JWT.GetExpireTime
  rw [Seconds_whole k h, toInt64_intCast]

theorem whole_seconds_offset (a d : Int) (hd : d % 1000000000 = 0) :
    (a + d) / 1000000000 * 1000000000 = a / 1000000000 * 1000000000 + d ∧
      (a + d) / 1000000000 = a / 1000000000 + d / 1000000000 := by
  omega

theorem any_offset_bounds (a d : Int) :
    a / 1000000000 * 1000000000 + d - 1000000000 < (a + d) / 1000000000 * 1000000000 ∧
      (a + d) / 1000000000 * 1000000000 < a / 1000000000 * 1000000000 + d + 1000000000 := by
  omega

/-- C6 (as amended). For every issuance instant and every configured lifetime that is a whole
number of seconds, the claims that `Generate` signs satisfy `exp = iat + lifetime` and
`nbf = iat`, where `iat` is the issuance instant truncated to the second. -/
theorem C6_expiry_offset (L : Lib) (j : JWT) (now : Time) (user : User)
    (hd : j.expireTime % Second = 0) :
    j.Generate L now user = SignedString L (.HMAC .SHA256) (j.claimsFor now user) j.secretKey ∧
    ∃ exp iat, (j.claimsFor now user).Registered.ExpiresAt = some exp ∧
      (j.claimsFor now user).Registered.IssuedAt = some iat ∧
      (j.claimsFor now user).Registered.NotBefore = some iat ∧
      iat = now / Second ∧
      NumericDate.Time exp = NumericDate.Time iat + j.expireTime ∧
      exp = iat + j.expireTime / Second := by
  refine ⟨rfl, (now + j.expireTime) / Second, now / Second, rfl, rfl, rfl, rfl, ?_, ?_⟩
  · exact (whole_seconds_offset now j.expireTime hd).1
  · exact (whole_seconds_offset now j.expireTime hd).2

/-- Witness of C6: a lifetime of 24 hours. -/
theorem C6_expiry_offset_witness :
    (24 * Hour) % Second = 0 ∧
    (JWT.Generate sampleLib ⟨ascii "test-secret", 24 * Hour⟩ 1700000000000000005 ada =
      SignedString sampleLib (.HMAC .SHA256)
        (JWT.claimsFor ⟨ascii "test-secret", 24 * Hour⟩ 1700000000000000005 ada)
        (ascii "test-secret") ∧
    ∃ exp iat,
      (JWT.claimsFor ⟨ascii "test-secret", 24 * Hour⟩ 1700000000000000005 ada).Registered.ExpiresAt
        = some exp ∧
      (JWT.claimsFor ⟨ascii "test-secret", 24 * Hour⟩ 1700000000000000005 ada).Registered.IssuedAt
        = some iat ∧
      (JWT.claimsFor ⟨ascii "test-secret", 24 * Hour⟩ 1700000000000000005 ada).Registered.NotBefore
        = some iat ∧
      iat = 1700000000000000005 / Second ∧
      NumericDate.Time exp = NumericDate.Time iat + 24 * Hour ∧
      exp = iat + 24 * Hour / Second) :=
  ⟨by decide,
    C6_expiry_offset sampleLib ⟨ascii "test-secret", 24 * Hour⟩ 1700000000000000005 ada
      (by decide)⟩

/-- Counterexample to C6 as stated: with a lifetime of 1.5 s and issuance at 0.6 s the claims
carry `iat = 0` and `exp = 2`, two seconds apart, which is neither the lifetime nor the
lifetime truncated to whole seconds. The same happens with a lifetime loaded from the
configuration when `JWT_EXPIRE_HOURS` is `2562048`: the product with `time.Hour` wraps
around to a duration that is not a whole number of seconds. -/
theorem C6_counterexample :
    ((JWT.claimsFor ⟨ascii "test-secret", 1500000000⟩ 600000000 ada).Registered.IssuedAt =
        some 0 ∧
      (JWT.claimsFor ⟨ascii "test-secret", 1500000000⟩ 600000000 ada).Registered.ExpiresAt =
        some 2 ∧
      NumericDate.Time 2 ≠ NumericDate.Time 0 + 1500000000 ∧
      (2 : Int) ≠ 0 + 1500000000 / Second) ∧
    ((New (Load (fun k =>
        if k = ascii "JWT_EXPIRE_HOURS" then some (ascii "2562048") else none)).JWT).expireTime =
        -9223371273709551616 ∧
      (JWT.claimsFor ⟨ascii "test-secret", -9223371273709551616⟩ sampleNow ada).Registered.IssuedAt
        = some 1700000000 ∧
      (JWT.claimsFor ⟨ascii "test-secret", -9223371273709551616⟩ sampleNow ada
        ).Registered.ExpiresAt = some (-7523371274) ∧
      NumericDate.Time (-7523371274) ≠ NumericDate.Time 1700000000 + -9223371273709551616) :=
  ⟨⟨by decide, by decide, by decide, by decide⟩, ⟨by decide, by decide, by decide, by decide⟩⟩

/-- For every lifetime the `exp` instant lies less than one second away from `iat` plus the
lifetime. -/
theorem claimsFor_expiry_bounds (j : JWT) (now : Time) (user : User) :
    ∃ exp iat, (j.claimsFor now user).Registered.ExpiresAt = some exp ∧
      (j.claimsFor now user).Registered.IssuedAt = some iat ∧
      NumericDate.Time iat + j.expireTime - Second < NumericDate.Time exp ∧
      NumericDate.Time exp < NumericDate.Time iat + j.expireTime + Second :=
  ⟨(now + j.expireTime) / Second, now / Second, rfl, rfl,
    (any_offset_bounds now j.expireTime).1, (any_offset_bounds now j.expireTime).2⟩

theorem wrap64_of_range (x : Int) (h0 : -9223372036854775808 ≤ x) (h1 : x < 9223372036854775808) :
    wrap64 x = x := by
  unfold wrap64
  omega

theorem hours_as_seconds (n : Int) : n * Hour = (n * 3600) * Second := by
  unfold Hour
  ring

theorem hours_small (n : Int) (h0 : -9223372036854775808 ≤ n * Hour)
    (h1 : n * Hour < 9223372036854775808) : |n * 3600| < 2 ^ 53 := by
  unfold Hour Second at h0 h1
  rw [abs_lt]
  constructor <;> omega

/-- C7. `GetExpireTime` returns the configured lifetime in whole seconds: (1) a service whose
lifetime is `n` hours (a `time.Duration`, so within the range of `int64` nanoseconds)
reports `n * 3600`; (2) the service built from the loaded configuration reports `86400` when
`JWT_EXPIRE_HOURS` is unset or is not accepted by `strconv.Atoi`; (3) and reports `n * 3600`
when `JWT_EXPIRE_HOURS` holds the integer `n` and `n` hours fit a `time.Duration`. -/
theorem C7_expire_time_seconds (key : List Byte) (n : Int) (env : Environ) (v : GoString) :
    (-9223372036854775808 ≤ n * Hour → n * Hour < 9223372036854775808 →
      JWT.GetExpireTime ⟨key, n * Hour⟩ = n * 3600) ∧
    (env (ascii "JWT_EXPIRE_HOURS") = none ∨
        (env (ascii "JWT_EXPIRE_HOURS") = some v ∧ Atoi v = none) →
      (New (Load env).JWT).GetExpireTime = 86400) ∧
    (env (ascii "JWT_EXPIRE_HOURS") = some v → Atoi v = some n →
      -9223372036854775808 ≤ n * Hour → n * Hour < 9223372036854775808 →
      (New (Load env).JWT).GetExpireTime = n * 3600) := by
  have main : ∀ (k : List Byte) (m : Int), -9223372036854775808 ≤ m * Hour →
      m * Hour < 9223372036854775808 → JWT.GetExpireTime ⟨k, m * Hour⟩ = m * 3600 := by
    intro k m h0 h1
    rw [hours_as_seconds]
    exact GetExpireTime_whole k (m * 3600) (hours_small m h0 h1)
  refine ⟨main key n, ?_, ?_⟩
  · intro h
    have hg : getEnvAsInt env (ascii "JWT_EXPIRE_HOURS") 24 = 24 := by
      unfold getEnvAsInt
      rcases h with h | ⟨h, ha⟩
      · rw [h]
      · rw [h]
        simp only [ha]
    have hw : wrap64 (24 * Hour) = 24 * Hour := wrap64_of_range _ (by decide) (by decide)
    show JWT.GetExpireTime ⟨_, wrap64 (getEnvAsInt env (ascii "JWT_EXPIRE_HOURS") 24 * Hour)⟩ = 86400
    rw [hg, hw, main _ 24 (by decide) (by decide)]
    rfl
  · intro h ha h0 h1
    have hg : getEnvAsInt env (ascii "JWT_EXPIRE_HOURS") 24 = n := by
      unfold getEnvAsInt
      rw [h]
      simp only [ha]
    show JWT.GetExpireTime ⟨_, wrap64 (getEnvAsInt env (ascii "JWT_EXPIRE_HOURS") 24 * Hour)⟩ =
      n * 3600
    rw [hg, wrap64_of_range _ h0 h1, main _ n h0 h1]

/-- Witness of C7: a lifetime of 24 hours, an environment without `JWT_EXPIRE_HOURS`, one
where it is `abc`, and one where it is `48`. -/
theorem C7_expire_time_seconds_witness :
    ((-9223372036854775808 : Int) ≤ 24 * Hour ∧ (24 : Int) * Hour < 9223372036854775808 ∧
      Atoi (ascii "abc") = none ∧ Atoi (ascii "48") = some 48 ∧
      (-9223372036854775808 : Int) ≤ 48 * Hour ∧ (48 : Int) * Hour < 9223372036854775808) ∧
    JWT.GetExpireTime ⟨ascii "test-secret", 24 * Hour⟩ = 24 * 3600 ∧
    (New (Load (fun _ => none)).JWT).GetExpireTime = 86400 ∧
    (New (Load (fun k => if k = ascii "JWT_EXPIRE_HOURS" then some (ascii "abc") else none)).JWT
      ).GetExpireTime = 86400 ∧
    (New (Load (fun k => if k = ascii "JWT_EXPIRE_HOURS" then some (ascii "48") else none)).JWT
      ).GetExpireTime = 48 * 3600 :=
  ⟨⟨by decide, by decide, by decide, by decide, by decide, by decide⟩,
    (C7_expire_time_seconds (ascii "test-secret") 24 (fun _ => none) []).1
      (by decide) (by decide),
    (C7_expire_time_seconds [] 0 (fun _ => none) []).2.1 (Or.inl rfl),
    (C7_expire_time_seconds [] 0
      (fun k => if k = ascii "JWT_EXPIRE_HOURS" then some (ascii "abc") else none)
      (ascii "abc")).2.1 (Or.inr ⟨by decide, by decide⟩),
    (C7_expire_time_seconds [] 48
      (fun k => if k = ascii "JWT_EXPIRE_HOURS" then some (ascii "48") else none)
      (ascii "48")).2.2 (by decide) (by decide) (by decide) (by decide)⟩

/-! ## Claims on the authentication flow -/

/-- C8. When the lookup of the request's email finds an identity, `Register` returns no
response and `ErrEmailAlreadyExists`; the lookup is the only call it makes (no password
is hashed, nothing is created, updated or deleted) and the store is left in the state in
which the lookup left it. -/
theorem C8_register_existing_email {σ : Type} (L : Lib) (bc : Bcrypt σ) (s : authService σ)
    (now : Time) (req : RegisterRequest) (st st1 : σ) (existing : User)
    (h : s.userRepo.GetByEmail req.Email st = (.ok existing, st1)) :
    (s.Register L bc now req st).result = .error .ErrEmailAlreadyExists ∧
      (s.Register L bc now req st).calls = [.GetByEmail req.Email] ∧
      (s.Register L bc now req st).state = st1 ∧
      (∀ u, Call.Create u ∉ (s.Register L bc now req st).calls) ∧
      (∀ u, Call.Update u ∉ (s.Register L bc now req st).calls) ∧
      (∀ i, Call.Delete i ∉ (s.Register L bc now req st).calls) ∧
      (∀ p, Call.GenerateFromPassword p ∉ (s.Register L bc now req st).calls) := by
  have e : s.Register L bc now req st =
      { result := .error .ErrEmailAlreadyExists, calls := [.GetByEmail req.Email],
        state := st1 } := by
    unfold authService.Register
    rw [h]
  rw [e]
  simp

/-- Witness of C8: registering Ada again in a table that already holds her row. -/
theorem C8_register_existing_email_witness :
    sampleAuth.userRepo.GetByEmail adaRequest.Email [ada] = (.ok ada, [ada]) ∧
    ((sampleAuth.Register sampleLib (sampleBcrypt _) 1700000000000000005 adaRequest [ada]).result
        = .error .ErrEmailAlreadyExists ∧
      (sampleAuth.Register sampleLib (sampleBcrypt _) 1700000000000000005 adaRequest [ada]).calls
        = [.GetByEmail adaRequest.Email] ∧
      (sampleAuth.Register sampleLib (sampleBcrypt _) 1700000000000000005 adaRequest [ada]).state
        = [ada] ∧
      (∀ u, Call.Create u ∉
        (sampleAuth.Register sampleLib (sampleBcrypt _) 1700000000000000005 adaRequest
          [ada]).calls) ∧
      (∀ u, Call.Update u ∉
        (sampleAuth.Register sampleLib (sampleBcrypt _) 1700000000000000005 adaRequest
          [ada]).calls) ∧
      (∀ i, Call.Delete i ∉
        (sampleAuth.Register sampleLib (sampleBcrypt _) 1700000000000000005 adaRequest
          [ada]).calls) ∧
      (∀ p, Call.GenerateFromPassword p ∉
        (sampleAuth.Register sampleLib (sampleBcrypt _) 1700000000000000005 adaRequest
          [ada]).calls)) :=
  ⟨by decide,
    C8_register_existing_email sampleLib (sampleBcrypt _) sampleAuth 1700000000000000005
      adaRequest [ada] [ada] ada (by decide)⟩

/-- C9, evaluated where it fails. A request looks up an email that is not yet in the table,
a concurrent registration of the same email is committed, and the request's own `Create`
then meets the unique index: `Register` returns `repository.ErrDuplicateEmail` as it
stands, which is not `service.ErrEmailAlreadyExists` and is not recognised as such by
`errors.Is`; the table holds the single row of the other request. -/
theorem C9_register_lost_race :
    (authService.Register sampleLib (sampleBcrypt _) { sampleAuth with userRepo := raceRepo ada }
        1700000000000000005 adaRequest []).result = .error .ErrDuplicateEmail ∧
      errorsIs .ErrDuplicateEmail .ErrEmailAlreadyExists = false ∧
      (authService.Register sampleLib (sampleBcrypt _) { sampleAuth with userRepo := raceRepo ada }
        1700000000000000005 adaRequest []).state = [ada] := by
  decide

/-- Whatever error `Create` reports after a lookup that found nothing, `Register` returns it
unchanged; a uniqueness conflict is not turned into `ErrEmailAlreadyExists`. -/
theorem Register_create_error {σ : Type} (L : Lib) (bc : Bcrypt σ) (s : authService σ)
    (now : Time) (req : RegisterRequest) (st st1 st2 st3 : σ) (e err : Error)
    (hashed : GoString) (left : User)
    (h1 : s.userRepo.GetByEmail req.Email st = (.error e, st1))
    (h2 : errorsIs e .ErrNotFound = true)
    (h3 : bc.GenerateFromPassword req.Password st1 = (.ok hashed, st2))
    (h4 : s.userRepo.Create
      { ID := 0, Name := req.Name, Email := req.Email, Password := hashed
        CreatedAt := zeroTime, UpdatedAt := zeroTime } st2 = ((some err, left), st3)) :
    (s.Register L bc now req st).result = .error err := by
  unfold authService.Register
  rw [h1]
  simp only [h2, Bool.not_true, Bool.false_eq_true, if_false]
  rw [h3]
  simp only
  rw [h4]

/-- C10. When the lookup of the request's email fails with an error that is not (and does
not wrap) `ErrNotFound`, `Register` returns no response and that very error; the lookup is
the only call it makes, so no password is hashed and nothing is created. -/
theorem C10_register_lookup_error {σ : Type} (L : Lib) (bc : Bcrypt σ) (s : authService σ)
    (now : Time) (req : RegisterRequest) (st st1 : σ) (err : Error)
    (h : s.userRepo.GetByEmail req.Email st = (.error err, st1))
    (hne : errorsIs err .ErrNotFound = false) :
    (s.Register L bc now req st).result = .error err ∧
      (s.Register L bc now req st).calls = [.GetByEmail req.Email] ∧
      (s.Register L bc now req st).state = st1 ∧
      (∀ u, Call.Create u ∉ (s.Register L bc now req st).calls) ∧
      (∀ p, Call.GenerateFromPassword p ∉ (s.Register L bc now req st).calls) := by
  have e : s.Register L bc now req st =
      { result := .error err, calls := [.GetByEmail req.Email], state := st1 } := by
    unfold authService.Register
    rw [h]
    simp [hne]
  rw [e]
  simp

/-- Witness of C10: registration while the database cannot be reached. -/
theorem C10_register_lookup_error_witness :
    (downRepo.GetByEmail adaRequest.Email [] =
        (.error (.foreign (ascii "driver: bad connection")), []) ∧
      errorsIs (.foreign (ascii "driver: bad connection")) .ErrNotFound = false) ∧
    ((authService.Register sampleLib (sampleBcrypt _) { sampleAuth with userRepo := downRepo }
          sampleNow adaRequest []).result =
        .error (.foreign (ascii "driver: bad connection")) ∧
      (authService.Register sampleLib (sampleBcrypt _) { sampleAuth with userRepo := downRepo }
          sampleNow adaRequest []).calls = [.GetByEmail adaRequest.Email] ∧
      (authService.Register sampleLib (sampleBcrypt _) { sampleAuth with userRepo := downRepo }
          sampleNow adaRequest []).state = [] ∧
      (∀ u, Call.Create u ∉
        (authService.Register sampleLib (sampleBcrypt _) { sampleAuth with userRepo := downRepo }
          sampleNow adaRequest []).calls) ∧
      (∀ p, Call.GenerateFromPassword p ∉
        (authService.Register sampleLib (sampleBcrypt _) { sampleAuth with userRepo := downRepo }
          sampleNow adaRequest []).calls)) :=
  ⟨⟨by decide, by decide⟩,
    C10_register_lookup_error sampleLib (sampleBcrypt _) { sampleAuth with userRepo := downRepo }
      sampleNow adaRequest [] [] (.foreign (ascii "driver: bad connection"))
      (by decide) (by decide)⟩
/-! ## Lemmas on the authentication flow -/

/-- The method `Register` is its body run on the token service of the repository. -/
theorem Register_eq_RegisterVia {σ : Type} (L : Lib) (bc : Bcrypt σ) (s : authService σ)
    (now : Time) (req : RegisterRequest) (st : σ) :
    s.Register L bc now req st =
      authService.RegisterVia (s.jwt.issuer L now) bc s.userRepo req st :=
  rfl

/-- The token service of the repository never fails to issue a token. -/
theorem issuer_Generate_ok (L : Lib) (j : JWT) (now : Time) (user : User) :
    ∃ tok, (j.issuer L now).Generate user = .ok tok ∧ tok ≠ [] := by
  refine ⟨_, Generate_eq L j now user, ?_⟩
  simp [signingInput]

/-- The six ways in which a registration ends. -/
theorem RegisterVia_cases {σ : Type} (ts : TokenIssuer) (bc : Bcrypt σ)
    (repo : UserRepository σ) (req : RegisterRequest) (st : σ) :
    (∃ u st1, repo.GetByEmail req.Email st = (.ok u, st1) ∧
      authService.RegisterVia ts bc repo req st =
        { result := .error .ErrEmailAlreadyExists, calls := [.GetByEmail req.Email],
          state := st1 }) ∨
    (∃ err st1, repo.GetByEmail req.Email st = (.error err, st1) ∧
      errorsIs err .ErrNotFound = false ∧
      authService.RegisterVia ts bc repo req st =
        { result := .error err, calls := [.GetByEmail req.Email], state := st1 }) ∨
    (∃ err st1 e2 st2, repo.GetByEmail req.Email st = (.error err, st1) ∧
      errorsIs err .ErrNotFound = true ∧
      bc.GenerateFromPassword req.Password st1 = (.error e2, st2) ∧
      authService.RegisterVia ts bc repo req st =
        { result := .error e2
          calls := [.GetByEmail req.Email, .GenerateFromPassword req.Password]
          state := st2 }) ∨
    (∃ err st1 hashed st2 e3 left st3, repo.GetByEmail req.Email st = (.error err, st1) ∧
      errorsIs err .ErrNotFound = true ∧
      bc.GenerateFromPassword req.Password st1 = (.ok hashed, st2) ∧
      repo.Create (userOf req hashed) st2 = ((some e3, left), st3) ∧
      authService.RegisterVia ts bc repo req st =
        { result := .error e3
          calls := [.GetByEmail req.Email, .GenerateFromPassword req.Password,
            .Create (userOf req hashed)]
          state := st3 }) ∨
    (∃ err st1 hashed st2 created st3 e4, repo.GetByEmail req.Email st = (.error err, st1) ∧
      errorsIs err .ErrNotFound = true ∧
      bc.GenerateFromPassword req.Password st1 = (.ok hashed, st2) ∧
      repo.Create (userOf req hashed) st2 = ((none, created), st3) ∧
      ts.Generate created = .error e4 ∧
      authService.RegisterVia ts bc repo req st =
        { result := .error e4
          calls := [.GetByEmail req.Email, .GenerateFromPassword req.Password,
            .Create (userOf req hashed), .Generate created]
          state := st3 }) ∨
    (∃ err st1 hashed st2 created st3 token, repo.GetByEmail req.Email st = (.error err, st1) ∧
      errorsIs err .ErrNotFound = true ∧
      bc.GenerateFromPassword req.Password st1 = (.ok hashed, st2) ∧
      repo.Create (userOf req hashed) st2 = ((none, created), st3) ∧
      ts.Generate created = .ok token ∧
      authService.RegisterVia ts bc repo req st =
        { result := .ok
            { AccessToken := token, TokenType := ascii "Bearer", ExpiresIn := ts.GetExpireTime }
          calls := [.GetByEmail req.Email, .GenerateFromPassword req.Password,
            .Create (userOf req hashed), .Generate created]
          state := st3 }) := by
  unfold authService.RegisterVia
  rcases h1 : repo.GetByEmail req.Email st with ⟨r1, st1⟩
  cases r1 with
  | ok u => exact Or.inl ⟨u, st1, rfl, rfl⟩
  | error err =>
    right
    cases hn : errorsIs err .ErrNotFound with
    | false => exact Or.inl ⟨err, st1, rfl, hn, by simp [hn]⟩
    | true =>
      right
      rcases h2 : bc.GenerateFromPassword req.Password st1 with ⟨r2, st2⟩
      cases r2 with
      | error e2 => exact Or.inl ⟨err, st1, e2, st2, rfl, hn, h2, by simp [hn, h2]⟩
      | ok hashed =>
        right
        rcases h3 : repo.Create (userOf req hashed) st2 with ⟨⟨r3, user3⟩, st3⟩
        cases r3 with
        | some e3 =>
          refine Or.inl ⟨err, st1, hashed, st2, e3, user3, st3, rfl, hn, h2, h3, ?_⟩
          simp only [hn, h2, Bool.not_true, Bool.false_eq_true, if_false]
          unfold userOf at h3
          rw [h3]
          rfl
        | none =>
          right
          cases h4 : ts.Generate user3 with
          | error e4 =>
            refine Or.inl ⟨err, st1, hashed, st2, user3, st3, e4, rfl, hn, h2, h3, h4, ?_⟩
            simp only [hn, h2, Bool.not_true, Bool.false_eq_true, if_false]
            unfold userOf at h3
            rw [h3]
            simp only [h4]
            rfl
          | ok token =>
            refine Or.inr ⟨err, st1, hashed, st2, user3, st3, token, rfl, hn, h2, h3, h4, ?_⟩
            simp only [hn, h2, Bool.not_true, Bool.false_eq_true, if_false]
            unfold userOf at h3
            rw [h3]
            simp only [h4]
            rfl

/-! ## Claims on the authentication flow, continued -/

/-- C11. The method `Register` is all-or-nothing, for every request and every behaviour of
the repository, of the hasher and of the token service (any secret, any lifetime, any hash
and codec behind it). (1) Every run ends in one of two ways: it returns a token response,
and then `Create` was called and reported success, leaving the store in the state the run
ends in; or it returns an error, and then either `Create` was never called or the one call
of `Create` reported that very error, so that no identity was persisted by the call.
(2) In particular no run returns an error after `Create` has reported success: the token
service never fails to issue a token, so a failure of issuance never leaves a newly
persisted identity behind. -/
theorem C11_register_all_or_nothing {σ : Type} (L : Lib) (bc : Bcrypt σ) (s : authService σ)
    (now : Time) (req : RegisterRequest) (st : σ) :
    ((∃ resp, (s.Register L bc now req st).result = .ok resp ∧
        ∃ hashed created st2,
          (s.Register L bc now req st).calls =
            [.GetByEmail req.Email, .GenerateFromPassword req.Password,
              .Create (userOf req hashed), .Generate created] ∧
          s.userRepo.Create (userOf req hashed) st2 =
            ((none, created), (s.Register L bc now req st).state)) ∨
      (∃ e, (s.Register L bc now req st).result = .error e ∧
        ((∀ u, Call.Create u ∉ (s.Register L bc now req st).calls) ∨
          (∃ hashed left st2,
            (s.Register L bc now req st).calls =
              [.GetByEmail req.Email, .GenerateFromPassword req.Password,
                .Create (userOf req hashed)] ∧
            s.userRepo.Create (userOf req hashed) st2 =
              ((some e, left), (s.Register L bc now req st).state))))) ∧
    (∀ user, ∃ tok, s.jwt.Generate L now user = .ok tok) ∧
    (∀ e, (s.Register L bc now req st).result = .error e →
      ∀ created, Call.Generate created ∉ (s.Register L bc now req st).calls) := by
  rw [Register_eq_RegisterVia]
  rcases RegisterVia_cases (s.jwt.issuer L now) bc s.userRepo req st with
    ⟨u, st1, _, ho⟩ | ⟨err, st1, _, _, ho⟩ | ⟨err, st1, e2, st2, _, _, _, ho⟩ |
    ⟨err, st1, hashed, st2, e3, left, st3, _, _, _, h3, ho⟩ |
    ⟨err, st1, hashed, st2, created, st3, e4, _, _, _, h3, h4, ho⟩ |
    ⟨err, st1, hashed, st2, created, st3, token, _, _, _, h3, h4, ho⟩
  · rw [ho]
    refine ⟨Or.inr ⟨_, rfl, Or.inl ?_⟩, fun user => ⟨_, Generate_eq L s.jwt now user⟩, ?_⟩
    · simp
    · intro e _ created
      simp
  · rw [ho]
    refine ⟨Or.inr ⟨_, rfl, Or.inl ?_⟩, fun user => ⟨_, Generate_eq L s.jwt now user⟩, ?_⟩
    · simp
    · intro e _ created
      simp
  · rw [ho]
    refine ⟨Or.inr ⟨_, rfl, Or.inl ?_⟩, fun user => ⟨_, Generate_eq L s.jwt now user⟩, ?_⟩
    · simp
    · intro e _ created
      simp
  · rw [ho]
    refine ⟨Or.inr ⟨_, rfl, Or.inr ⟨hashed, left, st2, rfl, h3⟩⟩,
      fun user => ⟨_, Generate_eq L s.jwt now user⟩, ?_⟩
    intro e _ created
    simp
  · obtain ⟨tok, hok, _⟩ := issuer_Generate_ok L s.jwt now created
    rw [hok] at h4
    cases h4
  · rw [ho]
    refine ⟨Or.inl ⟨_, rfl, hashed, created, st2, rfl, h3⟩,
      fun user => ⟨_, Generate_eq L s.jwt now user⟩, ?_⟩
    intro e h
    cases h

set_option maxRecDepth 1000000 in
/-- Witness of C11: on the in-memory repository a first registration of Ada returns a
response and leaves her row in the table; a second one returns an error without calling
`Create` and leaves the table as it was; and a registration that loses the race for the
email returns the error of `Create`, the table holding the row of the rival only. -/
theorem C11_register_all_or_nothing_witness :
    ((∃ resp, (sampleAuth.Register sampleLib (sampleBcrypt _) sampleNow adaRequest []).result =
          .ok resp) ∧
      (sampleAuth.Register sampleLib (sampleBcrypt _) sampleNow adaRequest []).state = [adaRow] ∧
      (sampleAuth.Register sampleLib (sampleBcrypt _) sampleNow adaRequest [adaRow]).result =
        .error .ErrEmailAlreadyExists ∧
      (sampleAuth.Register sampleLib (sampleBcrypt _) sampleNow adaRequest [adaRow]).calls =
        [.GetByEmail adaRequest.Email] ∧
      (sampleAuth.Register sampleLib (sampleBcrypt _) sampleNow adaRequest [adaRow]).state =
        [adaRow] ∧
      (raceAuth.Register sampleLib (sampleBcrypt _) sampleNow adaRequest []).result =
        .error .ErrDuplicateEmail ∧
      (raceAuth.Register sampleLib (sampleBcrypt _) sampleNow adaRequest []).state = [ada]) ∧
    (∀ created, Call.Generate created ∉
      (sampleAuth.Register sampleLib (sampleBcrypt _) sampleNow adaRequest [adaRow]).calls) ∧
    (∀ created, Call.Generate created ∉
      (raceAuth.Register sampleLib (sampleBcrypt _) sampleNow adaRequest []).calls) :=
  ⟨⟨⟨_, rfl⟩, by decide, by decide, by decide, by decide, by decide, by decide⟩,
    (C11_register_all_or_nothing sampleLib (sampleBcrypt _) sampleAuth sampleNow adaRequest
      [adaRow]).2.2 .ErrEmailAlreadyExists (by decide),
    (C11_register_all_or_nothing sampleLib (sampleBcrypt _) raceAuth sampleNow adaRequest
      []).2.2 .ErrDuplicateEmail (by decide)⟩

/-! ## Lemmas on the authorization gate -/

/-- The two shapes of the result of `SplitN2`. -/
theorem SplitN2_eq (sep : Byte) (s : GoString) :
    SplitN2 sep s =
      if sep ∈ s then
        [s.takeWhile (fun b => !decide (b = sep)),
          (s.dropWhile (fun b => !decide (b = sep))).tail]
      else [s] := by
  unfold SplitN2
  rw [List.span_eq_take_drop]
  cases hd : s.dropWhile (fun b => !decide (b = sep)) with
  | nil =>
    have hall := List.dropWhile_eq_nil_iff.mp hd
    have hnot : sep ∉ s := by
      intro hm
      have := hall sep hm
      simp at this
    have htw : s.takeWhile (fun b => !decide (b = sep)) = s :=
      List.takeWhile_eq_self_iff.mpr hall
    simp [hnot, htw]
  | cons d ds =>
    have hmem : sep ∈ s := by
      have h0 : 0 < (s.dropWhile (fun b => !decide (b = sep))).length := by
        rw [hd]
        simp
      have hnot := List.dropWhile_get_zero_not (fun b => !decide (b = sep)) s h0
      have hget : (s.dropWhile (fun b => !decide (b = sep))).get ⟨0, h0⟩ = sep := by
        simpa using hnot
      have hin : (s.dropWhile (fun b => !decide (b = sep))).get ⟨0, h0⟩ ∈ s :=
        (List.dropWhile_sublist _).subset (List.get_mem _ _ _)
      rw [hget] at hin
      exact hin
    simp [hmem]

/-- The token of the specification is exactly what follows the prefix `Bearer` and a space. -/
theorem bearerToken_eq_some (h t : GoString) :
    bearerToken h = some t ↔ h = ascii "Bearer" ++ space :: t := by
  constructor
  · intro hb
    unfold bearerToken at hb
    split at hb
    next hc =>
      obtain ⟨_, _, htw⟩ := hc
      have happ := List.takeWhile_append_dropWhile (fun b => !decide (b = space)) h
      cases hd : h.dropWhile (fun b => !decide (b = space)) with
      | nil =>
        have hall := List.dropWhile_eq_nil_iff.mp hd
        have : space ∈ h := by assumption
        have := hall space this
        simp at this
      | cons d ds =>
        have hnot := List.head_dropWhile_not (fun b => !decide (b = space)) h
          (by rw [hd]; simp)
        have hdsp : d = space := by
          simp only [hd, List.head_cons] at hnot
          simpa using hnot
        rw [hd] at hb happ
        simp only [List.tail_cons, Option.some.injEq] at hb
        rw [htw, hdsp, hb] at happ
        exact happ.symm
    next => cases hb
  · intro he
    subst he
    have hB : ascii "Bearer" = [byte 66, byte 101, byte 97, byte 114, byte 101, byte 114] := by
      decide
    have h1 : decide (byte 66 = space) = false := by decide
    have h2 : decide (byte 101 = space) = false := by decide
    have h3 : decide (byte 97 = space) = false := by decide
    have h4 : decide (byte 114 = space) = false := by decide
    unfold bearerToken
    rw [hB]
    simp [List.takeWhile, List.dropWhile, h1, h2, h3, h4]

/-- The splitting of a header from which the specification extracts a token. -/
theorem SplitN2_of_bearerToken (h t : GoString) (hb : bearerToken h = some t) :
    h ≠ [] ∧ SplitN2 space h = [ascii "Bearer", t] := by
  unfold bearerToken at hb
  split at hb
  next hc =>
    obtain ⟨hne, hmem, htw⟩ := hc
    simp only [Option.some.injEq] at hb
    refine ⟨hne, ?_⟩
    rw [SplitN2_eq, if_pos hmem, htw, hb]
  next => cases hb

/-- The splitting of a non-empty header from which the specification extracts no token. -/
theorem SplitN2_of_not_bearerToken (h : GoString) (hne : h ≠ []) (hb : bearerToken h = none) :
    (∃ scheme token, SplitN2 space h = [scheme, token] ∧ scheme ≠ ascii "Bearer") ∨
      SplitN2 space h = [h] := by
  unfold bearerToken at hb
  split at hb
  next => cases hb
  next hc =>
    rw [SplitN2_eq]
    by_cases hmem : space ∈ h
    · left
      refine ⟨_, _, if_pos hmem, ?_⟩
      intro htw
      exact hc ⟨hne, hmem, htw⟩
    · right
      exact if_neg hmem

/-- The gate on a request without an `Authorization` header. -/
theorem JWTAuth_missing (L : Lib) (j : JWT) (now : Time) (next : HandlerFunc) (c : Context)
    (h : c.HeaderGet (ascii "Authorization") = []) :
    JWTAuth L j now next c =
      { result := none
        ctx := { c with
          responses := c.responses ++ [unauthorized (ascii "Missing authorization header")] }
        validated := [], nextCalls := [] } := by
  unfold JWTAuth
  simp [h, response.Error, Context.JSON, unauthorized]

/-- The gate on a request whose header is not `Bearer`, a space and a token. -/
theorem JWTAuth_malformed (L : Lib) (j : JWT) (now : Time) (next : HandlerFunc) (c : Context)
    (hne : c.HeaderGet (ascii "Authorization") ≠ [])
    (hb : bearerToken (c.HeaderGet (ascii "Authorization")) = none) :
    JWTAuth L j now next c =
      { result := none
        ctx := { c with
          responses := c.responses ++
            [unauthorized (ascii "Invalid authorization header format")] }
        validated := [], nextCalls := [] } := by
  unfold JWTAuth
  rcases SplitN2_of_not_bearerToken _ hne hb with ⟨scheme, token, hs, hsch⟩ | hs
  · simp [hne, hs, hsch, response.Error, Context.JSON, unauthorized]
  · simp [hne, hs, response.Error, Context.JSON, unauthorized]

/-- The gate on a request whose token fails validation. -/
theorem JWTAuth_rejected (L : Lib) (j : JWT) (now : Time) (next : HandlerFunc) (c : Context)
    (t : GoString) (e : Error)
    (hb : bearerToken (c.HeaderGet (ascii "Authorization")) = some t)
    (hv : j.Validate L now t = .error e) :
    JWTAuth L j now next c =
      { result := none
        ctx := { c with
          responses := c.responses ++ [unauthorized (ascii "Invalid or expired token")] }
        validated := [t], nextCalls := [] } := by
  unfold JWTAuth
  obtain ⟨hne, hs⟩ := SplitN2_of_bearerToken _ t hb
  simp [hne, hs, hv, response.Error, Context.JSON, unauthorized]

/-- The gate on a request whose token passes validation. -/
theorem JWTAuth_accepted (L : Lib) (j : JWT) (now : Time) (next : HandlerFunc) (c : Context)
    (t : GoString) (claims : Claims)
    (hb : bearerToken (c.HeaderGet (ascii "Authorization")) = some t)
    (hv : j.Validate L now t = .ok claims) :
    JWTAuth L j now next c =
      { result := (next (c.Set (ascii "user")
          (.authUser { ID := claims.UserID, Name := claims.Name, Email := claims.Email }))).1
        ctx := (next (c.Set (ascii "user")
          (.authUser { ID := claims.UserID, Name := claims.Name, Email := claims.Email }))).2
        validated := [t]
        nextCalls := [c.Set (ascii "user")
          (.authUser { ID := claims.UserID, Name := claims.Name, Email := claims.Email })] } := by
  unfold JWTAuth
  obtain ⟨hne, hs⟩ := SplitN2_of_bearerToken _ t hb
  simp [hne, hs, hv]

/-- Reading a key of the context store right after setting it. -/
theorem Context.Get_Set (c : Context) (key : GoString) (val : ContextValue) :
    (c.Set key val).Get key = some val := by
  simp [Context.Get, Context.Set, List.lookup]

/-- When `userRepository.Create` succeeds it has written the id and the two timestamps into
the user and nothing else. -/
theorem userRepository_Create_ok (q : User → Except DriverError (UUID × Time × Time))
    (user created : User) (h : userRepository.Create q user = some (none, created)) :
    created.Name = user.Name ∧ created.Email = user.Email ∧
      created.Password = user.Password := by
  unfold userRepository.Create at h
  split at h
  · split at h <;> simp at h
  next id createdAt updatedAt _ =>
    simp only [Option.some.injEq, Prod.mk.injEq, true_and] at h
    subst h
    exact ⟨rfl, rfl, rfl⟩

/-- C12. Every successful `Register` returns a response whose `TokenType` is `Bearer`, whose
`ExpiresIn` is `GetExpireTime()` of the token service and whose `AccessToken` is not empty
and is the token that `Generate` issues for the user as `Create` left it: the claims signed
into it carry the id, name and email of that user, and name and email are those of the
request whenever `Create` is the `Create` of `userRepository`, which writes only the id and
the timestamps. -/
theorem C12_register_response {σ : Type} (L : Lib) (bc : Bcrypt σ) (s : authService σ)
    (now : Time) (req : RegisterRequest) (st : σ) (resp : TokenResponse)
    (h : (s.Register L bc now req st).result = .ok resp) :
    resp.TokenType = ascii "Bearer" ∧ resp.ExpiresIn = s.jwt.GetExpireTime ∧
      resp.AccessToken ≠ [] ∧
      ∃ hashed created st2,
        s.userRepo.Create (userOf req hashed) st2 =
          ((none, created), (s.Register L bc now req st).state) ∧
        s.jwt.Generate L now created = .ok resp.AccessToken ∧
        resp.AccessToken = signingInput L (s.jwt.claimsFor now created) ++
          dot :: b64Encode (hmacSum L .SHA256 s.jwt.secretKey
            (signingInput L (s.jwt.claimsFor now created))) ∧
        (s.jwt.claimsFor now created).UserID = created.ID ∧
        (s.jwt.claimsFor now created).Name = created.Name ∧
        (s.jwt.claimsFor now created).Email = created.Email ∧
        (∀ q, userRepository.Create q (userOf req hashed) = some (none, created) →
          (s.jwt.claimsFor now created).Name = req.Name ∧
          (s.jwt.claimsFor now created).Email = req.Email) := by
  rw [Register_eq_RegisterVia] at h ⊢
  rcases RegisterVia_cases (s.jwt.issuer L now) bc s.userRepo req st with
    ⟨u, st1, _, ho⟩ | ⟨err, st1, _, _, ho⟩ | ⟨err, st1, e2, st2, _, _, _, ho⟩ |
    ⟨err, st1, hashed, st2, e3, left, st3, _, _, _, h3, ho⟩ |
    ⟨err, st1, hashed, st2, created, st3, e4, _, _, _, h3, h4, ho⟩ |
    ⟨err, st1, hashed, st2, created, st3, token, _, _, _, h3, h4, ho⟩
  · rw [ho] at h
    cases h
  · rw [ho] at h
    cases h
  · rw [ho] at h
    cases h
  · rw [ho] at h
    cases h
  · rw [ho] at h
    cases h
  · rw [ho] at h ⊢
    simp only [Except.ok.injEq] at h
    subst h
    have hg : s.jwt.Generate L now created = .ok token := h4
    have ht : token = signingInput L (s.jwt.claimsFor now created) ++
        dot :: b64Encode (hmacSum L .SHA256 s.jwt.secretKey
          (signingInput L (s.jwt.claimsFor now created))) := by
      rw [Generate_eq] at hg
      simp only [Except.ok.injEq] at hg
      exact hg.symm
    refine ⟨rfl, rfl, ?_, hashed, created, st2, h3, hg, ht, rfl, rfl, rfl, ?_⟩
    · show token ≠ []
      rw [ht]
      simp [signingInput]
    · intro q hq
      obtain ⟨hn, he, _⟩ := userRepository_Create_ok q _ _ hq
      exact ⟨hn, he⟩

set_option maxRecDepth 1000000 in
/-- Witness of C12: the registration of Ada in the empty in-memory table. -/
theorem C12_register_response_witness :
    ∃ resp, (sampleAuth.Register sampleLib (sampleBcrypt _) sampleNow adaRequest []).result =
        .ok resp ∧
      resp.TokenType = ascii "Bearer" ∧ resp.ExpiresIn = sampleAuth.jwt.GetExpireTime ∧
      resp.AccessToken ≠ [] ∧
      ∃ hashed created st2,
        sampleAuth.userRepo.Create (userOf adaRequest hashed) st2 =
          ((none, created),
            (sampleAuth.Register sampleLib (sampleBcrypt _) sampleNow adaRequest []).state) ∧
        sampleAuth.jwt.Generate sampleLib sampleNow created = .ok resp.AccessToken ∧
        resp.AccessToken = signingInput sampleLib (sampleAuth.jwt.claimsFor sampleNow created) ++
          dot :: b64Encode (hmacSum sampleLib .SHA256 sampleAuth.jwt.secretKey
            (signingInput sampleLib (sampleAuth.jwt.claimsFor sampleNow created))) ∧
        (sampleAuth.jwt.claimsFor sampleNow created).UserID = created.ID ∧
        (sampleAuth.jwt.claimsFor sampleNow created).Name = created.Name ∧
        (sampleAuth.jwt.claimsFor sampleNow created).Email = created.Email ∧
        (∀ q, userRepository.Create q (userOf adaRequest hashed) = some (none, created) →
          (sampleAuth.jwt.claimsFor sampleNow created).Name = adaRequest.Name ∧
          (sampleAuth.jwt.claimsFor sampleNow created).Email = adaRequest.Email) :=
  ⟨_, rfl,
    C12_register_response sampleLib (sampleBcrypt _) sampleAuth sampleNow adaRequest [] _ rfl⟩

/-- C13. Every user that `Register` hands to `Create` has the name and the email of the
request, and its `Password` field is the value that `bcrypt.GenerateFromPassword` returned
for the password of the request, the hashing having been called before; the field holds
the plaintext only if the hasher returned its own input. -/
theorem C13_register_stores_hash {σ : Type} (L : Lib) (bc : Bcrypt σ) (s : authService σ)
    (now : Time) (req : RegisterRequest) (st : σ) (user : User)
    (h : Call.Create user ∈ (s.Register L bc now req st).calls) :
    user.Name = req.Name ∧ user.Email = req.Email ∧
      ∃ hashed st1 st2, bc.GenerateFromPassword req.Password st1 = (.ok hashed, st2) ∧
        user.Password = hashed ∧ user = userOf req hashed ∧
        (hashed ≠ req.Password → user.Password ≠ req.Password) ∧
        ∃ before after, (s.Register L bc now req st).calls =
          before ++ Call.GenerateFromPassword req.Password :: Call.Create user :: after := by
  rw [Register_eq_RegisterVia] at h ⊢
  rcases RegisterVia_cases (s.jwt.issuer L now) bc s.userRepo req st with
    ⟨u, st1, _, ho⟩ | ⟨err, st1, _, _, ho⟩ | ⟨err, st1, e2, st2, _, _, _, ho⟩ |
    ⟨err, st1, hashed, st2, e3, left, st3, _, _, h2, h3, ho⟩ |
    ⟨err, st1, hashed, st2, created, st3, e4, _, _, h2, h3, h4, ho⟩ |
    ⟨err, st1, hashed, st2, created, st3, token, _, _, h2, h3, h4, ho⟩
  · rw [ho] at h
    simp at h
  · rw [ho] at h
    simp at h
  · rw [ho] at h
    simp at h
  · rw [ho] at h ⊢
    simp at h
    subst h
    exact ⟨rfl, rfl, hashed, st1, st2, h2, rfl, rfl, fun hne => hne,
      [.GetByEmail req.Email], [], rfl⟩
  · rw [ho] at h ⊢
    simp at h
    subst h
    exact ⟨rfl, rfl, hashed, st1, st2, h2, rfl, rfl, fun hne => hne,
      [.GetByEmail req.Email], [.Generate created], rfl⟩
  · rw [ho] at h ⊢
    simp at h
    subst h
    exact ⟨rfl, rfl, hashed, st1, st2, h2, rfl, rfl, fun hne => hne,
      [.GetByEmail req.Email], [.Generate created], rfl⟩

set_option maxRecDepth 1000000 in
/-- Witness of C13: the user handed to `Create` when Ada registers. -/
theorem C13_register_stores_hash_witness :
    Call.Create (userOf adaRequest adaRow.Password) ∈
        (sampleAuth.Register sampleLib (sampleBcrypt _) sampleNow adaRequest []).calls ∧
    ((userOf adaRequest adaRow.Password).Name = adaRequest.Name ∧
      (userOf adaRequest adaRow.Password).Email = adaRequest.Email ∧
      ∃ hashed st1 st2,
        (sampleBcrypt (List User)).GenerateFromPassword adaRequest.Password st1 =
          (.ok hashed, st2) ∧
        (userOf adaRequest adaRow.Password).Password = hashed ∧
        userOf adaRequest adaRow.Password = userOf adaRequest hashed ∧
        (hashed ≠ adaRequest.Password →
          (userOf adaRequest adaRow.Password).Password ≠ adaRequest.Password) ∧
        ∃ before after,
          (sampleAuth.Register sampleLib (sampleBcrypt _) sampleNow adaRequest []).calls =
            before ++ Call.GenerateFromPassword adaRequest.Password ::
              Call.Create (userOf adaRequest adaRow.Password) :: after) :=
  ⟨by decide,
    C13_register_stores_hash sampleLib (sampleBcrypt _) sampleAuth sampleNow adaRequest []
      (userOf adaRequest adaRow.Password) (by decide)⟩

/-- The run of `Login` when the lookup fails with (an error wrapping) `ErrNotFound`. -/
theorem Login_not_found {σ : Type} (L : Lib) (bc : Bcrypt σ) (s : authService σ) (now : Time)
    (req : LoginRequest) (st st1 : σ) (err : Error)
    (h1 : s.userRepo.GetByEmail req.Email st = (.error err, st1))
    (h2 : errorsIs err .ErrNotFound = true) :
    s.Login L bc now req st =
      { result := .error .ErrInvalidCredentials, calls := [.GetByEmail req.Email],
        state := st1 } := by
  unfold authService.Login
  rw [h1]
  simp [h2]

/-- The run of `Login` when the lookup finds a user and the comparison returns an error. -/
theorem Login_mismatch {σ : Type} (L : Lib) (bc : Bcrypt σ) (s : authService σ) (now : Time)
    (req : LoginRequest) (st st1 : σ) (user : User) (e : Error)
    (h1 : s.userRepo.GetByEmail req.Email st = (.ok user, st1))
    (h2 : bc.CompareHashAndPassword user.Password req.Password = some e) :
    s.Login L bc now req st =
      { result := .error .ErrInvalidCredentials
        calls := [.GetByEmail req.Email, .CompareHashAndPassword user.Password req.Password]
        state := st1 } := by
  unfold authService.Login
  rw [h1]
  simp only [h2]

/-- The run of `Login` when the lookup finds a user and the comparison returns nil. -/
theorem Login_match {σ : Type} (L : Lib) (bc : Bcrypt σ) (s : authService σ) (now : Time)
    (req : LoginRequest) (st st1 : σ) (user : User)
    (h1 : s.userRepo.GetByEmail req.Email st = (.ok user, st1))
    (h2 : bc.CompareHashAndPassword user.Password req.Password = none) :
    s.Login L bc now req st =
      { result := .ok
          { AccessToken := signingInput L (s.jwt.claimsFor now user) ++
              dot :: b64Encode (hmacSum L .SHA256 s.jwt.secretKey
                (signingInput L (s.jwt.claimsFor now user)))
            TokenType := ascii "Bearer"
            ExpiresIn := s.jwt.GetExpireTime }
        calls := [.GetByEmail req.Email, .CompareHashAndPassword user.Password req.Password,
          .Generate user]
        state := st1 } := by
  unfold authService.Login
  rw [h1]
  simp only [h2, Generate_eq]

/-- C14. `Login` returns no response and the same error value, `ErrInvalidCredentials`, when
the email is not found in the repository and when the email is found but the comparison of
the supplied password with the stored hash fails. -/
theorem C14_login_same_error {σ : Type} (L : Lib) (bc : Bcrypt σ) (s : authService σ)
    (now : Time) (req : LoginRequest) (st : σ) :
    (∀ err st1, s.userRepo.GetByEmail req.Email st = (.error err, st1) →
      errorsIs err .ErrNotFound = true →
      (s.Login L bc now req st).result = .error .ErrInvalidCredentials) ∧
    (∀ user st1 e, s.userRepo.GetByEmail req.Email st = (.ok user, st1) →
      bc.CompareHashAndPassword user.Password req.Password = some e →
      (s.Login L bc now req st).result = .error .ErrInvalidCredentials) := by
  refine ⟨?_, ?_⟩
  · intro err st1 h1 h2
    rw [Login_not_found L bc s now req st st1 err h1 h2]
  · intro user st1 e h1 h2
    rw [Login_mismatch L bc s now req st st1 user e h1 h2]

set_option maxRecDepth 1000000 in
/-- Witness of C14: a login for an email that is not in the table, and a login for Ada with
another password. -/
theorem C14_login_same_error_witness :
    ((sampleAuth.userRepo.GetByEmail wrongLogin.Email [] = (.error .ErrNotFound, []) ∧
        errorsIs .ErrNotFound .ErrNotFound = true) ∧
      (sampleAuth.Login sampleLib (sampleBcrypt _) sampleNow wrongLogin []).result =
        .error .ErrInvalidCredentials) ∧
    ((sampleAuth.userRepo.GetByEmail wrongLogin.Email [adaRow] = (.ok adaRow, [adaRow]) ∧
        (sampleBcrypt (List User)).CompareHashAndPassword adaRow.Password wrongLogin.Password =
          some mismatchError) ∧
      (sampleAuth.Login sampleLib (sampleBcrypt _) sampleNow wrongLogin [adaRow]).result =
        .error .ErrInvalidCredentials) :=
  ⟨⟨⟨by decide, by decide⟩,
      (C14_login_same_error sampleLib (sampleBcrypt _) sampleAuth sampleNow wrongLogin []).1
        .ErrNotFound [] (by decide) (by decide)⟩,
    ⟨⟨by decide, by decide⟩,
      (C14_login_same_error sampleLib (sampleBcrypt _) sampleAuth sampleNow wrongLogin
        [adaRow]).2 adaRow [adaRow] mismatchError (by decide) (by decide)⟩⟩

/-- C15 (as amended). `Login` verifies the password only when the lookup has found a user.
A call that ends in `ErrInvalidCredentials` because the email was not found has made the
lookup and nothing else: no hash comparison is performed. A call that ends in
`ErrInvalidCredentials` because the comparison failed has made the lookup and one
comparison. The two failure paths return the same error after different sequences of
calls. -/
theorem C15_login_call_sequences {σ : Type} (L : Lib) (bc : Bcrypt σ) (s : authService σ)
    (now : Time) (req : LoginRequest) (st : σ) :
    (∀ err st1, s.userRepo.GetByEmail req.Email st = (.error err, st1) →
      errorsIs err .ErrNotFound = true →
      (s.Login L bc now req st).result = .error .ErrInvalidCredentials ∧
        (s.Login L bc now req st).calls = [.GetByEmail req.Email] ∧
        ∀ hash password,
          Call.CompareHashAndPassword hash password ∉ (s.Login L bc now req st).calls) ∧
    (∀ user st1 e, s.userRepo.GetByEmail req.Email st = (.ok user, st1) →
      bc.CompareHashAndPassword user.Password req.Password = some e →
      (s.Login L bc now req st).result = .error .ErrInvalidCredentials ∧
        (s.Login L bc now req st).calls =
          [.GetByEmail req.Email, .CompareHashAndPassword user.Password req.Password]) := by
  refine ⟨?_, ?_⟩
  · intro err st1 h1 h2
    rw [Login_not_found L bc s now req st st1 err h1 h2]
    simp
  · intro user st1 e h1 h2
    rw [Login_mismatch L bc s now req st st1 user e h1 h2]
    simp

set_option maxRecDepth 1000000 in
/-- Counterexample to C15 as stated: a login for an email that is not in the table ends in
`ErrInvalidCredentials` after the lookup alone, without any hash comparison, whereas the
same request against a table that holds the email makes the comparison. -/
theorem C15_counterexample :
    (sampleAuth.Login sampleLib (sampleBcrypt _) sampleNow wrongLogin []).result =
        .error .ErrInvalidCredentials ∧
      (sampleAuth.Login sampleLib (sampleBcrypt _) sampleNow wrongLogin []).calls =
        [.GetByEmail wrongLogin.Email] ∧
      (sampleAuth.Login sampleLib (sampleBcrypt _) sampleNow wrongLogin [adaRow]).result =
        .error .ErrInvalidCredentials ∧
      (sampleAuth.Login sampleLib (sampleBcrypt _) sampleNow wrongLogin [adaRow]).calls =
        [.GetByEmail wrongLogin.Email,
          .CompareHashAndPassword adaRow.Password wrongLogin.Password] := by
  decide

set_option maxRecDepth 1000000 in
/-- Witness of C15: the two failing logins on the in-memory repository. -/
theorem C15_login_call_sequences_witness :
    ((sampleAuth.userRepo.GetByEmail wrongLogin.Email [] = (.error .ErrNotFound, []) ∧
        errorsIs .ErrNotFound .ErrNotFound = true) ∧
      (sampleAuth.Login sampleLib (sampleBcrypt _) sampleNow wrongLogin []).result =
          .error .ErrInvalidCredentials ∧
        (sampleAuth.Login sampleLib (sampleBcrypt _) sampleNow wrongLogin []).calls =
          [.GetByEmail wrongLogin.Email] ∧
        ∀ hash password, Call.CompareHashAndPassword hash password ∉
          (sampleAuth.Login sampleLib (sampleBcrypt _) sampleNow wrongLogin []).calls) ∧
    ((sampleAuth.userRepo.GetByEmail wrongLogin.Email [adaRow] = (.ok adaRow, [adaRow]) ∧
        (sampleBcrypt (List User)).CompareHashAndPassword adaRow.Password wrongLogin.Password =
          some mismatchError) ∧
      (sampleAuth.Login sampleLib (sampleBcrypt _) sampleNow wrongLogin [adaRow]).result =
          .error .ErrInvalidCredentials ∧
        (sampleAuth.Login sampleLib (sampleBcrypt _) sampleNow wrongLogin [adaRow]).calls =
          [.GetByEmail wrongLogin.Email,
            .CompareHashAndPassword adaRow.Password wrongLogin.Password]) :=
  ⟨⟨⟨by decide, by decide⟩,
      (C15_login_call_sequences sampleLib (sampleBcrypt _) sampleAuth sampleNow wrongLogin []).1
        .ErrNotFound [] (by decide) (by decide)⟩,
    ⟨⟨by decide, by decide⟩,
      (C15_login_call_sequences sampleLib (sampleBcrypt _) sampleAuth sampleNow wrongLogin
        [adaRow]).2 adaRow [adaRow] mismatchError (by decide) (by decide)⟩⟩

/-- C16. Whatever the stored password field of the user found (empty or malformed hashes
included) and whatever error `bcrypt.CompareHashAndPassword` returns for it and the
supplied password, `Login` returns no response and `ErrInvalidCredentials`: the error of the
comparison is not returned, `Generate` is not called and the store is as the lookup left
it. -/
theorem C16_login_fails_closed {σ : Type} (L : Lib) (bc : Bcrypt σ) (s : authService σ)
    (now : Time) (req : LoginRequest) (st st1 : σ) (user : User) (e : Error)
    (h1 : s.userRepo.GetByEmail req.Email st = (.ok user, st1))
    (h2 : bc.CompareHashAndPassword user.Password req.Password = some e) :
    (s.Login L bc now req st).result = .error .ErrInvalidCredentials ∧
      (∀ u, Call.Generate u ∉ (s.Login L bc now req st).calls) ∧
      (s.Login L bc now req st).state = st1 := by
  rw [Login_mismatch L bc s now req st st1 user e h1 h2]
  simp

set_option maxRecDepth 1000000 in
/-- Witness of C16: a login for a user whose stored password field is empty. -/
theorem C16_login_fails_closed_witness :
    (sampleAuth.userRepo.GetByEmail adaLogin.Email [emptyHashRow] =
        (.ok emptyHashRow, [emptyHashRow]) ∧
      (sampleBcrypt (List User)).CompareHashAndPassword [] adaLogin.Password =
        some mismatchError) ∧
    ((sampleAuth.Login sampleLib (sampleBcrypt _) sampleNow adaLogin
          [emptyHashRow]).result = .error .ErrInvalidCredentials ∧
      (∀ u, Call.Generate u ∉
        (sampleAuth.Login sampleLib (sampleBcrypt _) sampleNow adaLogin
          [emptyHashRow]).calls) ∧
      (sampleAuth.Login sampleLib (sampleBcrypt _) sampleNow adaLogin
          [emptyHashRow]).state = [emptyHashRow]) :=
  ⟨⟨by decide, by decide⟩,
    C16_login_fails_closed sampleLib (sampleBcrypt _) sampleAuth sampleNow adaLogin
      [emptyHashRow] [emptyHashRow]
      emptyHashRow mismatchError (by decide) (by decide)⟩

/-- The stand-in hasher accepts a password against the hash it produced for it. -/
theorem sampleBcrypt_law (σ : Type) (p hashed : GoString) (st st2 : σ)
    (h : (sampleBcrypt σ).GenerateFromPassword p st = (.ok hashed, st2)) :
    (sampleBcrypt σ).CompareHashAndPassword hashed p = none := by
  simp only [sampleBcrypt] at h ⊢
  split at h
  · simp at h
  · simp only [Prod.mk.injEq, Except.ok.injEq] at h
    rw [← h.1]
    simp

/-- C17. Let the hasher accept every password against a hash it produced for that password
(the correctness of bcrypt). If the user found for the email of the request stores the hash
produced for the password `p` of the request, as `Register` stores it, then `Login` returns
a token response with a token that is not empty, the token issued for that user, and not
`ErrInvalidCredentials`. -/
theorem C17_login_after_register {σ : Type} (L : Lib) (bc : Bcrypt σ) (s : authService σ)
    (now : Time) (req : LoginRequest) (st st1 st0 st2 : σ) (user : User)
    (hlaw : ∀ p hashed sa sb, bc.GenerateFromPassword p sa = (.ok hashed, sb) →
      bc.CompareHashAndPassword hashed p = none)
    (hgen : bc.GenerateFromPassword req.Password st0 = (.ok user.Password, st2))
    (hget : s.userRepo.GetByEmail req.Email st = (.ok user, st1)) :
    ∃ resp, (s.Login L bc now req st).result = .ok resp ∧ resp.AccessToken ≠ [] ∧
      s.jwt.Generate L now user = .ok resp.AccessToken ∧
      resp.TokenType = ascii "Bearer" ∧ resp.ExpiresIn = s.jwt.GetExpireTime ∧
      (s.Login L bc now req st).result ≠ .error .ErrInvalidCredentials := by
  have hc := hlaw req.Password user.Password st0 st2 hgen
  rw [Login_match L bc s now req st st1 user hget hc]
  refine ⟨_, rfl, ?_, Generate_eq L s.jwt now user, rfl, rfl, ?_⟩
  · simp [signingInput]
  · intro hx
    cases hx

set_option maxRecDepth 1000000 in
/-- Witness of C17: Ada registers in the empty in-memory table and then logs in with the
same password against the table that the registration left. -/
theorem C17_login_after_register_witness :
    ((sampleAuth.Register sampleLib (sampleBcrypt _) sampleNow adaRequest []).state = [adaRow] ∧
      (sampleBcrypt (List User)).GenerateFromPassword adaLogin.Password [] =
        (.ok adaRow.Password, []) ∧
      sampleAuth.userRepo.GetByEmail adaLogin.Email [adaRow] = (.ok adaRow, [adaRow])) ∧
    ∃ resp, (sampleAuth.Login sampleLib (sampleBcrypt _) sampleNow adaLogin [adaRow]).result =
        .ok resp ∧ resp.AccessToken ≠ [] ∧
      sampleAuth.jwt.Generate sampleLib sampleNow adaRow = .ok resp.AccessToken ∧
      resp.TokenType = ascii "Bearer" ∧ resp.ExpiresIn = sampleAuth.jwt.GetExpireTime ∧
      (sampleAuth.Login sampleLib (sampleBcrypt _) sampleNow adaLogin [adaRow]).result ≠
        .error .ErrInvalidCredentials :=
  ⟨⟨by decide, by decide, by decide⟩,
    C17_login_after_register sampleLib (sampleBcrypt _) sampleAuth sampleNow adaLogin [adaRow]
      [adaRow] [] [] adaRow (fun p hashed sa sb h => sampleBcrypt_law _ p hashed sa sb h)
      (by decide) (by decide)⟩

/-! ## Claims on the authorization gate -/

/-- C18. The gate calls `Validate` exactly when the `Authorization` header is non-empty,
contains a space, and has exactly `Bearer` before its first space; the single call then
receives the text after the first space, further spaces included. Equivalently, the call is
made exactly for the headers of the form `Bearer`, space, token, with that token; in all
other cases, such as the header `Token abc`, no call is made and the next handler is not
invoked. -/
theorem C18_gate_validate_calls (L : Lib) (j : JWT) (now : Time) (next : HandlerFunc)
    (c : Context) :
    (JWTAuth L j now next c).validated =
        (match bearerToken (c.HeaderGet (ascii "Authorization")) with
          | some t => [t]
          | none => []) ∧
      (∀ t, bearerToken (c.HeaderGet (ascii "Authorization")) = some t ↔
        c.HeaderGet (ascii "Authorization") = ascii "Bearer" ++ space :: t) ∧
      (bearerToken (c.HeaderGet (ascii "Authorization")) = none →
        (JWTAuth L j now next c).validated = [] ∧ (JWTAuth L j now next c).nextCalls = []) ∧
      bearerToken (ascii "Token abc") = none ∧
      bearerToken (ascii "Bearer a b") = some (ascii "a b") ∧
      bearerToken (ascii "bearer abc") = none := by
  have hmain : (JWTAuth L j now next c).validated =
        (match bearerToken (c.HeaderGet (ascii "Authorization")) with
          | some t => [t]
          | none => []) ∧
      (bearerToken (c.HeaderGet (ascii "Authorization")) = none →
        (JWTAuth L j now next c).validated = [] ∧ (JWTAuth L j now next c).nextCalls = []) := by
    cases hb : bearerToken (c.HeaderGet (ascii "Authorization")) with
    | none =>
      by_cases hne : c.HeaderGet (ascii "Authorization") = []
      · rw [JWTAuth_missing L j now next c hne]
        simp
      · rw [JWTAuth_malformed L j now next c hne hb]
        simp
    | some t =>
      cases hv : j.Validate L now t with
      | error e =>
        rw [JWTAuth_rejected L j now next c t e hb hv]
        simp
      | ok claims =>
        rw [JWTAuth_accepted L j now next c t claims hb hv]
        simp
  exact ⟨hmain.1, fun t => bearerToken_eq_some _ t, hmain.2, by decide, by decide, by decide⟩

set_option maxRecDepth 1000000 in
/-- Witness of C18: the gate run on the header `Token abc`, on the header `Bearer` followed
by two spaces and `abc`, and on the sample token. -/
theorem C18_gate_validate_calls_witness :
    ((JWTAuth sampleLib sampleAuth.jwt sampleNow AuthHandler.GetMe
          (contextWith (ascii "Token abc"))).validated = [] ∧
      (JWTAuth sampleLib sampleAuth.jwt sampleNow AuthHandler.GetMe
          (contextWith (ascii "Token abc"))).nextCalls = []) ∧
    (JWTAuth sampleLib sampleAuth.jwt sampleNow AuthHandler.GetMe
        (contextWith (ascii "Bearer  abc"))).validated = [ascii " abc"] ∧
    (JWTAuth sampleLib sampleAuth.jwt sampleNow AuthHandler.GetMe
        (contextWith (ascii "Bearer " ++ sampleToken))).validated = [sampleToken] :=
  ⟨(C18_gate_validate_calls sampleLib sampleAuth.jwt sampleNow AuthHandler.GetMe
      (contextWith (ascii "Token abc"))).2.2.1 (by decide),
    by decide, by decide⟩

/-- C19. Whenever the gate rejects a request, because the header is missing, because it is
not `Bearer`, space, token, or because `Validate` returns an error for the token, it writes
one response with status 401, returns nil, does not invoke the next handler and leaves the
request headers and the store of the context as they were, so that no identity is
attached. -/
theorem C19_gate_rejects_with_401 (L : Lib) (j : JWT) (now : Time) (next : HandlerFunc)
    (c : Context)
    (hrej : bearerToken (c.HeaderGet (ascii "Authorization")) = none ∨
      ∃ t e, bearerToken (c.HeaderGet (ascii "Authorization")) = some t ∧
        j.Validate L now t = .error e) :
    (∃ message, (JWTAuth L j now next c).ctx.responses =
        c.responses ++ [unauthorized message]) ∧
      (JWTAuth L j now next c).result = none ∧
      (JWTAuth L j now next c).nextCalls = [] ∧
      (JWTAuth L j now next c).ctx.store = c.store ∧
      (JWTAuth L j now next c).ctx.header = c.header ∧
      (JWTAuth L j now next c).ctx.Get (ascii "user") = c.Get (ascii "user") := by
  rcases hrej with hb | ⟨t, e, hb, hv⟩
  · by_cases hne : c.HeaderGet (ascii "Authorization") = []
    · rw [JWTAuth_missing L j now next c hne]
      exact ⟨⟨_, rfl⟩, rfl, rfl, rfl, rfl, rfl⟩
    · rw [JWTAuth_malformed L j now next c hne hb]
      exact ⟨⟨_, rfl⟩, rfl, rfl, rfl, rfl, rfl⟩
  · rw [JWTAuth_rejected L j now next c t e hb hv]
    exact ⟨⟨_, rfl⟩, rfl, rfl, rfl, rfl, rfl⟩

set_option maxRecDepth 1000000 in
/-- Witness of C19: a request without the header, a request with the header `Token abc`, and
a request whose token is the sample token presented a day and a second after issuance. -/
theorem C19_gate_rejects_with_401_witness :
    (bearerToken (bareContext.HeaderGet (ascii "Authorization")) = none ∧
      (JWTAuth sampleLib sampleAuth.jwt sampleNow AuthHandler.GetMe bareContext).ctx.responses =
        [unauthorized (ascii "Missing authorization header")]) ∧
    (bearerToken ((contextWith (ascii "Token abc")).HeaderGet (ascii "Authorization")) = none ∧
      (JWTAuth sampleLib sampleAuth.jwt sampleNow AuthHandler.GetMe
        (contextWith (ascii "Token abc"))).ctx.responses =
        [unauthorized (ascii "Invalid authorization header format")]) ∧
    ((bearerToken ((contextWith (ascii "Bearer " ++ sampleToken)).HeaderGet
          (ascii "Authorization")) = some sampleToken ∧
        sampleAuth.jwt.Validate sampleLib (sampleNow + 24 * Hour + Second) sampleToken =
          .error .ErrExpiredToken) ∧
      (∃ message, (JWTAuth sampleLib sampleAuth.jwt (sampleNow + 24 * Hour + Second)
            AuthHandler.GetMe (contextWith (ascii "Bearer " ++ sampleToken))).ctx.responses =
          (contextWith (ascii "Bearer " ++ sampleToken)).responses ++
            [unauthorized message]) ∧
        (JWTAuth sampleLib sampleAuth.jwt (sampleNow + 24 * Hour + Second) AuthHandler.GetMe
          (contextWith (ascii "Bearer " ++ sampleToken))).result = none ∧
        (JWTAuth sampleLib sampleAuth.jwt (sampleNow + 24 * Hour + Second) AuthHandler.GetMe
          (contextWith (ascii "Bearer " ++ sampleToken))).nextCalls = [] ∧
        (JWTAuth sampleLib sampleAuth.jwt (sampleNow + 24 * Hour + Second) AuthHandler.GetMe
          (contextWith (ascii "Bearer " ++ sampleToken))).ctx.store =
          (contextWith (ascii "Bearer " ++ sampleToken)).store ∧
        (JWTAuth sampleLib sampleAuth.jwt (sampleNow + 24 * Hour + Second) AuthHandler.GetMe
          (contextWith (ascii "Bearer " ++ sampleToken))).ctx.header =
          (contextWith (ascii "Bearer " ++ sampleToken)).header ∧
        (JWTAuth sampleLib sampleAuth.jwt (sampleNow + 24 * Hour + Second) AuthHandler.GetMe
          (contextWith (ascii "Bearer " ++ sampleToken))).ctx.Get (ascii "user") =
          (contextWith (ascii "Bearer " ++ sampleToken)).Get (ascii "user")) :=
  ⟨⟨by decide, by decide⟩, ⟨by decide, by decide⟩, ⟨by decide, by decide⟩,
    C19_gate_rejects_with_401 sampleLib sampleAuth.jwt (sampleNow + 24 * Hour + Second)
      AuthHandler.GetMe (contextWith (ascii "Bearer " ++ sampleToken))
      (Or.inr ⟨sampleToken, .ErrExpiredToken, by decide, by decide⟩)⟩

/-- C20. Whenever `Validate` succeeds for the token that the gate extracts, the gate stores
under the key `user`, the key that `GetMe` reads, a `*domain.AuthUser` whose ID, Name and
Email are the UserID, Name and Email of the claims, invokes the next handler once, with the
context so extended, and returns the result of that handler; it writes no response of its
own. -/
theorem C20_gate_attaches_identity (L : Lib) (j : JWT) (now : Time) (next : HandlerFunc)
    (c : Context) (t : GoString) (claims : Claims)
    (hb : bearerToken (c.HeaderGet (ascii "Authorization")) = some t)
    (hv : j.Validate L now t = .ok claims) :
    ∃ c1, (JWTAuth L j now next c).nextCalls = [c1] ∧
      c1 = c.Set (ascii "user")
        (.authUser { ID := claims.UserID, Name := claims.Name, Email := claims.Email }) ∧
      c1.Get (ascii "user") =
        some (.authUser { ID := claims.UserID, Name := claims.Name, Email := claims.Email }) ∧
      c1.header = c.header ∧ c1.responses = c.responses ∧
      (JWTAuth L j now next c).result = (next c1).1 ∧
      (JWTAuth L j now next c).ctx = (next c1).2 ∧
      AuthHandler.GetMe c1 =
        response.Success c1 200 (ascii "User retrieved successfully")
          (some (.authUser
            { ID := claims.UserID, Name := claims.Name, Email := claims.Email })) := by
  rw [JWTAuth_accepted L j now next c t claims hb hv]
  refine ⟨_, rfl, rfl, Context.Get_Set _ _ _, rfl, rfl, rfl, rfl, ?_⟩
  unfold AuthHandler.GetMe
  rw [Context.Get_Set]

set_option maxRecDepth 1000000 in
/-- Witness of C20: the gate in front of `GetMe`, run on the sample token at the instant of
issuance. -/
theorem C20_gate_attaches_identity_witness :
    (bearerToken ((contextWith (ascii "Bearer " ++ sampleToken)).HeaderGet
        (ascii "Authorization")) = some sampleToken ∧
      sampleAuth.jwt.Validate sampleLib sampleNow sampleToken = .ok sampleClaims) ∧
    ∃ c1, (JWTAuth sampleLib sampleAuth.jwt sampleNow AuthHandler.GetMe
        (contextWith (ascii "Bearer " ++ sampleToken))).nextCalls = [c1] ∧
      c1 = (contextWith (ascii "Bearer " ++ sampleToken)).Set (ascii "user")
        (.authUser
          { ID := sampleClaims.UserID, Name := sampleClaims.Name, Email := sampleClaims.Email }) ∧
      c1.Get (ascii "user") =
        some (.authUser
          { ID := sampleClaims.UserID, Name := sampleClaims.Name, Email := sampleClaims.Email }) ∧
      c1.header = (contextWith (ascii "Bearer " ++ sampleToken)).header ∧
      c1.responses = (contextWith (ascii "Bearer " ++ sampleToken)).responses ∧
      (JWTAuth sampleLib sampleAuth.jwt sampleNow AuthHandler.GetMe
        (contextWith (ascii "Bearer " ++ sampleToken))).result = (AuthHandler.GetMe c1).1 ∧
      (JWTAuth sampleLib sampleAuth.jwt sampleNow AuthHandler.GetMe
        (contextWith (ascii "Bearer " ++ sampleToken))).ctx = (AuthHandler.GetMe c1).2 ∧
      AuthHandler.GetMe c1 =
        response.Success c1 200 (ascii "User retrieved successfully")
          (some (.authUser
            { ID := sampleClaims.UserID, Name := sampleClaims.Name,
              Email := sampleClaims.Email })) :=
  ⟨⟨by decide, by decide⟩,
    C20_gate_attaches_identity sampleLib sampleAuth.jwt sampleNow AuthHandler.GetMe
      (contextWith (ascii "Bearer " ++ sampleToken)) sampleToken sampleClaims
      (by decide) (by decide)⟩

/-! ## Claims on the authorization gate, continued -/

/-- C21. For every two requests whose headers have the form `Bearer`, space, token and
whose tokens both fail `Validate`, whatever the two errors are and whenever the two requests
arrive, the gate writes the same response for both, status 401 with the message
`Invalid or expired token`, returns nil for both and invokes the next handler for
neither. -/
theorem C21_gate_uniform_rejection (L : Lib) (j : JWT) (now1 now2 : Time)
    (next1 next2 : HandlerFunc) (c1 c2 : Context) (t1 t2 : GoString) (e1 e2 : Error)
    (hb1 : bearerToken (c1.HeaderGet (ascii "Authorization")) = some t1)
    (hb2 : bearerToken (c2.HeaderGet (ascii "Authorization")) = some t2)
    (hv1 : j.Validate L now1 t1 = .error e1) (hv2 : j.Validate L now2 t2 = .error e2) :
    ∃ r, (JWTAuth L j now1 next1 c1).ctx.responses = c1.responses ++ [r] ∧
      (JWTAuth L j now2 next2 c2).ctx.responses = c2.responses ++ [r] ∧
      r = (401, { Success := false, Message := ascii "Invalid or expired token"
                  Data := none, Errors := none }) ∧
      (JWTAuth L j now1 next1 c1).result = (JWTAuth L j now2 next2 c2).result ∧
      (JWTAuth L j now1 next1 c1).nextCalls = [] ∧
      (JWTAuth L j now2 next2 c2).nextCalls = [] := by
  rw [JWTAuth_rejected L j now1 next1 c1 t1 e1 hb1 hv1,
    JWTAuth_rejected L j now2 next2 c2 t2 e2 hb2 hv2]
  exact ⟨_, rfl, rfl, rfl, rfl, rfl, rfl⟩

set_option maxRecDepth 1000000 in
/-- Witness of C21: a request whose token is the string `abc` (malformed) and a request
whose token is the sample token presented a day and a second after issuance (expired). -/
theorem C21_gate_uniform_rejection_witness :
    (bearerToken ((contextWith (ascii "Bearer abc")).HeaderGet (ascii "Authorization")) =
        some (ascii "abc") ∧
      bearerToken ((contextWith (ascii "Bearer " ++ sampleToken)).HeaderGet
        (ascii "Authorization")) = some sampleToken ∧
      sampleAuth.jwt.Validate sampleLib sampleNow (ascii "abc") = .error .ErrInvalidToken ∧
      sampleAuth.jwt.Validate sampleLib (sampleNow + 24 * Hour + Second) sampleToken =
        .error .ErrExpiredToken) ∧
    ∃ r, (JWTAuth sampleLib sampleAuth.jwt sampleNow AuthHandler.GetMe
          (contextWith (ascii "Bearer abc"))).ctx.responses =
        (contextWith (ascii "Bearer abc")).responses ++ [r] ∧
      (JWTAuth sampleLib sampleAuth.jwt (sampleNow + 24 * Hour + Second) AuthHandler.GetMe
          (contextWith (ascii "Bearer " ++ sampleToken))).ctx.responses =
        (contextWith (ascii "Bearer " ++ sampleToken)).responses ++ [r] ∧
      r = (401, { Success := false, Message := ascii "Invalid or expired token"
                  Data := none, Errors := none }) ∧
      (JWTAuth sampleLib sampleAuth.jwt sampleNow AuthHandler.GetMe
          (contextWith (ascii "Bearer abc"))).result =
        (JWTAuth sampleLib sampleAuth.jwt (sampleNow + 24 * Hour + Second) AuthHandler.GetMe
          (contextWith (ascii "Bearer " ++ sampleToken))).result ∧
      (JWTAuth sampleLib sampleAuth.jwt sampleNow AuthHandler.GetMe
          (contextWith (ascii "Bearer abc"))).nextCalls = [] ∧
      (JWTAuth sampleLib sampleAuth.jwt (sampleNow + 24 * Hour + Second) AuthHandler.GetMe
          (contextWith (ascii "Bearer " ++ sampleToken))).nextCalls = [] :=
  ⟨⟨by decide, by decide, by decide, by decide⟩,
    C21_gate_uniform_rejection sampleLib sampleAuth.jwt sampleNow
      (sampleNow + 24 * Hour + Second) AuthHandler.GetMe AuthHandler.GetMe
      (contextWith (ascii "Bearer abc")) (contextWith (ascii "Bearer " ++ sampleToken))
      (ascii "abc") sampleToken .ErrInvalidToken .ErrExpiredToken
      (by decide) (by decide) (by decide) (by decide)⟩

/-! ## Lemmas on a token that lost its last character -/

/-- The number of bytes that a sequence of six-bit values decodes to. -/
theorem b64DecodeVals_length (vs : List Nat) :
    ∀ s, b64DecodeVals vs = some s → s.length = vs.length * 3 / 4 := by
  induction vs using b64DecodeVals.induct with
  | case1 =>
    intro s h
    simp only [b64DecodeVals, Option.some.injEq] at h
    subst h
    rfl
  | case2 v =>
    intro s h
    simp [b64DecodeVals] at h
  | case3 v0 v1 =>
    intro s h
    simp only [b64DecodeVals, Option.some.injEq] at h
    subst h
    simp
  | case4 v0 v1 v2 =>
    intro s h
    simp only [b64DecodeVals, Option.some.injEq] at h
    subst h
    simp
  | case5 v0 v1 v2 v3 rest hr =>
    intro s h
    simp [b64DecodeVals, hr] at h
  | case6 v0 v1 v2 v3 rest bs hr ih =>
    intro s h
    simp only [b64DecodeVals, hr, Option.some.injEq] at h
    subst h
    have := ih bs hr
    simp only [List.length_cons, this]
    omega

/-- The number of six-bit values that a byte string is encoded with. -/
theorem b64EncodeVals_length (bs : List Byte) :
    (b64EncodeVals bs).length = (bs.length * 4 + 2) / 3 := by
  induction bs using b64EncodeVals.induct with
  | case1 => rfl
  | case2 a => simp [b64EncodeVals]
  | case3 a b => simp [b64EncodeVals]
  | case4 a b c rest ih =>
    simp only [b64EncodeVals, List.length_cons, ih]
    omega

/-- An encoded segment that lost its last character does not decode to the bytes that were
encoded. -/
theorem b64Decode_dropLast_ne (bs : List Byte) (hne : bs ≠ []) :
    b64Decode (b64Encode bs).dropLast ≠ some bs := by
  intro h
  have hlt : ∀ v ∈ (b64EncodeVals bs).dropLast, v < 64 := fun v hv =>
    b64EncodeVals_lt bs v (List.dropLast_subset _ hv)
  have hmap : (b64Encode bs).dropLast = ((b64EncodeVals bs).dropLast).map b64Char := by
    rw [b64Encode_eq_map, List.dropLast_eq_take, List.dropLast_eq_take, List.map_take,
      List.length_map]
  unfold b64Decode at h
  rw [hmap, b64_filter_map _ hlt, b64Vals_map _ hlt] at h
  have hl := b64DecodeVals_length _ bs h
  rw [List.length_dropLast, b64EncodeVals_length] at hl
  have hpos : 0 < bs.length := List.length_pos.mpr hne
  omega

/-- The issued token without its last character is rejected by the issuing service as
invalid, whatever the instant; the codec is assumed to read the issued header back. -/
theorem Validate_truncated (L : Lib) (j : JWT) (now : Time) (c : Claims)
    (hH : L.unmarshalHeader (L.marshalHeader (ascii "HS256")) = some (some (ascii "HS256"))) :
    j.Validate L now
        (signingInput L c ++
          dot :: b64Encode (hmacSum L .SHA256 j.secretKey (signingInput L c))).dropLast =
      .error .ErrInvalidToken := by
  by_cases hs : hmacSum L .SHA256 j.secretKey (signingInput L c) = []
  · have hd : (signingInput L c ++ dot :: b64Encode ([] : List Byte)).dropLast =
        signingInput L c := by
      simp [b64Encode]
    rw [hs, hd]
    unfold JWT.Validate ParseWithClaims signingInput
    rw [splitOn_append dot _ _ (dot_not_mem_b64Encode _),
      splitOn_of_not_mem dot _ (dot_not_mem_b64Encode _)]
    simp [ParseError.isTokenExpired]
  · have hS : b64Encode (hmacSum L .SHA256 j.secretKey (signingInput L c)) ≠ [] := by
      intro h0
      have := b64Decode_b64Encode (hmacSum L .SHA256 j.secretKey (signingInput L c))
      rw [h0] at this
      have h1 : b64Decode [] = some [] := rfl
      rw [h1] at this
      exact hs (Option.some.inj this).symm
    have hd : (signingInput L c ++
          dot :: b64Encode (hmacSum L .SHA256 j.secretKey (signingInput L c))).dropLast =
        signingInput L c ++
          dot :: (b64Encode (hmacSum L .SHA256 j.secretKey (signingInput L c))).dropLast := by
      rw [List.dropLast_append_of_ne_nil _ (List.cons_ne_nil _ _),
        List.dropLast_cons_of_ne_nil hS]
    have hdot : dot ∉ (b64Encode (hmacSum L .SHA256 j.secretKey (signingInput L c))).dropLast :=
      fun hm => dot_not_mem_b64Encode _ (List.dropLast_subset _ hm)
    have hne := b64Decode_dropLast_ne _ hs
    rw [hd]
    unfold JWT.Validate ParseWithClaims
    have hsplit : splitOn dot (signingInput L c ++
          dot :: (b64Encode (hmacSum L .SHA256 j.secretKey (signingInput L c))).dropLast) =
        [b64Encode (L.marshalHeader (ascii "HS256")), b64Encode (L.marshalClaims c),
          (b64Encode (hmacSum L .SHA256 j.secretKey (signingInput L c))).dropLast] := by
      unfold signingInput
      exact splitOn_three _ _ _ (dot_not_mem_b64Encode _) (dot_not_mem_b64Encode _)
        (by simpa [signingInput] using hdot)
    rw [hsplit]
    simp only [b64Decode_b64Encode, hH, GetSigningMethod_HS256]
    cases hC : L.unmarshalClaims (L.marshalClaims c) with
    | none => simp [ParseError.isTokenExpired]
    | some c2 =>
      cases hS2 : b64Decode
          (b64Encode (hmacSum L .SHA256 j.secretKey (signingInput L c))).dropLast with
      | none => simp [ParseError.isTokenExpired]
      | some sig =>
        have hsig : sig ≠ hmacSum L .SHA256 j.secretKey (signingInput L c) := by
          intro e
          rw [e] at hS2
          exact hne hS2
        have hsig2 : sig ≠ hmacSum L .SHA256 j.secretKey
            (b64Encode (L.marshalHeader (ascii "HS256")) ++
              dot :: b64Encode (L.marshalClaims c)) := hsig
        simp [JWT.keyFunc, SigningMethod.Verify, hsig2, ParseError.isTokenExpired]

/-- The claims that the issuing service reads from a token it issued are the claims it
signed, when the codec reads the issued header and payload back. -/
theorem Validate_issued_claims (L : Lib) (j : JWT) (t0 now : Time) (user : User)
    (tok : GoString) (claims : Claims)
    (hH : L.unmarshalHeader (L.marshalHeader (ascii "HS256")) = some (some (ascii "HS256")))
    (hC : L.unmarshalClaims (L.marshalClaims (j.claimsFor t0 user)) = some (j.claimsFor t0 user))
    (hg : j.Generate L t0 user = .ok tok) (hv : j.Validate L now tok = .ok claims) :
    claims = j.claimsFor t0 user := by
  rw [Generate_eq] at hg
  have htok := Except.ok.inj hg
  rw [← htok, Validate_signed L j j.secretKey now _ _ hH hC] at hv
  simp only [if_true] at hv
  rcases hvc : validateClaims (j.claimsFor t0 user) now with ⟨e, n⟩
  rw [hvc] at hv
  cases e <;> cases n <;> simp at hv
  exact hv.symm

/-! ## Claims on the gate in front of the identity lookup -/

/-- C22. Through the gate and the handler `GetMe`: for every request whose Bearer token the
gate accepts, the run writes exactly one response, 200 with the id, name and email of the
claims of the token, and so neither 401 `User context not found` nor 500
`Invalid user context`; when the token was issued by `Generate` for a user (and the codec
reads the issued header and payload back), these are the id, name and email of that user.
For a request whose token is an issued token without its last character, the response is
401 and the handler is not invoked. -/
theorem C22_gate_then_identity_lookup (L : Lib) (j : JWT) (now t0 : Time) (user : User)
    (c : Context) (t : GoString)
    (hb : bearerToken (c.HeaderGet (ascii "Authorization")) = some t) :
    (∀ claims, j.Validate L now t = .ok claims →
      (JWTAuth L j now AuthHandler.GetMe c).result = none ∧
      (∃ r, (JWTAuth L j now AuthHandler.GetMe c).ctx.responses = c.responses ++ [r] ∧
        r = (200, { Success := true, Message := ascii "User retrieved successfully"
                    Data := some (.authUser
                      { ID := claims.UserID, Name := claims.Name, Email := claims.Email })
                    Errors := none }) ∧
        r ≠ unauthorized (ascii "User context not found") ∧
        r ≠ (500, { Success := false, Message := ascii "Invalid user context"
                    Data := none, Errors := none })) ∧
      (L.unmarshalHeader (L.marshalHeader (ascii "HS256")) = some (some (ascii "HS256")) →
        L.unmarshalClaims (L.marshalClaims (j.claimsFor t0 user)) =
          some (j.claimsFor t0 user) →
        j.Generate L t0 user = .ok t →
        claims.UserID = user.ID ∧ claims.Name = user.Name ∧ claims.Email = user.Email)) ∧
    (∀ tok, L.unmarshalHeader (L.marshalHeader (ascii "HS256")) = some (some (ascii "HS256")) →
      j.Generate L t0 user = .ok tok → t = tok.dropLast →
      (JWTAuth L j now AuthHandler.GetMe c).result = none ∧
      (JWTAuth L j now AuthHandler.GetMe c).ctx.responses =
        c.responses ++ [unauthorized (ascii "Invalid or expired token")] ∧
      (JWTAuth L j now AuthHandler.GetMe c).nextCalls = []) := by
  constructor
  · intro claims hv
    rw [JWTAuth_accepted L j now AuthHandler.GetMe c t claims hb hv]
    have hget : AuthHandler.GetMe (c.Set (ascii "user")
          (.authUser { ID := claims.UserID, Name := claims.Name, Email := claims.Email })) =
        response.Success (c.Set (ascii "user")
          (.authUser { ID := claims.UserID, Name := claims.Name, Email := claims.Email }))
          200 (ascii "User retrieved successfully")
          (some (.authUser
            { ID := claims.UserID, Name := claims.Name, Email := claims.Email })) := by
      unfold AuthHandler.GetMe
      rw [Context.Get_Set]
    simp only [hget]
    refine ⟨rfl, ⟨_, rfl, rfl, ?_, ?_⟩, ?_⟩
    · intro h
      have h1 := congrArg Prod.fst h
      simp [unauthorized] at h1
    · intro h
      have h1 := congrArg Prod.fst h
      simp at h1
    · intro hH hC hg
      have := Validate_issued_claims L j t0 now user t claims hH hC hg hv
      subst this
      exact ⟨rfl, rfl, rfl⟩
  · intro tok hH hg ht
    rw [Generate_eq] at hg
    have htok := Except.ok.inj hg
    have hv : j.Validate L now t = .error .ErrInvalidToken := by
      rw [ht, ← htok]
      exact Validate_truncated L j now _ hH
    rw [JWTAuth_rejected L j now AuthHandler.GetMe c t _ hb hv]
    exact ⟨rfl, rfl, rfl⟩

set_option maxRecDepth 1000000 in
/-- Witness of C22: the sample token at the instant of issuance passes the gate and `GetMe`
answers with the identity of Ada; the sample token without its last character is answered
with 401; and the same holds for the token that a registration of Ada returns. -/
theorem C22_gate_then_identity_lookup_witness :
    (bearerToken ((contextWith (ascii "Bearer " ++ sampleToken)).HeaderGet
        (ascii "Authorization")) = some sampleToken ∧
      sampleAuth.jwt.Validate sampleLib sampleNow sampleToken = .ok sampleClaims ∧
      bearerToken ((contextWith (ascii "Bearer " ++ sampleToken.dropLast)).HeaderGet
        (ascii "Authorization")) = some sampleToken.dropLast ∧
      sampleLib.unmarshalHeader (sampleLib.marshalHeader (ascii "HS256")) =
        some (some (ascii "HS256")) ∧
      sampleLib.unmarshalClaims (sampleLib.marshalClaims (sampleAuth.jwt.claimsFor sampleNow ada)) =
        some (sampleAuth.jwt.claimsFor sampleNow ada) ∧
      sampleAuth.jwt.Generate sampleLib sampleNow ada = .ok sampleToken) ∧
    ((JWTAuth sampleLib sampleAuth.jwt sampleNow AuthHandler.GetMe
        (contextWith (ascii "Bearer " ++ sampleToken))).result = none ∧
      (∃ r, (JWTAuth sampleLib sampleAuth.jwt sampleNow AuthHandler.GetMe
          (contextWith (ascii "Bearer " ++ sampleToken))).ctx.responses =
          (contextWith (ascii "Bearer " ++ sampleToken)).responses ++ [r] ∧
        r = (200, { Success := true, Message := ascii "User retrieved successfully"
                    Data := some (.authUser
                      { ID := sampleClaims.UserID, Name := sampleClaims.Name
                        Email := sampleClaims.Email })
                    Errors := none }) ∧
        r ≠ unauthorized (ascii "User context not found") ∧
        r ≠ (500, { Success := false, Message := ascii "Invalid user context"
                    Data := none, Errors := none })) ∧
      (sampleClaims.UserID = ada.ID ∧ sampleClaims.Name = ada.Name ∧
        sampleClaims.Email = ada.Email)) ∧
    ((JWTAuth sampleLib sampleAuth.jwt sampleNow AuthHandler.GetMe
        (contextWith (ascii "Bearer " ++ sampleToken.dropLast))).result = none ∧
      (JWTAuth sampleLib sampleAuth.jwt sampleNow AuthHandler.GetMe
        (contextWith (ascii "Bearer " ++ sampleToken.dropLast))).ctx.responses =
        (contextWith (ascii "Bearer " ++ sampleToken.dropLast)).responses ++
          [unauthorized (ascii "Invalid or expired token")] ∧
      (JWTAuth sampleLib sampleAuth.jwt sampleNow AuthHandler.GetMe
        (contextWith (ascii "Bearer " ++ sampleToken.dropLast))).nextCalls = []) ∧
    ∃ resp, (sampleAuth.Register sampleLib (sampleBcrypt _) sampleNow adaRequest []).result =
        .ok resp ∧
      (JWTAuth sampleLib sampleAuth.jwt sampleNow AuthHandler.GetMe
        (contextWith (ascii "Bearer " ++ resp.AccessToken))).ctx.responses =
        [(200, { Success := true, Message := ascii "User retrieved successfully"
                 Data := some (.authUser
                   { ID := 1, Name := ascii "Ada", Email := ascii "ada@example.com" })
                 Errors := none })] ∧
      (JWTAuth sampleLib sampleAuth.jwt sampleNow AuthHandler.GetMe
        (contextWith (ascii "Bearer " ++ resp.AccessToken.dropLast))).ctx.responses =
        [unauthorized (ascii "Invalid or expired token")] :=
  ⟨⟨by decide, by decide, by decide, by decide, by decide, rfl⟩,
    ⟨((C22_gate_then_identity_lookup sampleLib sampleAuth.jwt sampleNow sampleNow ada
        (contextWith (ascii "Bearer " ++ sampleToken)) sampleToken (by decide)).1
        sampleClaims (by decide)).1,
      ((C22_gate_then_identity_lookup sampleLib sampleAuth.jwt sampleNow sampleNow ada
        (contextWith (ascii "Bearer " ++ sampleToken)) sampleToken (by decide)).1
        sampleClaims (by decide)).2.1,
      ((C22_gate_then_identity_lookup sampleLib sampleAuth.jwt sampleNow sampleNow ada
        (contextWith (ascii "Bearer " ++ sampleToken)) sampleToken (by decide)).1
        sampleClaims (by decide)).2.2 (by decide) (by decide) rfl⟩,
    (C22_gate_then_identity_lookup sampleLib sampleAuth.jwt sampleNow sampleNow ada
      (contextWith (ascii "Bearer " ++ sampleToken.dropLast)) sampleToken.dropLast
      (by decide)).2 sampleToken (by decide) rfl rfl,
    ⟨_, rfl, by decide, by decide⟩⟩

/-! ## Claims on the handlers and the user service -/

/-- The mapping of the two handlers over any authentication service, for a request body
that binds and validates: `Register` responds 201 with the token response when the service
succeeds, 409 when the service fails with (an error wrapping) `ErrEmailAlreadyExists`, and
otherwise 500 with the fixed message `Failed to register user`; `Login` responds 200 with
the token response when the service succeeds, 401 when it fails with (an error wrapping)
`ErrInvalidCredentials`, and otherwise 500 with the fixed message `Failed to login`. The
500 responses carry neither data nor error details and are the same for every underlying
error. -/
theorem handler_status_mapping {σ : Type} (svc : AuthService σ)
    (vr : RegisterRequest → Option GoString) (vl : LoginRequest → Option GoString)
    (c : Context) (st : σ) (rreq : RegisterRequest) (lreq : LoginRequest)
    (hvr : vr rreq = none) (hvl : vl lreq = none) :
    (∀ token st1, svc.Register rreq st = (.ok token, st1) →
      (AuthHandler.Register svc vr (.ok rreq) c st).1.2.responses = c.responses ++
        [(201, { Success := true, Message := ascii "User registered successfully"
                 Data := some (.token token), Errors := none })]) ∧
    (∀ err st1, svc.Register rreq st = (.error err, st1) →
      errorsIs err .ErrEmailAlreadyExists = true →
      (AuthHandler.Register svc vr (.ok rreq) c st).1.2.responses = c.responses ++
        [(409, { Success := false, Message := ascii "Email already exists"
                 Data := none, Errors := none })]) ∧
    (∀ err st1, svc.Register rreq st = (.error err, st1) →
      errorsIs err .ErrEmailAlreadyExists = false →
      (AuthHandler.Register svc vr (.ok rreq) c st).1.2.responses = c.responses ++
        [(500, { Success := false, Message := ascii "Failed to register user"
                 Data := none, Errors := none })]) ∧
    (∀ token st1, svc.Login lreq st = (.ok token, st1) →
      (AuthHandler.Login svc vl (.ok lreq) c st).1.2.responses = c.responses ++
        [(200, { Success := true, Message := ascii "Login successful"
                 Data := some (.token token), Errors := none })]) ∧
    (∀ err st1, svc.Login lreq st = (.error err, st1) →
      errorsIs err .ErrInvalidCredentials = true →
      (AuthHandler.Login svc vl (.ok lreq) c st).1.2.responses = c.responses ++
        [(401, { Success := false, Message := ascii "Invalid email or password"
                 Data := none, Errors := none })]) ∧
    (∀ err st1, svc.Login lreq st = (.error err, st1) →
      errorsIs err .ErrInvalidCredentials = false →
      (AuthHandler.Login svc vl (.ok lreq) c st).1.2.responses = c.responses ++
        [(500, { Success := false, Message := ascii "Failed to login"
                 Data := none, Errors := none })]) := by
  refine ⟨?_, ?_, ?_, ?_, ?_, ?_⟩
  · intro token st1 h
    simp [AuthHandler.Register, hvr, h, response.Success, Context.JSON]
  · intro err st1 h he
    simp [AuthHandler.Register, hvr, h, he, response.Error, Context.JSON]
  · intro err st1 h he
    simp [AuthHandler.Register, hvr, h, he, response.Error, Context.JSON]
  · intro token st1 h
    simp [AuthHandler.Login, hvl, h, response.Success, Context.JSON]
  · intro err st1 h he
    simp [AuthHandler.Login, hvl, h, he, response.Error, Context.JSON]
  · intro err st1 h he
    simp [AuthHandler.Login, hvl, h, he, response.Error, Context.JSON]

set_option maxRecDepth 1000000 in
/-- Examples of the mapping: registrations and logins of Ada against the in-memory
repository (empty table, table holding her row, database out of reach). -/
theorem handler_status_mapping_examples :
    ((acceptAll adaRequest = none ∧ acceptAll adaLogin = none) ∧
      acceptAll wrongLogin = none) ∧
    (∃ token, (AuthHandler.Register
        (sampleAuth.toInterface sampleLib (sampleBcrypt _) sampleNow) acceptAll
        (.ok adaRequest) bareContext []).1.2.responses = bareContext.responses ++
        [(201, { Success := true, Message := ascii "User registered successfully"
                 Data := some (.token token), Errors := none })]) ∧
    (AuthHandler.Register (sampleAuth.toInterface sampleLib (sampleBcrypt _) sampleNow)
        acceptAll (.ok adaRequest) bareContext [adaRow]).1.2.responses =
      bareContext.responses ++
        [(409, { Success := false, Message := ascii "Email already exists"
                 Data := none, Errors := none })] ∧
    (AuthHandler.Register (downAuth.toInterface sampleLib (sampleBcrypt _) sampleNow)
        acceptAll (.ok adaRequest) bareContext []).1.2.responses =
      bareContext.responses ++
        [(500, { Success := false, Message := ascii "Failed to register user"
                 Data := none, Errors := none })] ∧
    (∃ token, (AuthHandler.Login
        (sampleAuth.toInterface sampleLib (sampleBcrypt _) sampleNow) acceptAll
        (.ok adaLogin) bareContext [adaRow]).1.2.responses = bareContext.responses ++
        [(200, { Success := true, Message := ascii "Login successful"
                 Data := some (.token token), Errors := none })]) ∧
    (AuthHandler.Login (sampleAuth.toInterface sampleLib (sampleBcrypt _) sampleNow)
        acceptAll (.ok wrongLogin) bareContext [adaRow]).1.2.responses =
      bareContext.responses ++
        [(401, { Success := false, Message := ascii "Invalid email or password"
                 Data := none, Errors := none })] ∧
    (AuthHandler.Login (downAuth.toInterface sampleLib (sampleBcrypt _) sampleNow)
        acceptAll (.ok adaLogin) bareContext []).1.2.responses =
      bareContext.responses ++
        [(500, { Success := false, Message := ascii "Failed to login"
                 Data := none, Errors := none })] :=
  ⟨⟨⟨rfl, rfl⟩, rfl⟩,
    ⟨_, (handler_status_mapping
      (sampleAuth.toInterface sampleLib (sampleBcrypt _) sampleNow) acceptAll acceptAll
      bareContext [] adaRequest adaLogin rfl rfl).1 _ _ rfl⟩,
    (handler_status_mapping
      (sampleAuth.toInterface sampleLib (sampleBcrypt _) sampleNow) acceptAll acceptAll
      bareContext [adaRow] adaRequest adaLogin rfl rfl).2.1 .ErrEmailAlreadyExists [adaRow]
      (by decide) (by decide),
    (handler_status_mapping
      (downAuth.toInterface sampleLib (sampleBcrypt _) sampleNow) acceptAll acceptAll
      bareContext [] adaRequest adaLogin rfl rfl).2.2.1 connectionError []
      (by decide) (by decide),
    ⟨_, (handler_status_mapping
      (sampleAuth.toInterface sampleLib (sampleBcrypt _) sampleNow) acceptAll acceptAll
      bareContext [adaRow] adaRequest adaLogin rfl rfl).2.2.2.1 _ _ rfl⟩,
    (handler_status_mapping
      (sampleAuth.toInterface sampleLib (sampleBcrypt _) sampleNow) acceptAll acceptAll
      bareContext [adaRow] adaRequest wrongLogin rfl rfl).2.2.2.2.1 .ErrInvalidCredentials
      [adaRow] (by decide) (by decide),
    (handler_status_mapping
      (downAuth.toInterface sampleLib (sampleBcrypt _) sampleNow) acceptAll acceptAll
      bareContext [] adaRequest adaLogin rfl rfl).2.2.2.2.2 connectionError []
      (by decide) (by decide)⟩

set_option maxRecDepth 1000000 in
/-- C23, evaluated where it fails. The handler `Register` in front of the authentication
service, for a well-formed and valid request that looks up an email not yet in the table
while a concurrent registration of the same email is committed: the registration fails
because the email already exists (the unique index refuses the row, and the table holds the
row of the other request with that email), the service returns
`repository.ErrDuplicateEmail`, which the handler does not recognise as
`ErrEmailAlreadyExists`, and the response is 500 `Failed to register user`, not 409
`Email already exists`. The same request against a table that already holds the row is
answered with 409, and the sibling `userService.Create` turns the refusal of the unique
index into its `ErrEmailExists`. -/
theorem C23_register_lost_race_status :
    acceptAll adaRequest = none ∧
    (raceAuth.Register sampleLib (sampleBcrypt _) sampleNow adaRequest []).result =
      .error .ErrDuplicateEmail ∧
    (raceAuth.Register sampleLib (sampleBcrypt _) sampleNow adaRequest []).state = [ada] ∧
    ada.Email = adaRequest.Email ∧
    (AuthHandler.Register (raceAuth.toInterface sampleLib (sampleBcrypt _) sampleNow)
        acceptAll (.ok adaRequest) bareContext []).1.2.responses =
      [(500, { Success := false, Message := ascii "Failed to register user"
               Data := none, Errors := none })] ∧
    (AuthHandler.Register (raceAuth.toInterface sampleLib (sampleBcrypt _) sampleNow)
        acceptAll (.ok adaRequest) bareContext []).1.2.responses ≠
      [(409, { Success := false, Message := ascii "Email already exists"
               Data := none, Errors := none })] ∧
    (AuthHandler.Register (sampleAuth.toInterface sampleLib (sampleBcrypt _) sampleNow)
        acceptAll (.ok adaRequest) bareContext [ada]).1.2.responses =
      [(409, { Success := false, Message := ascii "Email already exists"
               Data := none, Errors := none })] ∧
    (sampleUsers.Create adaCreate [ada]).result = .error .ErrEmailExists := by
  decide

/-- C24. The method `ToResponse` copies ID, Name, Email, CreatedAt and UpdatedAt of the user
and nothing else: changing the `Password` field of a user changes neither its `ToResponse`
nor the responses that the user service builds from it (`GetByID`, `GetAll` over
repositories that answer alike up to the passwords of the users returned) nor the payload
that a handler passes on. -/
theorem C24_password_not_in_response (u : User) (p : GoString) :
    (u.ToResponse.ID = u.ID ∧ u.ToResponse.Name = u.Name ∧ u.ToResponse.Email = u.Email ∧
      u.ToResponse.CreatedAt = u.CreatedAt ∧ u.ToResponse.UpdatedAt = u.UpdatedAt) ∧
    ({ u with Password := p } : User).ToResponse = u.ToResponse ∧
    (∀ v : User, v.ID = u.ID → v.Name = u.Name → v.Email = u.Email →
      v.CreatedAt = u.CreatedAt → v.UpdatedAt = u.UpdatedAt → v.ToResponse = u.ToResponse) ∧
    Payload.user ({ u with Password := p } : User).ToResponse = Payload.user u.ToResponse ∧
    (∀ (σ : Type) (s1 s2 : userService σ) (id : UUID) (st1 st2 st3 st4 : σ),
      s1.userRepo.GetByID id st1 = (.ok u, st3) →
      s2.userRepo.GetByID id st2 = (.ok { u with Password := p }, st4) →
      (s1.GetByID id st1).result = (s2.GetByID id st2).result) ∧
    (∀ (σ : Type) (s1 s2 : userService σ) (st1 st2 st3 st4 : σ) (us : List User),
      s1.userRepo.GetAll st1 = (.ok us, st3) →
      s2.userRepo.GetAll st2 = (.ok (us.map (fun x => { x with Password := p })), st4) →
      (s1.GetAll st1).result = (s2.GetAll st2).result) := by
  refine ⟨⟨rfl, rfl, rfl, rfl, rfl⟩, rfl, ?_, rfl, ?_, ?_⟩
  · intro v h1 h2 h3 h4 h5
    simp [User.ToResponse, h1, h2, h3, h4, h5]
  · intro σ s1 s2 id st1 st2 st3 st4 h1 h2
    simp [userService.GetByID, h1, h2, User.ToResponse]
  · intro σ s1 s2 st1 st2 st3 st4 us h1 h2
    simp [userService.GetAll, h1, h2, User.ToResponse, Function.comp_def]

/-- Witness of C24: the row of Ada and the same row with an empty password field, read
through the user service from two in-memory tables. -/
theorem C24_password_not_in_response_witness :
    (adaRow.Password ≠ [] ∧
      sampleUsers.userRepo.GetByID 1 [adaRow] = (.ok adaRow, [adaRow]) ∧
      sampleUsers.userRepo.GetByID 1 [emptyHashRow] =
        (.ok { adaRow with Password := [] }, [emptyHashRow]) ∧
      sampleUsers.userRepo.GetAll [adaRow] = (.ok [adaRow], [adaRow]) ∧
      sampleUsers.userRepo.GetAll [emptyHashRow] =
        (.ok ([adaRow].map (fun x => { x with Password := [] })), [emptyHashRow])) ∧
    ({ adaRow with Password := [] } : User).ToResponse = adaRow.ToResponse ∧
    (sampleUsers.GetByID 1 [adaRow]).result = (sampleUsers.GetByID 1 [emptyHashRow]).result ∧
    (sampleUsers.GetAll [adaRow]).result = (sampleUsers.GetAll [emptyHashRow]).result :=
  ⟨⟨by decide, by decide, by decide, by decide, by decide⟩,
    (C24_password_not_in_response adaRow []).2.1,
    (C24_password_not_in_response adaRow []).2.2.2.2.1 _ sampleUsers sampleUsers 1
      [adaRow] [emptyHashRow] [adaRow] [emptyHashRow] (by decide) (by decide),
    (C24_password_not_in_response adaRow []).2.2.2.2.2 _ sampleUsers sampleUsers
      [adaRow] [emptyHashRow] [adaRow] [emptyHashRow] [adaRow] (by decide) (by decide)⟩

/-- The three ways in which `userService.Create` ends. -/
theorem userService_Create_cases {σ : Type} (s : userService σ) (req : CreateUserRequest)
    (st : σ) :
    (∃ err left st1, s.userRepo.Create req.toUser st = ((some err, left), st1) ∧
      errorsIs err .ErrDuplicateEmail = true ∧
      s.Create req st =
        { result := .error .ErrEmailExists, calls := [.Create req.toUser], state := st1 }) ∨
    (∃ err left st1, s.userRepo.Create req.toUser st = ((some err, left), st1) ∧
      errorsIs err .ErrDuplicateEmail = false ∧
      s.Create req st =
        { result := .error err, calls := [.Create req.toUser], state := st1 }) ∨
    (∃ created st1, s.userRepo.Create req.toUser st = ((none, created), st1) ∧
      s.Create req st =
        { result := .ok created.ToResponse, calls := [.Create req.toUser], state := st1 }) := by
  unfold userService.Create
  rcases h : s.userRepo.Create req.toUser st with ⟨⟨r, left⟩, st1⟩
  unfold CreateUserRequest.toUser at h
  cases r with
  | some err =>
    cases he : errorsIs err .ErrDuplicateEmail with
    | true =>
      refine Or.inl ⟨err, left, st1, rfl, he, ?_⟩
      simp [h, he, CreateUserRequest.toUser]
    | false =>
      refine Or.inr (Or.inl ⟨err, left, st1, rfl, he, ?_⟩)
      simp [h, he, CreateUserRequest.toUser]
  | none =>
    refine Or.inr (Or.inr ⟨left, st1, rfl, ?_⟩)
    simp [h, CreateUserRequest.toUser]

/-- C25. For every create-user request: when the `Create` of the repository reports (an
error wrapping) `ErrDuplicateEmail`, `userService.Create` returns no response and
`ErrEmailExists`; when it reports any other error, that error is returned unchanged; when it
reports success, the response is `ToResponse` of the user as `Create` left it, whose name
and email are those of the request whenever `Create` is the `Create` of `userRepository`.
`ErrEmailExists` is returned only for an error that is a duplicate-email error or is
`ErrEmailExists` already. -/
theorem C25_user_create_outcomes {σ : Type} (s : userService σ) (req : CreateUserRequest)
    (st : σ) :
    (∀ err left st1, s.userRepo.Create req.toUser st = ((some err, left), st1) →
      errorsIs err .ErrDuplicateEmail = true →
      (s.Create req st).result = .error .ErrEmailExists) ∧
    (∀ err left st1, s.userRepo.Create req.toUser st = ((some err, left), st1) →
      errorsIs err .ErrDuplicateEmail = false →
      (s.Create req st).result = .error err) ∧
    (∀ created st1, s.userRepo.Create req.toUser st = ((none, created), st1) →
      (s.Create req st).result = .ok created.ToResponse ∧
      (∀ q, userRepository.Create q req.toUser = some (none, created) →
        created.ToResponse.Name = req.Name ∧ created.ToResponse.Email = req.Email)) ∧
    ((s.Create req st).result = .error .ErrEmailExists →
      ∃ err left st1, s.userRepo.Create req.toUser st = ((some err, left), st1) ∧
        (errorsIs err .ErrDuplicateEmail = true ∨ err = .ErrEmailExists)) := by
  rcases userService_Create_cases s req st with
    ⟨err, left, st1, h, he, ho⟩ | ⟨err, left, st1, h, he, ho⟩ | ⟨created, st1, h, ho⟩
  · rw [ho, h]
    refine ⟨?_, ?_, ?_, ?_⟩
    · intro e l s1 hx _
      rfl
    · intro e l s1 hx hne
      simp only [Prod.mk.injEq, Option.some.injEq] at hx
      rw [← hx.1.1, he] at hne
      cases hne
    · intro cr s1 hx
      simp at hx
    · intro _
      exact ⟨err, left, st1, rfl, Or.inl he⟩
  · rw [ho, h]
    refine ⟨?_, ?_, ?_, ?_⟩
    · intro e l s1 hx hd
      simp only [Prod.mk.injEq, Option.some.injEq] at hx
      rw [← hx.1.1, he] at hd
      cases hd
    · intro e l s1 hx _
      simp only [Prod.mk.injEq, Option.some.injEq] at hx
      rw [hx.1.1]
    · intro cr s1 hx
      simp at hx
    · intro hr
      simp only [Except.error.injEq] at hr
      exact ⟨err, left, st1, rfl, Or.inr hr⟩
  · rw [ho, h]
    refine ⟨?_, ?_, ?_, ?_⟩
    · intro e l s1 hx
      simp at hx
    · intro e l s1 hx
      simp at hx
    · intro cr s1 hx
      simp only [Prod.mk.injEq, true_and] at hx
      rw [← hx.1]
      refine ⟨rfl, ?_⟩
      intro q hq
      obtain ⟨hn, hm, _⟩ := userRepository_Create_ok q _ _ hq
      exact ⟨hn, hm⟩
    · intro hr
      cases hr

set_option maxRecDepth 1000000 in
/-- Witness of C25: creating Ada in the empty in-memory table and in a table that holds her
row. -/
theorem C25_user_create_outcomes_witness :
    ((sampleUsers.userRepo.Create adaCreate.toUser [adaRow] =
          ((some .ErrDuplicateEmail, adaCreate.toUser), [adaRow]) ∧
        errorsIs .ErrDuplicateEmail .ErrDuplicateEmail = true) ∧
      (sampleUsers.Create adaCreate [adaRow]).result = .error .ErrEmailExists) ∧
    (∃ created, sampleUsers.userRepo.Create adaCreate.toUser [] = ((none, created), [created]) ∧
      (sampleUsers.Create adaCreate []).result = .ok created.ToResponse ∧
      created.ToResponse.Name = adaCreate.Name ∧ created.ToResponse.Email = adaCreate.Email) :=
  ⟨⟨⟨by decide, by decide⟩,
      (C25_user_create_outcomes sampleUsers adaCreate [adaRow]).1 .ErrDuplicateEmail
        adaCreate.toUser [adaRow] (by decide) (by decide)⟩,
    ⟨_, rfl,
      ((C25_user_create_outcomes sampleUsers adaCreate []).2.2.1 _ _ rfl).1,
      (((C25_user_create_outcomes sampleUsers adaCreate []).2.2.1 _ _ rfl).2
        (memInsert []) rfl).1,
      (((C25_user_create_outcomes sampleUsers adaCreate []).2.2.1 _ _ rfl).2
        (memInsert []) rfl).2⟩⟩

/-! ## Claims on the duplicate-key detection -/

/-- Occurrence as a substring, by position: `sub` is the slice of `s` of its own length at
some index at which that slice exists. -/
theorem occursIn_iff (sub s : GoString) :
    occursIn sub s ↔ ∃ k, k + sub.length ≤ s.length ∧ (s.drop k).take sub.length = sub := by
  constructor
  · rintro ⟨a, b, rfl⟩
    refine ⟨a.length, ?_, ?_⟩
    · simp only [List.length_append]
      omega
    · simp [List.append_assoc]
  · rintro ⟨k, _, hk⟩
    refine ⟨s.take k, (s.drop k).drop sub.length, ?_⟩
    have h1 : s = s.take k ++ s.drop k := (List.take_append_drop k s).symm
    have h2 : s.drop k = (s.drop k).take sub.length ++ (s.drop k).drop sub.length :=
      (List.take_append_drop _ _).symm
    rw [hk] at h2
    rw [List.append_assoc, ← h2]
    exact h1

/-- A slice whose bounds lie within the string exists. -/
theorem slice_of_le (s : GoString) (i m : Nat) (h : i + m ≤ s.length) :
    slice s i (i + m) = some ((s.drop i).take m) := by
  unfold slice
  have hc : i ≤ i + m ∧ i + m ≤ s.length := ⟨by omega, h⟩
  rw [if_pos hc]
  simp

/-- The loop of `containsSubstring`, run over indices at which the slice exists, does not
panic and finds the first index, if any, at which the slice is `substr`. -/
theorem containsSubstringLoop_spec (s substr : GoString) :
    ∀ n i, i + n + substr.length ≤ s.length + 1 →
      ∃ b, containsSubstringLoop s substr n i = some b ∧
        (b = true ↔ ∃ k, i ≤ k ∧ k < i + n ∧ (s.drop k).take substr.length = substr) := by
  intro n
  induction n with
  | zero =>
    intro i _
    refine ⟨false, rfl, ?_⟩
    constructor
    · intro h
      cases h
    · rintro ⟨k, h1, h2, _⟩
      omega
  | succ n ih =>
    intro i hi
    unfold containsSubstringLoop
    rw [slice_of_le s i substr.length (by omega)]
    by_cases hw : (s.drop i).take substr.length = substr
    · refine ⟨true, by simp [hw], ?_⟩
      constructor
      · intro _
        exact ⟨i, le_refl _, by omega, hw⟩
      · intro _
        rfl
    · obtain ⟨b, hb, hiff⟩ := ih (i + 1) (by omega)
      refine ⟨b, by simp [hw, hb], ?_⟩
      rw [hiff]
      constructor
      · rintro ⟨k, h1, h2, h3⟩
        exact ⟨k, by omega, by omega, h3⟩
      · rintro ⟨k, h1, h2, h3⟩
        have hne : k ≠ i := by
          intro e
          rw [e] at h3
          exact hw h3
        exact ⟨k, by omega, by omega, h3⟩

/-- The function `containsSubstring` never panics, and it returns true exactly when
`substr` occurs in `s`. -/
theorem containsSubstring_spec (s substr : GoString) :
    ∃ b, containsSubstring s substr = some b ∧ (b = true ↔ occursIn substr s) := by
  unfold containsSubstring
  by_cases hlen : substr.length ≤ s.length
  · have hn : Int.toNat ((s.length : Int) - (substr.length : Int) + 1) =
        s.length - substr.length + 1 := by omega
    rw [hn]
    obtain ⟨b, hb, hiff⟩ := containsSubstringLoop_spec s substr
      (s.length - substr.length + 1) 0 (by omega)
    refine ⟨b, hb, ?_⟩
    rw [hiff, occursIn_iff]
    constructor
    · rintro ⟨k, _, h2, h3⟩
      exact ⟨k, by omega, h3⟩
    · rintro ⟨k, h1, h3⟩
      exact ⟨k, by omega, by omega, h3⟩
  · have hn : Int.toNat ((s.length : Int) - (substr.length : Int) + 1) = 0 := by omega
    rw [hn]
    refine ⟨false, rfl, ?_⟩
    rw [occursIn_iff]
    constructor
    · intro h
      cases h
    · rintro ⟨k, h1, _⟩
      omega

/-- The function `contains` never panics, and it returns true exactly when `substr` occurs
in `s`. -/
theorem contains_spec (s substr : GoString) :
    ∃ b, contains s substr = some b ∧ (b = true ↔ occursIn substr s) := by
  unfold contains
  by_cases hlen : s.length ≥ substr.length
  · rw [if_pos hlen]
    exact containsSubstring_spec s substr
  · rw [if_neg hlen]
    refine ⟨false, rfl, ?_⟩
    rw [occursIn_iff]
    constructor
    · intro h
      cases h
    · rintro ⟨k, h1, _⟩
      omega

/-- C26. The function `isDuplicateKeyError` returns true exactly when the error is not nil
and its text contains `duplicate key` or `23505` as a contiguous substring; `contains`
returns true exactly when the second string occurs in the first, in particular for an empty
second string (true) and for one longer than the first (false); and `containsSubstring`
does not panic on any pair of strings, its slices being always within bounds, and agrees
with `contains`. -/
theorem C26_duplicate_key_detection (s sub : GoString) :
    (∃ b, contains s sub = some b ∧ (b = true ↔ occursIn sub s)) ∧
    contains s [] = some true ∧
    (s.length < sub.length → contains s sub = some false) ∧
    (∃ b, containsSubstring s sub = some b ∧ (b = true ↔ occursIn sub s)) ∧
    (∃ b, isDuplicateKeyError (some s) = some b ∧
      (b = true ↔ occursIn (ascii "duplicate key") s ∨ occursIn (ascii "23505") s)) ∧
    isDuplicateKeyError none = some false := by
  refine ⟨contains_spec s sub, ?_, ?_, containsSubstring_spec s sub, ?_, rfl⟩
  · obtain ⟨b, hb, hiff⟩ := contains_spec s []
    have : b = true := hiff.mpr ⟨[], s, by simp⟩
    rw [hb, this]
  · intro hlt
    unfold contains
    rw [if_neg (by omega)]
  · obtain ⟨b1, hb1, h1⟩ := contains_spec s (ascii "duplicate key")
    obtain ⟨b2, hb2, h2⟩ := contains_spec s (ascii "23505")
    simp only [isDuplicateKeyError, hb1]
    cases b1 with
    | true =>
      refine ⟨true, rfl, ?_⟩
      constructor
      · intro _
        exact Or.inl (h1.mp rfl)
      · intro _
        rfl
    | false =>
      refine ⟨b2, hb2, ?_⟩
      rw [h2]
      constructor
      · intro h
        exact Or.inr h
      · rintro (h | h)
        · have := h1.mpr h
          cases this
        · exact h

/-- Witness of C26: a string shorter than the one searched for, an empty string searched
for, the text of the driver for a violated unique index, and another error text. -/
theorem C26_duplicate_key_detection_witness :
    (ascii "abc").length < (ascii "abcd").length ∧
    contains (ascii "abc") (ascii "abcd") = some false ∧
    contains (ascii "abc") [] = some true ∧
    (∃ b, isDuplicateKeyError (some (ascii "pq: duplicate key value violates unique constraint"))
        = some b ∧
      (b = true ↔
        occursIn (ascii "duplicate key")
          (ascii "pq: duplicate key value violates unique constraint") ∨
        occursIn (ascii "23505")
          (ascii "pq: duplicate key value violates unique constraint"))) ∧
    isDuplicateKeyError (some (ascii "pq: duplicate key value violates unique constraint")) =
      some true ∧
    isDuplicateKeyError (some (ascii "ERROR 23505")) = some true ∧
    isDuplicateKeyError (some (ascii "driver: bad connection")) = some false ∧
    containsSubstring (ascii "abc") (ascii "abcd") = some false :=
  ⟨by decide,
    (C26_duplicate_key_detection (ascii "abc") (ascii "abcd")).2.2.1 (by decide),
    (C26_duplicate_key_detection (ascii "abc") []).2.1,
    (C26_duplicate_key_detection (ascii "pq: duplicate key value violates unique constraint")
      []).2.2.2.2.1,
    by decide, by decide, by decide, by decide⟩

/-! ## Claims on a lifetime that is not positive -/

/-- With a lifetime that is not positive the `exp` instant is not after the instant of
issuance. -/
theorem expiry_not_after_issuance (t0 t1 d : Int) (hd : d ≤ 0) (h01 : t0 ≤ t1) :
    (t0 + d) / 1000000000 * 1000000000 ≤ t1 := by
  omega

/-- A token issued by a service whose lifetime is not positive is reported as expired by
that service from the instant of issuance on. -/
theorem Validate_issued_nonpositive (L : Lib) (j : JWT) (t0 t1 : Time) (user : User)
    (c2 : Claims)
    (hH : L.unmarshalHeader (L.marshalHeader (ascii "HS256")) = some (some (ascii "HS256")))
    (hC : L.unmarshalClaims (L.marshalClaims (j.claimsFor t0 user)) = some c2)
    (hexp : c2.Registered.ExpiresAt = (j.claimsFor t0 user).Registered.ExpiresAt)
    (hd : j.expireTime ≤ 0) (h01 : t0 ≤ t1) (tok : GoString)
    (hg : j.Generate L t0 user = .ok tok) :
    j.Validate L t1 tok = .error .ErrExpiredToken := by
  rw [Generate_eq] at hg
  rw [← Except.ok.inj hg]
  refine Validate_signed_expired L j t1 _ c2 ((t0 + j.expireTime) / Second) hH hC hexp ?_
  exact expiry_not_after_issuance t0 t1 j.expireTime hd h01

/-- A token response of `Register` carries a token issued by `Generate` at the instant of
the call. -/
theorem Register_ok_token {σ : Type} (L : Lib) (bc : Bcrypt σ) (s : authService σ)
    (now : Time) (req : RegisterRequest) (st : σ) (resp : TokenResponse)
    (h : (s.Register L bc now req st).result = .ok resp) :
    ∃ created, s.jwt.Generate L now created = .ok resp.AccessToken := by
  rw [Register_eq_RegisterVia] at h
  rcases RegisterVia_cases (s.jwt.issuer L now) bc s.userRepo req st with
    ⟨u, st1, _, ho⟩ | ⟨err, st1, _, _, ho⟩ | ⟨err, st1, e2, st2, _, _, _, ho⟩ |
    ⟨err, st1, hashed, st2, e3, left, st3, _, _, _, h3, ho⟩ |
    ⟨err, st1, hashed, st2, created, st3, e4, _, _, _, h3, h4, ho⟩ |
    ⟨err, st1, hashed, st2, created, st3, token, _, _, _, h3, h4, ho⟩
  · rw [ho] at h
    cases h
  · rw [ho] at h
    cases h
  · rw [ho] at h
    cases h
  · rw [ho] at h
    cases h
  · rw [ho] at h
    cases h
  · rw [ho] at h
    simp only [Except.ok.injEq] at h
    subst h
    exact ⟨created, h4⟩

/-- A token response of `Login` carries a token issued by `Generate` at the instant of the
call. -/
theorem Login_ok_token {σ : Type} (L : Lib) (bc : Bcrypt σ) (s : authService σ)
    (now : Time) (req : LoginRequest) (st : σ) (resp : TokenResponse)
    (h : (s.Login L bc now req st).result = .ok resp) :
    ∃ user, s.jwt.Generate L now user = .ok resp.AccessToken := by
  unfold authService.Login at h
  rcases h1 : s.userRepo.GetByEmail req.Email st with ⟨r1, st1⟩
  rw [h1] at h
  cases r1 with
  | error err =>
    simp only at h
    split at h <;> cases h
  | ok user =>
    simp only at h
    cases h2 : bc.CompareHashAndPassword user.Password req.Password with
    | some e =>
      rw [h2] at h
      cases h
    | none =>
      rw [h2] at h
      simp only at h
      cases h3 : s.jwt.Generate L now user with
      | error e =>
        rw [h3] at h
        cases h
      | ok token =>
        rw [h3] at h
        simp only [Except.ok.injEq] at h
        subst h
        exact ⟨user, h3⟩

/-- C27 (as amended). When the lifetime of the token service is zero or negative, every
token that `Generate` issues is already expired at issuance: the service reports
`ErrExpiredToken` for it at the instant of issuance and at every later instant, and the
gate answers a request carrying it with 401 without invoking the handler; every token
response of `Register` and of `Login` carries such a token. The lifetime is zero or negative
when `JWT_EXPIRE_HOURS` holds an integer `n <= 0` whose product with `time.Hour` fits an
`int64`, so for `n` from -2562047 to 0, which `Load` accepts as it stands. The JSON codec is
assumed to read the issued header back and to read the issued payload as claims with the
same `exp`. -/
theorem C27_nonpositive_lifetime (L : Lib) (j : JWT) (t0 t1 : Time)
    (hH : L.unmarshalHeader (L.marshalHeader (ascii "HS256")) = some (some (ascii "HS256")))
    (hd : j.expireTime ≤ 0) (h01 : t0 ≤ t1) :
    (∀ user tok c2, j.Generate L t0 user = .ok tok →
      L.unmarshalClaims (L.marshalClaims (j.claimsFor t0 user)) = some c2 →
      c2.Registered.ExpiresAt = (j.claimsFor t0 user).Registered.ExpiresAt →
      j.Validate L t1 tok = .error .ErrExpiredToken ∧
      ∀ next c, bearerToken (c.HeaderGet (ascii "Authorization")) = some tok →
        (JWTAuth L j t1 next c).ctx.responses =
          c.responses ++ [unauthorized (ascii "Invalid or expired token")] ∧
        (JWTAuth L j t1 next c).nextCalls = []) ∧
    (∀ user, ∃ tok, j.Generate L t0 user = .ok tok) ∧
    (∀ (σ : Type) (bc : Bcrypt σ) (s : authService σ) (req : RegisterRequest) (st : σ)
        (resp : TokenResponse),
      s.jwt = j → (s.Register L bc t0 req st).result = .ok resp →
      ∃ created, j.Generate L t0 created = .ok resp.AccessToken) ∧
    (∀ (σ : Type) (bc : Bcrypt σ) (s : authService σ) (req : LoginRequest) (st : σ)
        (resp : TokenResponse),
      s.jwt = j → (s.Login L bc t0 req st).result = .ok resp →
      ∃ user, j.Generate L t0 user = .ok resp.AccessToken) ∧
    (∀ env v n, env (ascii "JWT_EXPIRE_HOURS") = some v → Atoi v = some n → n ≤ 0 →
      -2562047 ≤ n →
      (New (Load env).JWT).expireTime = n * Hour ∧ (New (Load env).JWT).expireTime ≤ 0) := by
  refine ⟨?_, ?_, ?_, ?_, ?_⟩
  · intro user tok c2 hg hC hexp
    have hv := Validate_issued_nonpositive L j t0 t1 user c2 hH hC hexp hd h01 tok hg
    refine ⟨hv, ?_⟩
    intro next c hb
    rw [JWTAuth_rejected L j t1 next c tok _ hb hv]
    exact ⟨rfl, rfl⟩
  · intro user
    exact ⟨_, Generate_eq L j t0 user⟩
  · intro σ bc s req st resp hj h
    subst hj
    exact Register_ok_token L bc s t0 req st resp h
  · intro σ bc s req st resp hj h
    subst hj
    exact Login_ok_token L bc s t0 req st resp h
  · intro env v n he ha hn0 hn1
    have hg : getEnvAsInt env (ascii "JWT_EXPIRE_HOURS") 24 = n := by
      unfold getEnvAsInt
      rw [he]
      simp only [ha]
    have hr0 : -9223372036854775808 ≤ n * Hour := by
      unfold Hour Second
      omega
    have hr1 : n * Hour < 9223372036854775808 := by
      unfold Hour Second
      omega
    have hx : (New (Load env).JWT).expireTime =
        wrap64 (getEnvAsInt env (ascii "JWT_EXPIRE_HOURS") 24 * Hour) := rfl
    rw [hx, hg, wrap64_of_range _ hr0 hr1]
    refine ⟨rfl, ?_⟩
    have hm : ∀ m : Int, m ≤ 0 → m * (3600 * 1000000000) ≤ 0 := by
      intro m h
      omega
    exact hm n hn0

set_option maxRecDepth 1000000 in
/-- Counterexample to C27 as stated: `JWT_EXPIRE_HOURS=-2562048` is an integer below zero
that `Load` accepts, but its product with `time.Hour` wraps around in `int64` to a positive
lifetime of about 292 years; the token that the service so configured issues is accepted by
`Validate` at the instant of issuance, and the token of a registration passes the gate. -/
theorem C27_counterexample :
    Atoi (ascii "-2562048") = some (-2562048) ∧ (-2562048 : Int) ≤ 0 ∧
    (New (Load (expireHoursEnv "-2562048")).JWT).expireTime = 9223371273709551616 ∧
    (∃ tok claims,
      (New (Load (expireHoursEnv "-2562048")).JWT).Generate sampleLib sampleNow ada = .ok tok ∧
      (New (Load (expireHoursEnv "-2562048")).JWT).Validate sampleLib sampleNow tok =
        .ok claims ∧
      (New (Load (expireHoursEnv "-2562048")).JWT).Validate sampleLib sampleNow tok ≠
        .error .ErrExpiredToken ∧
      claims.Registered.ExpiresAt = some 10923371273) ∧
    ∃ resp,
      ((loadedAuth "-2562048").Register sampleLib (sampleBcrypt _) sampleNow adaRequest
        []).result = .ok resp ∧
      (JWTAuth sampleLib (loadedAuth "-2562048").jwt sampleNow AuthHandler.GetMe
        (contextWith (ascii "Bearer " ++ resp.AccessToken))).ctx.responses =
        [(200, { Success := true, Message := ascii "User retrieved successfully"
                 Data := some (.authUser
                   { ID := 1, Name := ascii "Ada", Email := ascii "ada@example.com" })
                 Errors := none })] :=
  ⟨by decide, by decide, by decide, ⟨_, _, rfl, rfl, by decide, by decide⟩,
    ⟨_, rfl, by decide⟩⟩

set_option maxRecDepth 1000000 in
/-- Witness of C27: the service configured with `JWT_EXPIRE_HOURS=-1`, a token issued for
Ada and validated one second later, the registration and the login of Ada. -/
theorem C27_nonpositive_lifetime_witness :
    (sampleLib.unmarshalHeader (sampleLib.marshalHeader (ascii "HS256")) =
        some (some (ascii "HS256")) ∧
      (loadedAuth "-1").jwt.expireTime ≤ 0 ∧ sampleNow ≤ sampleNow + Second) ∧
    (∃ tok, (loadedAuth "-1").jwt.Generate sampleLib sampleNow ada = .ok tok ∧
      (loadedAuth "-1").jwt.Validate sampleLib (sampleNow + Second) tok =
        .error .ErrExpiredToken ∧
      (JWTAuth sampleLib (loadedAuth "-1").jwt (sampleNow + Second) AuthHandler.GetMe
          (contextWith (ascii "Bearer " ++ tok))).ctx.responses =
        (contextWith (ascii "Bearer " ++ tok)).responses ++
          [unauthorized (ascii "Invalid or expired token")] ∧
      (JWTAuth sampleLib (loadedAuth "-1").jwt (sampleNow + Second) AuthHandler.GetMe
          (contextWith (ascii "Bearer " ++ tok))).nextCalls = []) ∧
    (∃ resp, ((loadedAuth "-1").Register sampleLib (sampleBcrypt _) sampleNow adaRequest
        []).result = .ok resp ∧
      ∃ created, (loadedAuth "-1").jwt.Generate sampleLib sampleNow created =
        .ok resp.AccessToken) ∧
    (∃ resp, ((loadedAuth "-1").Login sampleLib (sampleBcrypt _) sampleNow adaLogin
        [adaRow]).result = .ok resp ∧
      ∃ user, (loadedAuth "-1").jwt.Generate sampleLib sampleNow user =
        .ok resp.AccessToken) ∧
    (New (Load (expireHoursEnv "-1")).JWT).expireTime = -1 * Hour ∧
    (New (Load (expireHoursEnv "-1")).JWT).expireTime ≤ 0 :=
  ⟨⟨by decide, by decide, by decide⟩,
    ⟨_, rfl,
      ((C27_nonpositive_lifetime sampleLib (loadedAuth "-1").jwt sampleNow (sampleNow + Second)
        (by decide) (by decide) (by decide)).1 ada _
        ((loadedAuth "-1").jwt.claimsFor sampleNow ada) rfl (by decide) rfl).1,
      ((C27_nonpositive_lifetime sampleLib (loadedAuth "-1").jwt sampleNow (sampleNow + Second)
        (by decide) (by decide) (by decide)).1 ada _
        ((loadedAuth "-1").jwt.claimsFor sampleNow ada) rfl (by decide) rfl).2
        AuthHandler.GetMe _ (by decide)⟩,
    ⟨_, rfl,
      (C27_nonpositive_lifetime sampleLib (loadedAuth "-1").jwt sampleNow (sampleNow + Second)
        (by decide) (by decide) (by decide)).2.2.1 _ (sampleBcrypt _) (loadedAuth "-1")
        adaRequest [] _ rfl rfl⟩,
    ⟨_, rfl,
      (C27_nonpositive_lifetime sampleLib (loadedAuth "-1").jwt sampleNow (sampleNow + Second)
        (by decide) (by decide) (by decide)).2.2.2.1 _ (sampleBcrypt _) (loadedAuth "-1")
        adaLogin [adaRow] _ rfl rfl⟩,
    (C27_nonpositive_lifetime sampleLib (loadedAuth "-1").jwt sampleNow (sampleNow + Second)
      (by decide) (by decide) (by decide)).2.2.2.2 (expireHoursEnv "-1") (ascii "-1") (-1)
      (by decide) (by decide) (by decide) (by decide)⟩

end GoEchoStarter
